import Mathlib

/-!
Shallow embedding of the RTS battle-simulation core (src/src/game/state.ts and
the spatial index in src/utils/SpatialGrid.ts), together with theorems checking
the specification claims against it.

Modelling conventions:
* JavaScript numbers are modelled as real numbers; all arithmetic is exact.
* JavaScript object references are modelled by unit ids resolved against the
  live unit list (the store mutates unit objects in place; we update the list
  entry with the matching id).
* Record<string, V> objects used as key/value maps (orders, patrols, spawn and
  regen timestamps, AI offsets, target cache) are modelled as functions from
  the key type to Option V; they are only read, written and deleted pointwise
  in the source.
* Sources of nondeterminism inside the tick, namely Math.random(), Date.now()
  and nanoid(), are modelled as oracle streams in an Env record, consumed at
  explicit cursors threaded through the computation.
* The module-level distance memoization cache of distance3D is threaded
  explicitly as an association list, as is the per-tick combat pair queue.
-/

namespace RTS

noncomputable section
open scoped Classical

/-- 3D position, mirroring Position3D from the game types. -/
structure Pos3 where
  x : ℝ
  y : ℝ
  z : ℝ

/-- The twelve selectable species. -/
inductive AnimalId
  | Bee | Bear | Bunny | Chicken | Cat | Dolphin
  | Fox | Frog | Owl | Pig | Turtle | Yetti
deriving DecidableEq

/-- Per-species base stats record. -/
structure AnimalStats where
  baseHp : ℝ
  dmg : ℝ
  speed : ℝ

/-- The ANIMALS table from state.ts. -/
def ANIMALS : AnimalId → AnimalStats
  | .Bee => ⟨60, 10, 20.4⟩
  | .Bear => ⟨220, 40, 8.16⟩
  | .Bunny => ⟨75, 9, 18.36⟩
  | .Chicken => ⟨70, 8, 19.04⟩
  | .Cat => ⟨90, 12, 16.32⟩
  | .Dolphin => ⟨110, 18, 13.6⟩
  | .Fox => ⟨140, 20, 14.28⟩
  | .Frog => ⟨80, 10, 17.68⟩
  | .Owl => ⟨100, 16, 14.96⟩
  | .Pig => ⟨160, 18, 12.24⟩
  | .Turtle => ⟨240, 24, 6.8⟩
  | .Yetti => ⟨260, 30, 7.48⟩

/-- The four unit archetypes. -/
inductive UnitKind
  | Base | Queen | King | Unit
deriving DecidableEq

/-- The per-unit behavior state strings idle / moving_to_order / pursuing_enemy. -/
inductive UnitState
  | idle | moving_to_order | pursuing_enemy
deriving DecidableEq

/-- The mutable unit entity. Optional fields model JS fields that may be
absent (undefined); they carry the same names as in the source. -/
structure Unit where
  id : ℕ
  ownerId : ℕ
  animal : AnimalId
  kind : UnitKind
  position : Pos3
  hp : ℝ
  maxHp : ℝ
  attackDamage : ℝ
  moveSpeed : ℝ
  attackCooldownMs : ℝ
  lastAttackAtMs : ℝ
  rotation : ℝ
  unitState : Option UnitState := none
  arrivedAtDestinationMs : Option ℝ := none
  lastCombatTargetId : Option ℕ := none
  lastCombatEngagementMs : Option ℝ := none
  priorityAttacker : Option ℕ := none
  currentAttackers : Option (List ℕ) := none
  collisionAttempts : Option ℕ := none
  movementPausedUntilMs : Option ℝ := none
  firstBlockedAtMs : Option ℝ := none
  isHopping : Option Bool := none
  hopPhase : Option ℝ := none

/-- A player record. -/
structure Player where
  id : ℕ
  name : ℕ
  isAI : Bool
  animals : List AnimalId
  basePositions : List Pos3

/-- A queen patrol route; currentTarget = true models the string value
"end" and false models "start". -/
structure PatrolRoute where
  startPosition : Pos3
  endPosition : Pos3
  currentTarget : Bool

/-- Game configuration constants (defaultConfig in state.ts). -/
structure GameConfig where
  mapSize : ℝ
  spawnIntervalMs : ℝ
  regenPerSecondNearQueen : ℝ
  regenRadius : ℝ

/-- defaultConfig from state.ts. -/
def defaultConfig : GameConfig :=
  ⟨50, 10000, 5, 8⟩

/-- The optimization toggles. -/
structure Optimizations where
  aiThrottling : Bool
  combatBatching : Bool
  movementCaching : Bool
  regenThrottling : Bool
  winCheckThrottling : Bool
  deadUnitBatching : Bool
  spawnOptimization : Bool

/-- Bridge animation state machine states. -/
inductive BridgeAnimationState
  | up | lowering | down | raising
deriving DecidableEq

/-- Bridge animation visual frames. -/
inductive BridgeFrame
  | Fully_Up | Almost_Up | Almost_Down | Fully_Down
deriving DecidableEq

/-- One bridge animation instance. -/
structure BridgeAnimation where
  currentState : BridgeAnimationState
  currentFrame : BridgeFrame
  animationStartMs : ℝ
  frameStartMs : ℝ
  triggeredByPlayer : Bool

/-- The two bridges. -/
structure BridgeState where
  rightBridge : BridgeAnimation
  leftBridge : BridgeAnimation

/-- Pointwise update of a function-map at one key. -/
def fset {κ α : Type} [DecidableEq κ] (m : κ → Option α) (k : κ) (v : α) :
    κ → Option α :=
  fun k2 => if k2 = k then some v else m k2

/-- Pointwise deletion in a function-map at one key. -/
def fdel {κ α : Type} [DecidableEq κ] (m : κ → Option α) (k : κ) :
    κ → Option α :=
  fun k2 => if k2 = k then none else m k2

/-- The simulation aggregate: the slice of the zustand store mutated by the
tick and the command functions. The spatialGrid cache object is not a state
field here because the tick rebuilds it from the unit list before any query
(it is threaded through the tick as a value instead). -/
structure GameState where
  config : GameConfig
  players : List Player
  units : List Unit
  lastSpawnAtMsByQueenId : ℕ → Option ℝ
  lastRegenAtMsByUnitId : ℕ → Option ℝ
  localPlayerId : Option ℕ
  matchStarted : Bool
  gameOver : Bool
  winner : Option ℕ
  selectedUnitIds : List ℕ
  unitOrders : ℕ → Option Pos3
  queenPatrols : ℕ → Option PatrolRoute
  unitCountCache : ℕ → AnimalId → ℕ
  lastRegenCheckMs : ℝ
  tickCounter : ℕ
  debugTickCount : Option ℕ
  aiThinkingOffset : ℕ → Option ℕ
  movementDirectionCache : ℕ → Option Pos3
  targetCache : ℕ × Bool → Option ℕ
  lastWinCheckMs : ℝ
  deadUnitsToRemove : List ℕ
  ultraPerformanceMode : Bool
  optimizations : Optimizations
  isPaused : Bool
  bridgeState : BridgeState

/-! ## 3D utility functions -/

/-- subtract3D from state.ts. -/
def subtract3D (a b : Pos3) : Pos3 :=
  ⟨a.x - b.x, a.y - b.y, a.z - b.z⟩

/-- normalize3D from state.ts. -/
def normalize3D (vec : Pos3) : Pos3 :=
  let length := Real.sqrt (vec.x * vec.x + vec.y * vec.y + vec.z * vec.z)
  if length = 0 then ⟨0, 0, 0⟩
  else ⟨vec.x / length, vec.y / length, vec.z / length⟩

/-- distanceSquared3D from state.ts. -/
def distanceSquared3D (a b : Pos3) : ℝ :=
  let dx := a.x - b.x
  let dy := a.y - b.y
  let dz := a.z - b.z
  dx * dx + dy * dy + dz * dz

/-- JS Math.round: round half toward positive infinity. -/
def jsRound (x : ℝ) : ℤ :=
  ⌊x + 1 / 2⌋

/-- JS Math.trunc: round toward zero. -/
def jsTrunc (x : ℝ) : ℤ :=
  if 0 ≤ x then ⌊x⌋ else ⌈x⌉

/-- The JS remainder operator percent on numbers (sign of the dividend). -/
def jsMod (v m : ℝ) : ℝ :=
  v - m * (jsTrunc (v / m) : ℝ)

/-- JS Math.atan2 (first argument y, second x). -/
def jsAtan2 (y x : ℝ) : ℝ :=
  if 0 < x then Real.arctan (y / x)
  else if x < 0 ∧ 0 ≤ y then Real.arctan (y / x) + Real.pi
  else if x < 0 then Real.arctan (y / x) - Real.pi
  else if 0 < y then Real.pi / 2
  else if y < 0 then -(Real.pi / 2)
  else 0

/-- Key of the module-level distance memoization cache: the six coordinates
of the two positions, rounded to one decimal (getCacheKey in state.ts; the
string key is injective in the rounded tuple). -/
def getCacheKey (a b : Pos3) : ℤ × ℤ × ℤ × ℤ × ℤ × ℤ :=
  (jsRound (a.x * 10), jsRound (a.y * 10), jsRound (a.z * 10),
   jsRound (b.x * 10), jsRound (b.y * 10), jsRound (b.z * 10))

/-- The distance memoization cache contents. -/
abbrev DistCache := List ((ℤ × ℤ × ℤ × ℤ × ℤ × ℤ) × ℝ)

/-- CACHE_SIZE_LIMIT from state.ts. -/
def CACHE_SIZE_LIMIT : ℕ := 1000

/-- distance3D from state.ts, with the module-level memoization cache
threaded explicitly. On a hit it returns the cached value (which, due to the
rounding in getCacheKey, may be the distance of a nearby but different pair
of positions); on a miss it computes the Euclidean distance, clears the cache
if it reached the size limit, and stores the value. -/
def distance3D (cache : DistCache) (a b : Pos3) : ℝ × DistCache :=
  let cacheKey := getCacheKey a b
  match cache.lookup cacheKey with
  | some d => (d, cache)
  | none =>
      let dx := a.x - b.x
      let dy := a.y - b.y
      let dz := a.z - b.z
      let distance := Real.sqrt (dx * dx + dy * dy + dz * dz)
      let cache1 := if CACHE_SIZE_LIMIT ≤ cache.length then [] else cache
      (distance, cache1 ++ [(cacheKey, distance)])

/-! ## Spatial grid (src/utils/SpatialGrid.ts)

The tick constructs the grid as new SpatialGrid(1000, 50), so gridSize is
20 = ceil(1000 / 50) and cellSize is 50. The grid Map stores arrays of unit
object references, bucketed by the cell of the position at build time; we
store unit ids and resolve them against a live unit list at query time, which
models the JS aliasing of unit objects (queries filter by the current, possibly
since-mutated, position of each bucketed unit). Cell keys are the strings
"x,z", injective in the integer pair (x, z), modelled as the pair itself. -/

/-- cellSize of the grid instance used by the tick. -/
def cellSize : ℝ := 50

/-- gridSize = ceil(worldSize / cellSize) of the grid instance used by the tick. -/
def gridSize : ℕ := 20

/-- A grid value: for each cell key, the ids bucketed there in insertion order. -/
abbrev Grid := ℤ × ℤ → List ℕ

/-- getGridCoords: floor-division of the shifted (x, z) into a cell index. -/
def getGridCoords (position : Pos3) : ℤ × ℤ :=
  (⌊(position.x + (gridSize : ℝ) * cellSize / 2) / cellSize⌋,
   ⌊(position.z + (gridSize : ℝ) * cellSize / 2) / cellSize⌋)

/-- addUnit: push the unit id onto the bucket of its cell. -/
def addUnit (g : Grid) (u : Unit) : Grid :=
  fun key => if key = getGridCoords u.position then g key ++ [u.id] else g key

/-- The empty grid (clear). -/
def emptyGrid : Grid := fun _ => []

/-- buildFromUnits: clear, then add every unit in order. -/
def buildFromUnits (units : List Unit) : Grid :=
  units.foldl addUnit emptyGrid

/-- The loop bounds of getNearbyUnits: dx (and dz) ranges over the integers
from -cellRadius to cellRadius inclusive (empty when cellRadius < 0). -/
def offsetsList (k : ℤ) : List ℤ :=
  (List.range (2 * k + 1).toNat).map (fun (i : ℕ) => -k + (i : ℤ))

/-- The private distance3D helper of SpatialGrid (no memoization cache). -/
def SpatialGrid.distance3D (a b : Pos3) : ℝ :=
  let dx := a.x - b.x
  let dy := a.y - b.y
  let dz := a.z - b.z
  Real.sqrt (dx * dx + dy * dy + dz * dz)

/-- getNearbyUnits: visit every cell within ceil(radius / cellSize) cells of
the query cell in both axes, resolve the bucketed ids against the live unit
list, and keep the units whose exact 3D distance is at most the radius. -/
def getNearbyUnits (g : Grid) (live : List Unit) (position : Pos3) (radius : ℝ) :
    List Unit :=
  let coords := getGridCoords position
  let cellRadius : ℤ := ⌈radius / cellSize⌉
  (offsetsList cellRadius).flatMap (fun dx =>
    (offsetsList cellRadius).flatMap (fun dz =>
      ((g (coords.1 + dx, coords.2 + dz)).filterMap
          (fun i => live.find? (fun u => u.id = i))).filter
        (fun u => SpatialGrid.distance3D position u.position ≤ radius)))

/-- findEnemiesInRange from SpatialGrid.ts: nearby units of a different
owner within the range. -/
def findEnemiesInRange (g : Grid) (live : List Unit) (unit : Unit) (range : ℝ) :
    List Unit :=
  (getNearbyUnits g live unit.position range).filter
    (fun otherUnit =>
      ¬(otherUnit.id = unit.id ∨ otherUnit.ownerId = unit.ownerId) ∧
        SpatialGrid.distance3D unit.position otherUnit.position ≤ range)

/-- findNearbyQueens from SpatialGrid.ts: nearby same-owner queens within
the radius (the unit itself qualifies when it is a queen). -/
def findNearbyQueens (g : Grid) (live : List Unit) (unit : Unit) (radius : ℝ) :
    List Unit :=
  (getNearbyUnits g live unit.position radius).filter
    (fun otherUnit =>
      otherUnit.kind = UnitKind.Queen ∧ otherUnit.ownerId = unit.ownerId ∧
        SpatialGrid.distance3D unit.position otherUnit.position ≤ radius)

/-! ## Win conditions (checkWinConditions in state.ts) -/

/-- The inner loop of checkWinConditions for one candidate and one enemy id:
the enemy still holds a Base, King or Queen (so the candidate does not win
through this enemy). -/
def enemyStillAlive (units : List Unit) (enemyId : ℕ) : Prop :=
  0 < (units.filter (fun u => u.ownerId = enemyId ∧ u.kind = UnitKind.Base)).length ∨
  0 < (units.filter (fun u => u.ownerId = enemyId ∧ u.kind = UnitKind.King)).length ∨
  0 < (units.filter (fun u => u.ownerId = enemyId ∧ u.kind = UnitKind.Queen)).length

/-- The outer loop of checkWinConditions: scan player ids in order; for the
first one all of whose enemies are fully eliminated, set gameOver and the
winner and stop. -/
def checkWinLoop (playerIds : List ℕ) (allIds : List ℕ) (s : GameState) :
    GameState :=
  match playerIds with
  | [] => s
  | playerId :: rest =>
      let enemyIds := allIds.filter (fun pid => pid ≠ playerId)
      if enemyIds.all (fun enemyId => ¬enemyStillAlive s.units enemyId) then
        { s with gameOver := true, winner := some playerId }
      else
        checkWinLoop rest allIds s

/-- checkWinConditions from state.ts. -/
def checkWinConditions (s : GameState) : GameState :=
  let playerIds := s.players.map (fun p => p.id)
  checkWinLoop playerIds playerIds s

/-! ## Command functions (moveCommand and setPatrol in state.ts) -/

/-- A moveCommand payload. -/
structure CommandMoveUnits where
  unitIds : List ℕ
  target : Pos3

/-- A setPatrol payload. -/
structure CommandSetPatrol where
  queenId : ℕ
  startPosition : Pos3
  endPosition : Pos3

/-- Update every unit whose id matches (the JS code mutates the single
object with this id in place; ids are unique in every reachable state). -/
def updU (units : List Unit) (uid : ℕ) (f : Unit → Unit) : List Unit :=
  units.map (fun u => if u.id = uid then f u else u)

/-- The per-id body of the moveCommand loop: only caller-owned units accept
the order; the new order is stored and combat/blocking state cleared. The
queen patrol map is not touched. -/
def moveCommandStep (target : Pos3) (s : GameState) (uid : ℕ) : GameState :=
  match s.units.find? (fun x => x.id = uid) with
  | none => s
  | some u =>
      if s.localPlayerId = some u.ownerId then
        { s with
          unitOrders := fset s.unitOrders uid target,
          units := updU s.units uid (fun w =>
            { w with
              unitState := some UnitState.moving_to_order,
              arrivedAtDestinationMs := none,
              lastCombatTargetId := none,
              lastCombatEngagementMs := none,
              priorityAttacker := none,
              collisionAttempts := some 0,
              movementPausedUntilMs := none,
              firstBlockedAtMs := none }) }
      else s

/-- moveCommand from state.ts. -/
def moveCommand (s : GameState) (cmd : CommandMoveUnits) : GameState :=
  cmd.unitIds.foldl (moveCommandStep cmd.target) s

/-- setPatrol from state.ts: valid only for a caller-owned queen; stores the
patrol route (initially approaching the end position) and deletes any active
move order of the queen. -/
def setPatrol (s : GameState) (cmd : CommandSetPatrol) : GameState :=
  match s.units.find? (fun u => u.id = cmd.queenId) with
  | none => s
  | some queen =>
      if s.localPlayerId = some queen.ownerId ∧ queen.kind = UnitKind.Queen then
        { s with
          queenPatrols := fset s.queenPatrols cmd.queenId
            ⟨cmd.startPosition, cmd.endPosition, true⟩,
          unitOrders := fdel s.unitOrders cmd.queenId }
      else s

/-! ## JS truthiness helpers

Conditions such as `unit.lastCombatEngagementMs && ...` are falsy when the
field is undefined or 0; array-valued and id-valued fields are truthy exactly
when present (arrays are always truthy objects; nanoid ids are nonempty
strings). -/

/-- Truthiness of an optional JS number: present and nonzero. -/
def jsTruthyNum (o : Option ℝ) : Prop :=
  o.getD 0 ≠ 0

/-- Truthiness of an optional JS nonneg integer field: present and nonzero. -/
def jsTruthyNat (o : Option ℕ) : Prop :=
  o.getD 0 ≠ 0

/-! ## Collision resolver (checkCollision in state.ts)

checkCollision mutates the current unit (collision attempt counter and
movement pause stamp) in addition to returning the adjusted position, and it
consumes Math.random() (coincident push direction) and Date.now() (pause
stamp); the result bundles the adjusted position, the updated unit and the
advanced oracle cursors. -/

/-- Oracle streams for the nondeterministic primitives used inside the tick:
Math.random(), Date.now() and nanoid(). Each is consumed at an explicitly
threaded cursor. -/
structure Env where
  rand : ℕ → ℝ
  wallNow : ℕ → ℝ
  freshId : ℕ → ℕ

/-- Result of checkCollision. -/
structure CollisionResult where
  adjustedPosition : Pos3
  currentUnit : Unit
  rng : ℕ
  wall : ℕ

/-- The body of the collision loop for one nearby unit, acting on the state
(adjustedPosition, hasCollision, rng cursor). -/
def collisionStep (env : Env) (currentUnit : Unit) (selectedUnitIds : List ℕ)
    (localPlayerId : Option ℕ) (isCurrentUnitSelected isCurrentUnitPlayer : Prop)
    (acc : Pos3 × Prop × ℕ) (other : Unit) : Pos3 × Prop × ℕ :=
  let adjustedPosition := acc.1
  let hasCollision := acc.2.1
  let rngC := acc.2.2
  let isOtherUnitPlayer := localPlayerId = some other.ownerId
  let isOtherUnitSelected := other.id ∈ selectedUnitIds
  let shouldReduceCollision := isCurrentUnitSelected ∧ isCurrentUnitPlayer ∧
    isOtherUnitPlayer ∧ ¬isOtherUnitSelected
  let dx := adjustedPosition.x - other.position.x
  let dz := adjustedPosition.z - other.position.z
  let distanceSquared := dx * dx + dz * dz
  let isEnemy := currentUnit.ownerId ≠ other.ownerId
  let isFriendly := currentUnit.ownerId = other.ownerId
  if isEnemy ∧ distanceSquared ≤ 4 then
    (adjustedPosition, hasCollision, rngC)
  else
    let minimumDistance : ℝ := 2.5
    if distanceSquared < minimumDistance * minimumDistance then
      let distance := Real.sqrt distanceSquared
      let pushData : ℝ × ℝ × ℕ :=
        if distance < 0.001 then
          let randomAngle := env.rand rngC * Real.pi * 2
          (Real.cos randomAngle, Real.sin randomAngle, rngC + 1)
        else
          let invDistance := 1 / distance
          (dx * invDistance, dz * invDistance, rngC)
      let pushDirectionX := pushData.1
      let pushDirectionZ := pushData.2.1
      let rng2 := pushData.2.2
      if isFriendly then
        let pushStrength : ℝ := if shouldReduceCollision then 0.2 else 0.5
        let pushDistance := (minimumDistance - distance) * pushStrength
        (⟨adjustedPosition.x + pushDirectionX * pushDistance, adjustedPosition.y,
          adjustedPosition.z + pushDirectionZ * pushDistance⟩, hasCollision, rng2)
      else
        let pushDistance := minimumDistance - distance + 0.2
        (⟨adjustedPosition.x + pushDirectionX * pushDistance, adjustedPosition.y,
          adjustedPosition.z + pushDirectionZ * pushDistance⟩, True, rng2)
    else
      (adjustedPosition, hasCollision, rngC)

/-- The epilogue of checkCollision (collision attempt counting and the
movement pause), applied to the loop result. -/
def collisionFinish (env : Env) (wall : ℕ) (currentUnit : Unit)
    (isCurrentUnitPlayer : Prop) (unitOrders : ℕ → Option Pos3)
    (looped : Pos3 × Prop × ℕ) : CollisionResult :=
  let adjustedPosition := looped.1
  let hasCollision := looped.2.1
  let rng1 := looped.2.2
  if hasCollision then
    let attempts := currentUnit.collisionAttempts.getD 0 + 1
    let hasActiveOrder := (unitOrders currentUnit.id).isSome
    let isPlayerWithOrder := isCurrentUnitPlayer ∧ hasActiveOrder = true
    let pauseThreshold : ℕ := if isPlayerWithOrder then 8 else 5
    let pauseDuration : ℝ := if isPlayerWithOrder then 100 else 200
    if pauseThreshold ≤ attempts then
      ⟨adjustedPosition,
        { currentUnit with
          movementPausedUntilMs := some (env.wallNow wall + pauseDuration),
          collisionAttempts := some 0 },
        rng1, wall + 1⟩
    else
      ⟨adjustedPosition, { currentUnit with collisionAttempts := some attempts },
        rng1, wall⟩
  else
    ⟨adjustedPosition, { currentUnit with collisionAttempts := some 0 }, rng1, wall⟩

/-- checkCollision from state.ts. -/
def checkCollision (env : Env) (rng wall : ℕ) (newPosition : Pos3)
    (currentUnit : Unit) (allUnits : List Unit) (collisionRadius : ℝ)
    (selectedUnitIds : List ℕ) (localPlayerId : Option ℕ)
    (unitOrders : ℕ → Option Pos3) : CollisionResult :=
  let isCurrentUnitSelected := currentUnit.id ∈ selectedUnitIds
  let isCurrentUnitPlayer := localPlayerId = some currentUnit.ownerId
  let nearbyUnits : List Unit :=
    if 50 < allUnits.length then
      let checkRadius := collisionRadius * 3
      allUnits.filter (fun other =>
        ¬(other.id = currentUnit.id ∨ other.kind = UnitKind.Base) ∧
          ((other.position.x - newPosition.x) * (other.position.x - newPosition.x) +
            (other.position.z - newPosition.z) * (other.position.z - newPosition.z))
            ≤ checkRadius * checkRadius)
    else
      allUnits.filter (fun other =>
        other.id ≠ currentUnit.id ∧ other.kind ≠ UnitKind.Base)
  let looped := nearbyUnits.foldl
    (collisionStep env currentUnit selectedUnitIds localPlayerId
      isCurrentUnitSelected isCurrentUnitPlayer)
    (newPosition, False, rng)
  collisionFinish env wall currentUnit isCurrentUnitPlayer unitOrders looped

/-! ## Unit creation (createUnit in state.ts; nanoid is modelled by the
fresh-id oracle, the id being passed in by the caller) -/

/-- createUnit from state.ts. -/
def createUnit (id ownerId : ℕ) (animal : AnimalId) (position : Pos3)
    (rotation : ℝ) : Unit :=
  let stats := ANIMALS animal
  { id := id
    ownerId := ownerId
    animal := animal
    kind := UnitKind.Unit
    position := position
    hp := stats.baseHp
    maxHp := stats.baseHp
    attackDamage := stats.dmg
    moveSpeed := stats.speed
    attackCooldownMs := 1500
    lastAttackAtMs := 0
    rotation := rotation }

/-- findClosestEnemy from state.ts (module-level linear scan over all units,
skipping same-owner units; strict improvement keeps the earliest best). -/
def findClosestEnemy (unit : Unit) (all : List Unit) : Option Unit :=
  (all.foldl (fun best other =>
    if other.ownerId = unit.ownerId then best
    else
      let dSq := distanceSquared3D unit.position other.position
      match best with
      | none => some (other, dSq)
      | some b => if dSq < b.2 then some (other, dSq) else best) none).map
    (fun b => b.1)

/-- The Array.prototype.reduce pattern used for nearest selection: the first
element seeds the accumulator and an element strictly closer than the current
accumulator replaces it. Returns none on an empty list (the source guards
with a length check). -/
def reduceClosest (pos : Pos3) (l : List Unit) : Option Unit :=
  match l with
  | [] => none
  | h :: t => some (t.foldl (fun closest enemy =>
      if distanceSquared3D pos enemy.position <
          distanceSquared3D pos closest.position then enemy else closest) h)

/-! ## The tick draft

The per-tick mutable context: the store draft plus the grid snapshot, the
queued combat pairs, the oracle cursors and the distance cache. -/

/-- One queued combat pair (attacker, target, damage), stored by id. -/
structure CombatPair where
  attackerId : ℕ
  targetId : ℕ
  damage : ℝ

/-- The threaded tick context. -/
structure Draft where
  gs : GameState
  grid : Grid
  combatPairs : List CombatPair
  rng : ℕ
  wall : ℕ
  idc : ℕ
  dcache : DistCache

/-! ## Regeneration (tick lines 330-352) -/

/-- One iteration of the healing loop. The loop iterates over a snapshot of
the units below max HP taken at categorization time; no earlier heal affects
a later one, and the live entry is resolved by id. -/
def healStep (nowMs : ℝ) (d : Draft) (u0 : Unit) : Draft :=
  match d.gs.units.find? (fun w => w.id = u0.id) with
  | none => d
  | some unit =>
    if unit.hp ≤ 0 then d
    else
      let lastRegenTime := (d.gs.lastRegenAtMsByUnitId unit.id).getD 0
      if nowMs - lastRegenTime < 3000 then d
      else
        let nearbyQueens := findNearbyQueens d.grid d.gs.units unit d.gs.config.regenRadius
        if 0 < nearbyQueens.length then
          { d with gs := { d.gs with
              units := updU d.gs.units unit.id (fun w =>
                { w with hp := min w.maxHp (w.hp + 1) }),
              lastRegenAtMsByUnitId := fset d.gs.lastRegenAtMsByUnitId unit.id nowMs } }
        else d

/-- The regeneration pass: every third tick (or always when throttling is
off), the first 30 units of the below-max snapshot are considered. -/
def regenPhase (nowMs : ℝ) (unitsNeedingHealing : List Unit) (d : Draft) : Draft :=
  if ¬d.gs.optimizations.regenThrottling = true ∨ d.gs.tickCounter % 3 = 0 then
    (unitsNeedingHealing.take 30).foldl (healStep nowMs) d
  else d

/-! ## Production (tick lines 354-388) -/

/-- The preset spawn angles around a queen. -/
def presetAngles : List ℝ :=
  [0, Real.pi / 4, Real.pi / 2, 3 * Real.pi / 4, Real.pi,
   5 * Real.pi / 4, 3 * Real.pi / 2, 7 * Real.pi / 4]

/-- One iteration of the queen spawn loop. -/
def spawnStep (env : Env) (nowMs : ℝ) (d : Draft) (q : Unit) : Draft :=
  let last := (d.gs.lastSpawnAtMsByQueenId q.id).getD 0
  if d.gs.config.spawnIntervalMs ≤ nowMs - last then
    let existingCount := d.gs.unitCountCache q.ownerId q.animal
    let d1 :=
      if existingCount < 20 then
        let spawnIndex := existingCount % 8
        let angle := presetAngles.getD spawnIndex 0
        let distance : ℝ := 2.5
        let tentativeSpawnPos : Pos3 :=
          ⟨q.position.x + Real.cos angle * distance, 0,
           q.position.z + Real.sin angle * distance⟩
        let isPlayerUnit := d.gs.localPlayerId = some q.ownerId
        let initialRotation : ℝ := if isPlayerUnit then Real.pi else 0
        let tempUnit := createUnit (env.freshId d.idc) q.ownerId q.animal
          tentativeSpawnPos initialRotation
        let res := checkCollision env d.rng d.wall tentativeSpawnPos tempUnit
          d.gs.units 2.5 d.gs.selectedUnitIds d.gs.localPlayerId d.gs.unitOrders
        let tempUnit2 := { res.currentUnit with position := res.adjustedPosition }
        { d with
          gs := { d.gs with units := d.gs.units ++ [tempUnit2] },
          idc := d.idc + 1, rng := res.rng, wall := res.wall }
      else d
    { d1 with gs := { d1.gs with
        lastSpawnAtMsByQueenId := fset d1.gs.lastSpawnAtMsByQueenId q.id nowMs } }
  else d

/-- The spawn pass over the queen snapshot taken at categorization time. -/
def spawnPhase (env : Env) (nowMs : ℝ) (queens : List Unit) (d : Draft) : Draft :=
  queens.foldl (spawnStep env nowMs) d

/-! ## Behavior pass (tick lines 396-898)

Each movable unit is processed in turn. The current unit object is threaded
as a value and written back into the unit list at the end of its iteration
(no step of the processing reads the current unit back out of the list: the
enemy searches filter out same-owner units and checkCollision filters out the
unit matching the current id). The branch functions return the updated draft,
the updated current unit and the combat target resolved for this tick. -/

/-- The Frog/Bunny hopping animation update (repeated verbatim at the three
movement sites in the source): hopping species advance the cyclic hop phase
at a speed proportional to moveSpeed, all others clear the hopping flag. -/
def hopUpdate (dtSec : ℝ) (u : Unit) : Unit :=
  if u.animal = AnimalId.Frog ∨ u.animal = AnimalId.Bunny then
    let hopSpeed : ℝ := u.moveSpeed / 5
    { u with
      isHopping := some true,
      hopPhase := some (jsMod (u.hopPhase.getD 0 + hopSpeed * dtSec) 1) }
  else { u with isHopping := some false }

/-- The collision-resolved movement step shared by the movement sites: run
the tentative position through checkCollision against the live unit list,
write the adjusted position into the resolver-returned current unit and the
advanced oracle cursors into the draft. -/
def ccMove (env : Env) (d : Draft) (u : Unit) (newPosition : Pos3) :
    Draft × Unit :=
  let res := checkCollision env d.rng d.wall newPosition u d.gs.units 2.5
    d.gs.selectedUnitIds d.gs.localPlayerId d.gs.unitOrders
  ({ d with rng := res.rng, wall := res.wall },
   { res.currentUnit with position := res.adjustedPosition })

/-- The blocked-movement handling of the player order branch (lines 445-476):
stamp the first-blocked time, and after 2000 ms abandon the order and reset
the blocking bookkeeping. -/
def pobBlocked (nowMs : ℝ) (d : Draft) (u1 : Unit)
    (isCurrentlyBlocked : Prop) : Draft × Unit :=
  if isCurrentlyBlocked then
    let u2 := if ¬jsTruthyNum u1.firstBlockedAtMs then
        { u1 with firstBlockedAtMs := some nowMs } else u1
    let blockedDuration := nowMs - u2.firstBlockedAtMs.getD 0
    if 2000 ≤ blockedDuration then
      ({ d with gs := { d.gs with unitOrders := fdel d.gs.unitOrders u2.id } },
       { u2 with
          arrivedAtDestinationMs := none,
          unitState := some UnitState.idle,
          collisionAttempts := some 0,
          movementPausedUntilMs := none,
          firstBlockedAtMs := none })
    else (d, u2)
  else (d, { u1 with firstBlockedAtMs := none })

/-- The movement execution of the player order branch (lines 484-529):
rotate unless close to an enemy, advance the hop animation, step toward the
order and resolve collisions. -/
def pobMove (env : Env) (dtSec : ℝ) (d : Draft) (u3 : Unit) (order : Pos3)
    (doMove : Prop) (nearbyEnemy : Option Unit) : Draft × Unit :=
  if doMove then
    let direction := normalize3D (subtract3D order u3.position)
    let moveDistance := u3.moveSpeed * dtSec
    let farFromEnemy : Prop :=
      match nearbyEnemy with
      | none => True
      | some e => 900 < distanceSquared3D u3.position e.position
    let u4 := if farFromEnemy then
        { u3 with rotation := jsAtan2 direction.x direction.z }
      else u3
    let u5 := hopUpdate dtSec u4
    let newPosition : Pos3 :=
      ⟨u5.position.x + direction.x * moveDistance, u5.position.y,
       u5.position.z + direction.z * moveDistance⟩
    ccMove env d u5 newPosition
  else (d, u3)

/-- The arrival epilogue of the player order branch (lines 506-516 in the
source order): on arrival clear the stored order and go idle. -/
def pobArrive (d : Draft) (u6 : Unit) (distanceToOrder : ℝ)
    (target : Option ℕ) : Draft × Unit × Option ℕ :=
  if distanceToOrder ≤ 0.5 then
    ({ d with gs := { d.gs with unitOrders := fdel d.gs.unitOrders u6.id } },
     { u6 with arrivedAtDestinationMs := none, unitState := some UnitState.idle },
     target)
  else (d, u6, target)

/-- Priority 1 of the player branch: execute a movement order (lines 429-529).
The JS local variable order keeps its value even when the blocked-abandon
path deletes the stored order, so movement still uses it this tick. -/
def playerOrderBranch (env : Env) (dtSec nowMs : ℝ) (d0 : Draft) (u0 : Unit)
    (order : Pos3) : Draft × Unit × Option ℕ :=
  let u1 := { u0 with unitState := some UnitState.moving_to_order }
  let dres := distance3D d0.dcache u1.position order
  let distanceToOrder := dres.1
  let d := { d0 with dcache := dres.2 }
  let isInRecentCombat := jsTruthyNum u1.lastCombatEngagementMs ∧
    nowMs - u1.lastCombatEngagementMs.getD 0 < 2000
  let isMovementPaused := jsTruthyNum u1.movementPausedUntilMs ∧
    nowMs < u1.movementPausedUntilMs.getD 0 ∧ ¬isInRecentCombat
  let isCurrentlyBlocked := isMovementPaused ∨
    (jsTruthyNat u1.collisionAttempts ∧ 3 ≤ u1.collisionAttempts.getD 0)
  let blockRes : Draft × Unit := pobBlocked nowMs d u1 isCurrentlyBlocked
  let d := blockRes.1
  let u3 := blockRes.2
  let nearbyEnemy : Option Unit :=
    reduceClosest u3.position (findEnemiesInRange d.grid d.gs.units u3 8)
  let moveRes : Draft × Unit := pobMove env dtSec d u3 order
    (0.5 < distanceToOrder ∧ ¬isMovementPaused) nearbyEnemy
  let d := moveRes.1
  let u6 := moveRes.2
  let target : Option ℕ :=
    match nearbyEnemy with
    | some e =>
        if distanceSquared3D u6.position e.position ≤ 64 then some e.id else none
    | none => none
  pobArrive d u6 distanceToOrder target

/-- Priorities 2 and 3 of the player branch: attack response while idle, then
autonomous engagement (lines 532-642). -/
def playerIdleBranch (nowMs : ℝ) (d : Draft) (u0 : Unit) :
    Draft × Unit × Option ℕ :=
  if u0.currentAttackers.isSome ∧ 0 < (u0.currentAttackers.getD []).length then
    let pa0 : Option Unit :=
      if u0.priorityAttacker.isSome ∧
          u0.priorityAttacker.getD 0 ∈ u0.currentAttackers.getD [] then
        d.gs.units.find? (fun w => w.id = u0.priorityAttacker.getD 0)
      else none
    let paRes : Option Unit × Unit :=
      match pa0 with
      | some p => (some p, u0)
      | none =>
          let attackers := ((u0.currentAttackers.getD []).filterMap
            (fun i => d.gs.units.find? (fun w => w.id = i))).filter
              (fun w => 0 < w.hp)
          match reduceClosest u0.position attackers with
          | some p => (some p, { u0 with priorityAttacker := some p.id })
          | none => (none, u0)
    match paRes.1 with
    | some p => (d, { paRes.2 with unitState := some UnitState.pursuing_enemy },
        some p.id)
    | none => (d, paRes.2, none)
  else if u0.priorityAttacker.isSome then
    (d, { u0 with priorityAttacker := none, unitState := some UnitState.idle },
     none)
  else if u0.unitState = some UnitState.idle ∨
      u0.unitState = some UnitState.pursuing_enemy then
    let u1 :=
      match u0.priorityAttacker with
      | some paid =>
          match d.gs.units.find? (fun w => w.id = paid) with
          | none => { u0 with priorityAttacker := none }
          | some pu => if pu.hp ≤ 0 then { u0 with priorityAttacker := none }
              else u0
      | none => u0
    let enemyTarget0 : Option Unit :=
      if u1.lastCombatTargetId.isSome ∧ jsTruthyNum u1.lastCombatEngagementMs ∧
          nowMs - u1.lastCombatEngagementMs.getD 0 < 3000 ∧
          ¬u1.lastCombatTargetId = u1.priorityAttacker then
        match d.gs.units.find? (fun w => w.id = u1.lastCombatTargetId.getD 0) with
        | some lastTarget =>
            if ¬lastTarget.ownerId = u1.ownerId ∧ 0 < lastTarget.hp ∧
                distanceSquared3D u1.position lastTarget.position ≤ 100 then
              some lastTarget
            else none
        | none => none
      else none
    let enemyTarget : Option Unit :=
      match enemyTarget0 with
      | some e => some e
      | none => reduceClosest u1.position (findEnemiesInRange d.grid d.gs.units u1 10)
    match enemyTarget with
    | some e => (d, { u1 with unitState := some UnitState.pursuing_enemy },
        some e.id)
    | none => (d, { u1 with unitState := some UnitState.idle }, none)
  else (d, u0, none)

/-- The AI movement-order branch (lines 646-672). -/
def aiOrderBranch (env : Env) (dtSec nowMs : ℝ) (d0 : Draft) (u0 : Unit)
    (order : Pos3) : Draft × Unit × Option ℕ :=
  let dres := distance3D d0.dcache u0.position order
  let distanceToOrder := dres.1
  let d := { d0 with dcache := dres.2 }
  let isInRecentCombat := jsTruthyNum u0.lastCombatEngagementMs ∧
    nowMs - u0.lastCombatEngagementMs.getD 0 < 2000
  let isMovementPaused := jsTruthyNum u0.movementPausedUntilMs ∧
    nowMs < u0.movementPausedUntilMs.getD 0 ∧ ¬isInRecentCombat
  let moveRes : Draft × Unit :=
    if 0.5 < distanceToOrder ∧ ¬isMovementPaused then
      let direction := normalize3D (subtract3D order u0.position)
      let moveDistance := u0.moveSpeed * dtSec
      let u1 := { u0 with rotation := jsAtan2 direction.x direction.z }
      let newPosition : Pos3 :=
        ⟨u1.position.x + direction.x * moveDistance, u1.position.y,
         u1.position.z + direction.z * moveDistance⟩
      ccMove env d u1 newPosition
    else (d, u0)
  let d := moveRes.1
  let u2 := moveRes.2
  if distanceToOrder ≤ 0.5 then
    ({ d with gs := { d.gs with unitOrders := fdel d.gs.unitOrders u2.id } },
     { u2 with arrivedAtDestinationMs := none }, none)
  else (d, u2, none)

/-- The queen patrol branch (lines 673-698). -/
def patrolBranch (env : Env) (dtSec : ℝ) (d0 : Draft) (u0 : Unit)
    (patrol : PatrolRoute) : Draft × Unit × Option ℕ :=
  let targetPos := if patrol.currentTarget then patrol.endPosition
    else patrol.startPosition
  let dres := distance3D d0.dcache u0.position targetPos
  let dist := dres.1
  let d := { d0 with dcache := dres.2 }
  if 1 < dist then
    let direction := normalize3D (subtract3D targetPos u0.position)
    let moveDistance := u0.moveSpeed * dtSec
    let u1 := { u0 with rotation := jsAtan2 direction.x direction.z }
    let newPosition : Pos3 :=
      ⟨u1.position.x + direction.x * moveDistance, u1.position.y,
       u1.position.z + direction.z * moveDistance⟩
    let mv := ccMove env d u1 newPosition
    (mv.1, mv.2, none)
  else
    let patrol2 := { patrol with currentTarget := ¬patrol.currentTarget }
    let qp2 := fset d.gs.queenPatrols u0.id patrol2
    ({ d with gs := { d.gs with queenPatrols := qp2 } }, u0, none)

/-- The no-order, no-patrol detection branch (lines 701-818): combat
persistence and close-range detection for player units (dead code there,
since the player branch captures all player units), focus-fire plus global
nearest-enemy search for thinking AI units, and persistence/cached-target
reuse for throttled AI units. -/
def noOrderBranch (nowMs : ℝ) (shouldThinkThisTick isPlayerUnit : Prop)
    (d : Draft) (u0 : Unit) : Draft × Unit × Option ℕ :=
  if isPlayerUnit then
    let target0 : Option Unit :=
      if u0.lastCombatTargetId.isSome ∧ jsTruthyNum u0.lastCombatEngagementMs ∧
          nowMs - u0.lastCombatEngagementMs.getD 0 < 3000 then
        match d.gs.units.find? (fun w => w.id = u0.lastCombatTargetId.getD 0) with
        | some lastTarget =>
            if ¬lastTarget.ownerId = u0.ownerId ∧ 0 < lastTarget.hp ∧
                distanceSquared3D u0.position lastTarget.position ≤ 100 then
              some lastTarget
            else none
        | none => none
      else none
    let target : Option Unit :=
      match target0 with
      | some t => some t
      | none => reduceClosest u0.position (findEnemiesInRange d.grid d.gs.units u0 8)
    (d, u0, target.map (fun t => t.id))
  else if shouldThinkThisTick then
    let currentTarget0 : Option Unit :=
      match u0.lastCombatTargetId with
      | some fid =>
          match d.gs.units.find? (fun w => w.id = fid) with
          | some focusTarget =>
              if ¬focusTarget.ownerId = u0.ownerId ∧ 0 < focusTarget.hp then
                let distanceToFocus :=
                  Real.sqrt (distanceSquared3D u0.position focusTarget.position)
                if distanceToFocus ≤ 50 then some focusTarget else none
              else none
          | none => none
      | none => none
    let currentTarget : Option Unit :=
      match currentTarget0 with
      | some t => some t
      | none => findClosestEnemy u0 d.gs.units
    match currentTarget with
    | some t =>
        let tc2 := fset (fset d.gs.targetCache (u0.id, false) t.id)
          (u0.id, true) t.id
        ({ d with gs := { d.gs with targetCache := tc2 } }, u0, some t.id)
    | none => (d, u0, none)
  else
    let target0 : Option Unit :=
      if u0.lastCombatTargetId.isSome ∧ jsTruthyNum u0.lastCombatEngagementMs ∧
          nowMs - u0.lastCombatEngagementMs.getD 0 < 3000 then
        match d.gs.units.find? (fun w => w.id = u0.lastCombatTargetId.getD 0) with
        | some lastTarget =>
            if ¬lastTarget.ownerId = u0.ownerId ∧ 0 < lastTarget.hp ∧
                distanceSquared3D u0.position lastTarget.position ≤ 100 then
              some lastTarget
            else none
        | none => none
      else none
    let target1 : Option Unit :=
      match target0 with
      | some t => some t
      | none =>
          match u0.lastCombatTargetId with
          | some fid =>
              match d.gs.units.find? (fun w => w.id = fid) with
              | some focusTarget =>
                  if ¬focusTarget.ownerId = u0.ownerId ∧ 0 < focusTarget.hp then
                    if Real.sqrt (distanceSquared3D u0.position focusTarget.position)
                        ≤ 50 then some focusTarget
                    else none
                  else none
              | none => none
          | none => none
    match target1 with
    | some t => (d, u0, some t.id)
    | none =>
        match d.gs.targetCache (u0.id, false) with
        | some cid =>
            match d.gs.units.find? (fun w => w.id = cid ∧ 0 < w.hp) with
            | some t => (d, u0, some t.id)
            | none =>
                ({ d with gs := { d.gs with
                    targetCache := fdel d.gs.targetCache (u0.id, false) } },
                 u0, none)
        | none => (d, u0, none)

/-- The combat execution section (lines 825-897): face the target; queue a
combat pair and record engagement bookkeeping when in attack range and off
cooldown (also registering the attacker on the target); move toward the
target through the collision resolver when out of range. -/
def combatExec (env : Env) (dtSec nowMs : ℝ) (d0 : Draft) (u0 : Unit)
    (targetId : ℕ) : Draft × Unit :=
  match d0.gs.units.find? (fun w => w.id = targetId) with
  | none => (d0, u0)
  | some target =>
    let distSquared := distanceSquared3D u0.position target.position
    let direction := normalize3D (subtract3D target.position u0.position)
    let u1 := { u0 with rotation := jsAtan2 direction.x direction.z }
    let fireRes : Draft × Unit :=
      if distSquared ≤ 16 then
        if u1.attackCooldownMs ≤ nowMs - u1.lastAttackAtMs then
          let pairs2 : List CombatPair :=
            d0.combatPairs ++ [⟨u1.id, target.id, u1.attackDamage⟩]
          let d1 := { d0 with combatPairs := pairs2 }
          let u2 := { u1 with
            lastAttackAtMs := nowMs,
            lastCombatTargetId := some target.id,
            lastCombatEngagementMs := some nowMs }
          let addAttacker := fun (w : Unit) =>
            { w with currentAttackers := some (w.currentAttackers.getD [] ++ [u2.id]) }
          let units2 := updU d1.gs.units target.id addAttacker
          ({ d1 with gs := { d1.gs with units := units2 } }, u2)
        else (d0, u1)
      else (d0, u1)
    let d2 := fireRes.1
    let u3 := fireRes.2
    if 16 < distSquared then
      let direction2 := normalize3D (subtract3D target.position u3.position)
      let moveDistance := u3.moveSpeed * dtSec
      let newPosition : Pos3 :=
        ⟨u3.position.x + direction2.x * moveDistance, u3.position.y,
         u3.position.z + direction2.z * moveDistance⟩
      let res := checkCollision env d2.rng d2.wall newPosition u3 d2.gs.units 2.5
        d2.gs.selectedUnitIds d2.gs.localPlayerId d2.gs.unitOrders
      let u4 : Unit := { res.currentUnit with position := res.adjustedPosition }
      let u5 : Unit := hopUpdate dtSec u4
      ({ d2 with rng := res.rng, wall := res.wall }, u5)
    else (d2, u3)

/-- The branch selection of the behavior loop body: player units run the
priority system, AI units run order, patrol or detection. -/
def branchDispatch (env : Env) (dtSec nowMs : ℝ)
    (isPlayerUnit shouldThinkThisTick : Prop) (order : Option Pos3)
    (patrol : Option PatrolRoute) (d1 : Draft) (u0 : Unit) :
    Draft × Unit × Option ℕ :=
  if isPlayerUnit then
    let u1 := if u0.unitState = none then
        { u0 with unitState := some UnitState.idle } else u0
    match order with
    | some o => playerOrderBranch env dtSec nowMs d1 u1 o
    | none => playerIdleBranch nowMs d1 u1
  else
    match order with
    | some o => aiOrderBranch env dtSec nowMs d1 u0 o
    | none =>
      match patrol with
      | some pat =>
          if u0.kind = UnitKind.Queen then patrolBranch env dtSec d1 u0 pat
          else (d1, u0, none)
      | none => noOrderBranch nowMs shouldThinkThisTick isPlayerUnit d1 u0

/-- The tail of the behavior loop body: resolve combat against the branch
target and write the processed unit back into the list by id. -/
def unitWriteback (env : Env) (dtSec nowMs : ℝ) (uid : ℕ)
    (branchRes : Draft × Unit × Option ℕ) : Draft :=
  let d2 := branchRes.1
  let u2 := branchRes.2.1
  let combatRes : Draft × Unit :=
    match branchRes.2.2 with
    | some tid => combatExec env dtSec nowMs d2 u2 tid
    | none => (d2, u2)
  { combatRes.1 with gs := { combatRes.1.gs with
      units := updU combatRes.1.gs.units uid (fun _ => combatRes.2) } }

/-- Processing of one movable unit (the body of the behavior loop). -/
def processUnit (env : Env) (dtSec nowMs : ℝ) (d0 : Draft) (uid : ℕ) : Draft :=
  match d0.gs.units.find? (fun w => w.id = uid) with
  | none => d0
  | some u0 =>
    let ownerPlayer := d0.gs.players.find? (fun p => p.id = u0.ownerId)
    let isPlayerUnit : Prop :=
      match ownerPlayer with
      | some p => ¬p.isAI = true
      | none => False
    let shouldThinkThisTick : Prop := isPlayerUnit ∨
      ¬d0.gs.optimizations.aiThrottling = true ∨
      (d0.gs.tickCounter + (d0.gs.aiThinkingOffset u0.id).getD 0) % 2 = 0
    let d1 :=
      if ¬jsTruthyNat (d0.gs.aiThinkingOffset u0.id) then
        let off2 := fset d0.gs.aiThinkingOffset u0.id (⌊env.rand d0.rng * 2⌋.toNat)
        { d0 with gs := { d0.gs with aiThinkingOffset := off2 }, rng := d0.rng + 1 }
      else d0
    let order := d1.gs.unitOrders u0.id
    let patrol := d1.gs.queenPatrols u0.id
    unitWriteback env dtSec nowMs uid
      (branchDispatch env dtSec nowMs isPlayerUnit shouldThinkThisTick order
        patrol d1 u0)

/-- The behavior pass over the movable-unit snapshot taken at categorization
time (spawned units are not in the snapshot and do not act this tick). -/
def behaviorPhase (env : Env) (dtSec nowMs : ℝ) (movableIds : List ℕ)
    (d : Draft) : Draft :=
  movableIds.foldl (processUnit env dtSec nowMs) d

/-! ## Batched combat application (tick lines 907-938) -/

/-- Application of one queued combat pair: subtract the damage, queue the
target for removal when its HP drops to 0 or below, then apply the fixed
0.8-unit knockback through the collision resolver only when the target is
still alive and the attacker-to-target direction is nonzero. -/
def applyCombatPair (env : Env) (d0 : Draft) (pair : CombatPair) : Draft :=
  match d0.gs.units.find? (fun w => w.id = pair.targetId) with
  | none => d0
  | some target0 =>
    let target1 : Unit := { target0 with hp := target0.hp - pair.damage }
    let units1 := updU d0.gs.units pair.targetId
      (fun w => { w with hp := w.hp - pair.damage })
    let d1 := { d0 with gs := { d0.gs with units := units1 } }
    let d2 :=
      if target1.hp ≤ 0 then
        let dead2 := d1.gs.deadUnitsToRemove ++ [pair.targetId]
        { d1 with gs := { d1.gs with deadUnitsToRemove := dead2 } }
      else d1
    match d2.gs.units.find? (fun w => w.id = pair.attackerId) with
    | none => d2
    | some attacker =>
      let knockbackDistance : ℝ := 0.8
      let direction := normalize3D (subtract3D target1.position attacker.position)
      if 0 < target1.hp ∧ (direction.x ≠ 0 ∨ direction.z ≠ 0) then
        let newPosition : Pos3 :=
          ⟨target1.position.x + direction.x * knockbackDistance,
           target1.position.y,
           target1.position.z + direction.z * knockbackDistance⟩
        let res := checkCollision env d2.rng d2.wall newPosition target1
          d2.gs.units 2.5 d2.gs.selectedUnitIds d2.gs.localPlayerId
          d2.gs.unitOrders
        let units3 := updU d2.gs.units pair.targetId
          (fun _ => { res.currentUnit with position := res.adjustedPosition })
        let gs3 := { d2.gs with units := units3 }
        { d2 with gs := gs3, rng := res.rng, wall := res.wall }
      else d2

/-- The combat application pass over the pairs queued by the behavior pass. -/
def combatApplyPhase (env : Env) (d : Draft) : Draft :=
  d.combatPairs.foldl (applyCombatPair env) d

/-! ## Dead unit removal (tick lines 945-980) -/

/-- The per-unit reference cleanup applied for one removed dead id. -/
def cleanupUnit (deadUnitId : ℕ) (u : Unit) : Unit :=
  let u1 := if u.priorityAttacker = some deadUnitId then
      { u with priorityAttacker := none } else u
  let u2 := if u1.lastCombatTargetId = some deadUnitId then
      { u1 with lastCombatTargetId := none, lastCombatEngagementMs := none }
    else u1
  match u2.currentAttackers with
  | some l => { u2 with currentAttackers := some (l.filter (fun i => i ≠ deadUnitId)) }
  | none => u2

/-- Per-dead-id reference cleanup over all units plus the target cache. -/
def deadCleanupStep (d : Draft) (deadUnitId : ℕ) : Draft :=
  let units1 := d.gs.units.map (cleanupUnit deadUnitId)
  let tc1 := fun key => if d.gs.targetCache key = some deadUnitId then none
    else d.gs.targetCache key
  { d with gs := { d.gs with units := units1, targetCache := tc1 } }

/-- Dead-unit removal: when the dead list is nonempty, clear references to
every dead id, drop all units that are dead or listed, reset the list and
rebuild the grid snapshot. -/
def deadRemovalPhase (d : Draft) : Draft :=
  if d.gs.deadUnitsToRemove = [] then d
  else
    let d1 := d.gs.deadUnitsToRemove.foldl deadCleanupStep d
    let units2 := d1.gs.units.filter (fun u =>
      0 < u.hp ∧ ¬u.id ∈ d1.gs.deadUnitsToRemove)
    { d1 with
      gs := { d1.gs with units := units2, deadUnitsToRemove := [] },
      grid := buildFromUnits units2 }

/-! ## Attacker cleanup (tick lines 993-1009) -/

/-- An entry of a currentAttackers list survives the trailing cleanup when
the attacker still exists, is alive and is within 50 units. -/
def attackerStillValid (units : List Unit) (unit : Unit) (attackerId : ℕ) : Prop :=
  match units.find? (fun w => w.id = attackerId) with
  | none => False
  | some attacker =>
      0 < attacker.hp ∧
        Real.sqrt (distanceSquared3D unit.position attacker.position) ≤ 50

/-- One unit of the trailing attacker-cleanup loop. -/
def attackerCleanupStep (d : Draft) (uid : ℕ) : Draft :=
  match d.gs.units.find? (fun w => w.id = uid) with
  | none => d
  | some unit =>
    match unit.currentAttackers with
    | none => d
    | some l =>
      if 0 < l.length then
        let l2 := l.filter (fun attackerId => attackerStillValid d.gs.units unit attackerId)
        let ca : Option (List ℕ) := if l2.length = 0 then none else some l2
        let units2 := updU d.gs.units uid (fun w => { w with currentAttackers := ca })
        { d with gs := { d.gs with units := units2 } }
      else d

/-- The trailing attacker-cleanup pass. -/
def attackerCleanupPhase (d : Draft) : Draft :=
  (d.gs.units.map (fun u => u.id)).foldl attackerCleanupStep d

/-! ## Bridge animations (updateBridgeAnimations in state.ts) -/

/-- updateSingleBridgeAnimation from state.ts. -/
def updateSingleBridgeAnimation (bridge : BridgeAnimation)
    (isPlayerInZone : Prop) (nowMs : ℝ) : BridgeAnimation :=
  let FRAME_DURATION : ℝ := 1000
  match bridge.currentState with
  | BridgeAnimationState.up =>
      if isPlayerInZone ∧ ¬bridge.triggeredByPlayer = true then
        { bridge with
          currentState := BridgeAnimationState.lowering,
          animationStartMs := nowMs,
          frameStartMs := nowMs,
          triggeredByPlayer := true }
      else bridge
  | BridgeAnimationState.lowering =>
      if FRAME_DURATION ≤ nowMs - bridge.frameStartMs then
        match bridge.currentFrame with
        | BridgeFrame.Fully_Up =>
            { bridge with currentFrame := BridgeFrame.Almost_Up, frameStartMs := nowMs }
        | BridgeFrame.Almost_Up =>
            { bridge with currentFrame := BridgeFrame.Almost_Down, frameStartMs := nowMs }
        | BridgeFrame.Almost_Down =>
            { bridge with
              currentFrame := BridgeFrame.Fully_Down,
              frameStartMs := nowMs,
              currentState := BridgeAnimationState.down }
        | BridgeFrame.Fully_Down => bridge
      else bridge
  | BridgeAnimationState.down =>
      if ¬isPlayerInZone then
        { bridge with
          currentState := BridgeAnimationState.raising,
          animationStartMs := nowMs,
          frameStartMs := nowMs,
          triggeredByPlayer := false }
      else bridge
  | BridgeAnimationState.raising =>
      if FRAME_DURATION ≤ nowMs - bridge.frameStartMs then
        match bridge.currentFrame with
        | BridgeFrame.Fully_Down =>
            { bridge with currentFrame := BridgeFrame.Almost_Down, frameStartMs := nowMs }
        | BridgeFrame.Almost_Down =>
            { bridge with currentFrame := BridgeFrame.Almost_Up, frameStartMs := nowMs }
        | BridgeFrame.Almost_Up =>
            { bridge with
              currentFrame := BridgeFrame.Fully_Up,
              frameStartMs := nowMs,
              currentState := BridgeAnimationState.up }
        | BridgeFrame.Fully_Up => bridge
      else bridge

/-- updateBridgeAnimations from state.ts: the local players kings and queens
within 10 units of the fixed right (15, 0) and left (-15, 0) zones drive the
two bridge state machines. -/
def updateBridgeAnimations (s : GameState) (nowMs : ℝ) : GameState :=
  let playerUnits := s.units.filter (fun u =>
    s.localPlayerId = some u.ownerId ∧
      (u.kind = UnitKind.King ∨ u.kind = UnitKind.Queen))
  let isPlayerInRightZone : Prop := playerUnits.any (fun u =>
    Real.sqrt ((u.position.x - 15) ^ 2 + (u.position.z - 0) ^ 2) ≤ 10)
  let isPlayerInLeftZone : Prop := playerUnits.any (fun u =>
    Real.sqrt ((u.position.x - (-15)) ^ 2 + (u.position.z - 0) ^ 2) ≤ 10)
  { s with bridgeState :=
      { rightBridge := updateSingleBridgeAnimation s.bridgeState.rightBridge
          isPlayerInRightZone nowMs,
        leftBridge := updateSingleBridgeAnimation s.bridgeState.leftBridge
          isPlayerInLeftZone nowMs } }

/-! ## Throttled win check (tick lines 1015-1022) -/

/-- The throttled win-condition block at the end of the tick. -/
def winPhase (nowMs : ℝ) (d : Draft) : Draft :=
  let WIN_CHECK_INTERVAL : ℝ := 5000
  if ¬d.gs.gameOver = true ∧
      (¬d.gs.optimizations.winCheckThrottling = true ∨
        WIN_CHECK_INTERVAL ≤ nowMs - d.gs.lastWinCheckMs) then
    let gs1 := checkWinConditions d.gs
    let gs2 := if gs1.optimizations.winCheckThrottling = true then
        { gs1 with lastWinCheckMs := nowMs } else gs1
    { d with gs := gs2 }
  else d

/-! ## Unit categorization (tick lines 290-328) -/

/-- The unit-count cache bump for one (owner, animal) pair. -/
def bumpCache (m : ℕ → AnimalId → ℕ) (o : ℕ) (a : AnimalId) :
    ℕ → AnimalId → ℕ :=
  fun o2 a2 => if o2 = o ∧ a2 = a then m o a + 1 else m o2 a2

/-- The per-tick unit count cache: Unit-archetype entities per owner and
species, built in the categorization pass. -/
def buildUnitCountCache (units : List Unit) : ℕ → AnimalId → ℕ :=
  units.foldl (fun m u =>
    if u.kind = UnitKind.Unit then bumpCache m u.ownerId u.animal else m)
    (fun _ _ => 0)

/-! ## The tick -/

/-- tick from state.ts, with the oracle streams and the persistent distance
cache passed explicitly. The stored spatial grid cache behaves as a value
rebuilt at tick start (and again after dead-unit removal), threaded through
the phases. The playerUnits/aiUnits categorization of the single scan is not
read afterwards in the source and is omitted; the unitsUnderAttack set is
written but never read and is omitted. -/
def tick (env : Env) (cache0 : DistCache) (s0 : GameState)
    (dtSec nowMs : ℝ) : GameState :=
  if ¬s0.matchStarted = true ∨ s0.isPaused = true then s0
  else
    let s1 := { s0 with debugTickCount := some (s0.debugTickCount.getD 0 + 1) }
    let s2 := { s1 with tickCounter := s1.tickCounter + 1 }
    let grid := buildFromUnits s2.units
    let queens := s2.units.filter (fun u => u.kind = UnitKind.Queen)
    let unitsNeedingHealing := s2.units.filter (fun u => u.hp < u.maxHp)
    let movableUnits := s2.units.filter (fun u => ¬u.kind = UnitKind.Base)
    let s3 := { s2 with unitCountCache := buildUnitCountCache s2.units }
    let d0 : Draft := ⟨s3, grid, [], 0, 0, 0, cache0⟩
    let d1 := regenPhase nowMs unitsNeedingHealing d0
    let d2 := spawnPhase env nowMs queens d1
    let d3 := behaviorPhase env dtSec nowMs (movableUnits.map (fun u => u.id)) d2
    let d4 := combatApplyPhase env d3
    let d5 := deadRemovalPhase d4
    let d6 := attackerCleanupPhase d5
    let d7 := { d6 with gs := updateBridgeAnimations d6.gs nowMs }
    let d8 := winPhase nowMs d7
    d8.gs

/-! ## Shared witness fixtures -/

/-- A bridge in the initial up state. -/
def bridgeUp : BridgeAnimation :=
  ⟨BridgeAnimationState.up, BridgeFrame.Fully_Up, 0, 0, false⟩

/-- All optimizations on (the store default). -/
def optsAll : Optimizations :=
  ⟨true, true, true, true, true, true, true⟩

/-- A quiescent base state used to build concrete scenarios. -/
def baseState : GameState where
  config := defaultConfig
  players := []
  units := []
  lastSpawnAtMsByQueenId := fun _ => none
  lastRegenAtMsByUnitId := fun _ => none
  localPlayerId := none
  matchStarted := false
  gameOver := false
  winner := none
  selectedUnitIds := []
  unitOrders := fun _ => none
  queenPatrols := fun _ => none
  unitCountCache := fun _ _ => 0
  lastRegenCheckMs := 0
  tickCounter := 0
  debugTickCount := none
  aiThinkingOffset := fun _ => none
  movementDirectionCache := fun _ => none
  targetCache := fun _ => none
  lastWinCheckMs := 0
  deadUnitsToRemove := []
  ultraPerformanceMode := true
  optimizations := optsAll
  isPaused := false
  bridgeState := ⟨bridgeUp, bridgeUp⟩

/-- An oracle environment with constant-zero random and wall-clock streams. -/
def envZero : Env :=
  ⟨fun _ => 0, fun _ => 0, fun n => 1000 + n⟩

/-! ## C10: paused or unstarted ticks leave the state unchanged -/

/-- C10: if matchStarted is false or isPaused is true then tick, for every
dtSec and nowMs (and any oracle and cache contents), returns the state
unchanged. -/
theorem tick_noop_when_paused (env : Env) (cache0 : DistCache) (s : GameState)
    (dtSec nowMs : ℝ) (h : s.matchStarted = false ∨ s.isPaused = true) :
    tick env cache0 s dtSec nowMs = s := by
  unfold tick
  rcases h with h | h <;> simp [h]

/-- C10 witness: the guard theorem applied at a concrete unstarted state. -/
theorem tick_noop_when_paused_witness :
    tick envZero [] baseState 1 1000 = baseState :=
  tick_noop_when_paused envZero [] baseState 1 1000 (Or.inl rfl)

/-! ## C1: win-condition evaluation -/

/-- Spec-side predicate: the player pid holds zero Base-archetype, zero
King-archetype and zero Queen-archetype units. -/
def holdsZeroRoyals (s : GameState) (pid : ℕ) : Prop :=
  ∀ u ∈ s.units, u.ownerId = pid →
    ¬(u.kind = UnitKind.Base ∨ u.kind = UnitKind.King ∨ u.kind = UnitKind.Queen)

/-- Spec-side predicate: every opposing player of pid simultaneously holds
zero Bases, Kings and Queens. -/
def eliminatesAllOpponents (s : GameState) (pid : ℕ) : Prop :=
  ∀ q ∈ s.players, ¬q.id = pid → holdsZeroRoyals s q.id

theorem not_enemyStillAlive_iff (s : GameState) (e : ℕ) :
    ¬enemyStillAlive s.units e ↔ holdsZeroRoyals s e := by
  simp only [enemyStillAlive, holdsZeroRoyals, not_or, Nat.pos_iff_ne_zero,
    ne_eq, not_not, List.length_eq_zero, List.filter_eq_nil_iff,
    decide_eq_true_eq, not_and]
  constructor
  · rintro ⟨hb, hk, hq⟩ u hu howner
    exact ⟨hb u hu howner, hk u hu howner, hq u hu howner⟩
  · intro h
    exact ⟨fun u hu ho => (h u hu ho).1, fun u hu ho => (h u hu ho).2.1,
      fun u hu ho => (h u hu ho).2.2⟩

theorem find?_congr_of_mem {α : Type} (l : List α) (p q : α → Bool)
    (h : ∀ a ∈ l, p a = q a) : l.find? p = l.find? q := by
  induction l with
  | nil => rfl
  | cons a t ih =>
      rcases hpa : p a with _ | _
      · rw [List.find?_cons_of_neg _ (by simp [hpa]),
          List.find?_cons_of_neg _ (by simp [← h a (by simp), hpa])]
        exact ih fun x hx => h x (by simp [hx])
      · rw [List.find?_cons_of_pos _ (by simp [hpa]),
          List.find?_cons_of_pos _ (by simp [← h a (by simp), hpa])]

theorem checkWinLoop_eq (ids allIds : List ℕ) (s : GameState) :
    checkWinLoop ids allIds s =
      match ids.find? (fun pid =>
        (allIds.filter (fun e => decide (¬e = pid))).all
          (fun e => decide (¬enemyStillAlive s.units e))) with
      | some pid => { s with gameOver := true, winner := some pid }
      | none => s := by
  induction ids with
  | nil => simp [checkWinLoop]
  | cons a t ih =>
      by_cases h : (allIds.filter (fun e => decide (¬e = a))).all
          (fun e => decide (¬enemyStillAlive s.units e)) = true
      · rw [checkWinLoop, if_pos (by simpa using h),
          List.find?_cons_of_pos _ (by simpa using h)]
      · rw [checkWinLoop, if_neg (by simpa using h),
          List.find?_cons_of_neg _ (by simpa using h), ih]

/-- The first player in player order all of whose opponents hold zero Bases,
Kings and Queens. -/
def firstEliminator (s : GameState) : Option ℕ :=
  (s.players.map (fun p => p.id)).find? (fun pid => eliminatesAllOpponents s pid)

theorem allElim_iff (s : GameState) (pid : ℕ) :
    ((s.players.map (fun p => p.id)).filter (fun e => decide (¬e = pid))).all
        (fun e => decide (¬enemyStillAlive s.units e)) = true ↔
      eliminatesAllOpponents s pid := by
  simp only [List.all_eq_true, List.mem_filter, List.mem_map,
    decide_eq_true_eq, eliminatesAllOpponents]
  constructor
  · rintro hall q hq hne
    exact (not_enemyStillAlive_iff s q.id).mp (hall q.id ⟨⟨q, hq, rfl⟩, hne⟩)
  · rintro h e ⟨⟨q, hq, rfl⟩, hne⟩
    exact (not_enemyStillAlive_iff s q.id).mpr (h q hq hne)

theorem allElim_eq_decide (s : GameState) (pid : ℕ) :
    ((s.players.map (fun p => p.id)).filter (fun e => decide (¬e = pid))).all
        (fun e => decide (¬enemyStillAlive s.units e)) =
      decide (eliminatesAllOpponents s pid) := by
  refine Bool.eq_iff_iff.mpr ?_
  rw [decide_eq_true_eq]
  exact allElim_iff s pid

theorem checkWinConditions_eq (s : GameState) :
    checkWinConditions s =
      match firstEliminator s with
      | some pid => { s with gameOver := true, winner := some pid }
      | none => s := by
  rw [checkWinConditions, checkWinLoop_eq, firstEliminator,
    find?_congr_of_mem _ _ _ (fun pid _ => allElim_eq_decide s pid)]

/-- C1: whenever the win-condition check runs on a not-yet-over match, a
player is recorded as winner and the match marked over exactly when that
player is the first (in player order) all of whose opponents simultaneously
hold zero Base-, King- and Queen-archetype units; any recorded winner has
eliminated all opponents (never declared while an opposing Base, King or
Queen remains), and when no player qualifies the state is unchanged. -/
theorem checkWinConditions_spec (s : GameState) (hGO : s.gameOver = false) :
    (∀ pid, ((checkWinConditions s).gameOver = true ∧
        (checkWinConditions s).winner = some pid) ↔
        firstEliminator s = some pid) ∧
    (∀ pid, ((checkWinConditions s).gameOver = true ∧
        (checkWinConditions s).winner = some pid) →
        eliminatesAllOpponents s pid) ∧
    (firstEliminator s = none → checkWinConditions s = s) := by
  have hEq := checkWinConditions_eq s
  refine ⟨fun pid => ?_, fun pid h => ?_, fun h => ?_⟩
  · rcases hF : firstEliminator s with _ | p
    · rw [hEq, hF]
      simp [hGO, hF]
    · rw [hEq, hF]
      simp only [Option.some_inj]
      constructor
      · rintro ⟨-, h2⟩; rw [← h2]
      · rintro rfl; exact ⟨trivial, rfl⟩
  · rcases hF : firstEliminator s with _ | p
    · rw [hEq, hF] at h
      rw [h.1] at hGO
      exact absurd hGO (by simp)
    · rw [hEq, hF] at h
      have hp : p = pid := by simpa using h.2
      subst hp
      have := List.find?_some hF
      simpa using this
  · rw [hEq, h]

/-- A state with a single player and no units. -/
def onePlayerState : GameState :=
  { baseState with players := [⟨3, 0, true, [], []⟩], matchStarted := true }

/-- C1 witness: the win-check theorem applied at a concrete state
(one player with no opponents: vacuously a winner, recorded as such). -/
theorem checkWinConditions_spec_witness :
    ((∀ pid, ((checkWinConditions onePlayerState).gameOver = true ∧
        (checkWinConditions onePlayerState).winner = some pid) ↔
        firstEliminator onePlayerState = some pid) ∧
    (∀ pid, ((checkWinConditions onePlayerState).gameOver = true ∧
        (checkWinConditions onePlayerState).winner = some pid) →
        eliminatesAllOpponents onePlayerState pid) ∧
    (firstEliminator onePlayerState = none →
        checkWinConditions onePlayerState = onePlayerState)) :=
  checkWinConditions_spec onePlayerState rfl

/-! ## C5: order/patrol exclusivity -/

/-- A concrete player-owned queen. -/
def cQueen : Unit where
  id := 1
  ownerId := 7
  animal := AnimalId.Bee
  kind := UnitKind.Queen
  position := ⟨0, 0, 0⟩
  hp := 120
  maxHp := 120
  attackDamage := 10
  moveSpeed := 31
  attackCooldownMs := 1500
  lastAttackAtMs := 0
  rotation := 0

/-- A state in which the queen has an active patrol. -/
def sPatrol : GameState :=
  { baseState with
    matchStarted := true
    localPlayerId := some 7
    units := [cQueen]
    queenPatrols := fun k => if k = 1 then some ⟨⟨0, 0, 0⟩, ⟨5, 0, 5⟩, true⟩ else none }

/-- C5 counterexample: issuing a move order to a caller-owned queen with an
active patrol leaves the patrol in place, so both an order and a patrol are
active afterwards, contradicting the claimed exclusivity. -/
theorem moveCommand_keeps_patrol :
    ((moveCommand sPatrol ⟨[1], ⟨3, 0, 3⟩⟩).unitOrders 1).isSome = true ∧
    ((moveCommand sPatrol ⟨[1], ⟨3, 0, 3⟩⟩).queenPatrols 1).isSome = true := by
  constructor <;>
    simp [moveCommand, moveCommandStep, sPatrol, baseState, cQueen,
      List.find?, fset]

/-- The moveCommand loop body never touches the patrol map. -/
theorem moveCommandStep_patrols (target : Pos3) (s : GameState) (uid : ℕ) :
    (moveCommandStep target s uid).queenPatrols = s.queenPatrols := by
  unfold moveCommandStep
  cases h : s.units.find? (fun x => x.id = uid) with
  | none => simp only [h]
  | some u =>
      simp only [h]
      split <;> rfl

theorem moveCommand_patrols (s : GameState) (cmd : CommandMoveUnits) :
    (moveCommand s cmd).queenPatrols = s.queenPatrols := by
  unfold moveCommand
  induction cmd.unitIds generalizing s with
  | nil => rfl
  | cons a t ih => rw [List.foldl_cons, ih, moveCommandStep_patrols]

/-- C5 amended: issuing a patrol to a caller-owned Queen clears any active
move order (after setPatrol at most one of the two is active for the queen),
but issuing a move order leaves any active patrol stored untouched, so after
moveCommand an order and a patrol can be active simultaneously; while both
are stored, the behavior pass gives the order priority. -/
theorem order_patrol_exclusivity_amended (s : GameState) (cmd : CommandSetPatrol)
    (queen : Unit)
    (hfind : s.units.find? (fun u => u.id = cmd.queenId) = some queen)
    (hown : s.localPlayerId = some queen.ownerId)
    (hkind : queen.kind = UnitKind.Queen) :
    (setPatrol s cmd).unitOrders cmd.queenId = none ∧
    ((setPatrol s cmd).queenPatrols cmd.queenId).isSome = true ∧
    (∀ cmd2 : CommandMoveUnits,
      (moveCommand s cmd2).queenPatrols = s.queenPatrols) := by
  refine ⟨?_, ?_, fun cmd2 => moveCommand_patrols s cmd2⟩ <;>
    simp [setPatrol, hfind, hown, hkind, fset, fdel]

/-- C5 witness: the amended theorem applied to the concrete patrol state. -/
theorem order_patrol_exclusivity_amended_witness :
    (setPatrol sPatrol ⟨1, ⟨0, 0, 0⟩, ⟨5, 0, 5⟩⟩).unitOrders 1 = none ∧
    ((setPatrol sPatrol ⟨1, ⟨0, 0, 0⟩, ⟨5, 0, 5⟩⟩).queenPatrols 1).isSome = true ∧
    (∀ cmd2 : CommandMoveUnits,
      (moveCommand sPatrol cmd2).queenPatrols = sPatrol.queenPatrols) :=
  order_patrol_exclusivity_amended sPatrol ⟨1, ⟨0, 0, 0⟩, ⟨5, 0, 5⟩⟩ cQueen
    (by simp [sPatrol, baseState, cQueen, List.find?]) rfl rfl

/-! ## C2: spatial grid versus brute force -/

theorem foldl_addUnit_apply (l : List Unit) (g : Grid) (key : ℤ × ℤ) :
    (l.foldl addUnit g) key =
      g key ++ (l.filter (fun u => key = getGridCoords u.position)).map
        (fun u => u.id) := by
  induction l generalizing g with
  | nil => simp
  | cons a t ih =>
      rw [List.foldl_cons, ih]
      by_cases h : key = getGridCoords a.position
      · simp [addUnit, h]
      · simp [addUnit, h]

theorem buildFromUnits_apply (units : List Unit) (key : ℤ × ℤ) :
    buildFromUnits units key =
      (units.filter (fun u => key = getGridCoords u.position)).map
        (fun u => u.id) := by
  rw [buildFromUnits, foldl_addUnit_apply]
  rfl

theorem find?_id_of_mem (units : List Unit)
    (h : (units.map (fun u => u.id)).Nodup) (u : Unit) (hu : u ∈ units) :
    units.find? (fun w => w.id = u.id) = some u := by
  induction units with
  | nil => cases hu
  | cons a t ih =>
      rcases List.mem_cons.mp hu with rfl | hut
      · exact List.find?_cons_of_pos _ (by simp)
      · have hane : ¬a.id = u.id := by
          intro hEq
          have : u.id ∈ t.map (fun u => u.id) := List.mem_map_of_mem _ hut
          rw [List.map_cons, List.nodup_cons, hEq] at h
          exact h.1 this
        rw [List.find?_cons_of_neg _ (by simpa using hane)]
        exact ih (by rw [List.map_cons, List.nodup_cons] at h; exact h.2) hut

theorem mem_offsetsList (k dx : ℤ) :
    dx ∈ offsetsList k ↔ -k ≤ dx ∧ dx ≤ k := by
  simp only [offsetsList, List.mem_map, List.mem_range]
  constructor
  · rintro ⟨i, hi, rfl⟩
    omega
  · rintro ⟨h1, h2⟩
    exact ⟨(dx + k).toNat, by omega, by omega⟩

theorem sqrt_distanceSquared (a b : Pos3) :
    SpatialGrid.distance3D a b = Real.sqrt (distanceSquared3D a b) := rfl

theorem axis_le_dist_x (a b : Pos3) :
    |a.x - b.x| ≤ SpatialGrid.distance3D a b := by
  rw [SpatialGrid.distance3D, ← Real.sqrt_mul_self_eq_abs]
  refine Real.sqrt_le_sqrt ?_
  nlinarith [mul_self_nonneg (a.y - b.y), mul_self_nonneg (a.z - b.z)]

theorem axis_le_dist_z (a b : Pos3) :
    |a.z - b.z| ≤ SpatialGrid.distance3D a b := by
  rw [SpatialGrid.distance3D, ← Real.sqrt_mul_self_eq_abs]
  refine Real.sqrt_le_sqrt ?_
  nlinarith [mul_self_nonneg (a.y - b.y), mul_self_nonneg (a.x - b.x)]

theorem floor_cell_bound (x y r c : ℝ) (hc : 0 < c) (h : |x - y| ≤ r) :
    -⌈r / c⌉ ≤ ⌊x / c⌋ - ⌊y / c⌋ ∧ ⌊x / c⌋ - ⌊y / c⌋ ≤ ⌈r / c⌉ := by
  have hrc : r / c ≤ ((⌈r / c⌉ : ℤ) : ℝ) := Int.le_ceil _
  have habs := abs_le.mp h
  constructor
  · have h2 : y - r ≤ x := by linarith [habs.2]
    have hdiv : y / c - r / c ≤ x / c := by
      rw [div_sub_div_same]
      exact (div_le_div_right hc).mpr h2
    have hdiv2 : y / c - ((⌈r / c⌉ : ℤ) : ℝ) ≤ x / c := by linarith
    have hfl : ⌊y / c - ((⌈r / c⌉ : ℤ) : ℝ)⌋ ≤ ⌊x / c⌋ := Int.floor_le_floor hdiv2
    rw [Int.floor_sub_int] at hfl
    omega
  · have h1 : x ≤ y + r := by linarith [habs.1]
    have hdiv : x / c ≤ y / c + r / c := by
      rw [← add_div]
      exact (div_le_div_right hc).mpr h1
    have hdiv2 : x / c ≤ y / c + ((⌈r / c⌉ : ℤ) : ℝ) := by linarith
    have hfl : ⌊x / c⌋ ≤ ⌊y / c + ((⌈r / c⌉ : ℤ) : ℝ)⌋ := Int.floor_le_floor hdiv2
    rw [Int.floor_add_int] at hfl
    omega

theorem cell_bound_of_dist (u : Unit) (pos : Pos3) (radius : ℝ)
    (hd : SpatialGrid.distance3D pos u.position ≤ radius) :
    (-⌈radius / cellSize⌉ ≤ (getGridCoords u.position).1 - (getGridCoords pos).1 ∧
      (getGridCoords u.position).1 - (getGridCoords pos).1 ≤ ⌈radius / cellSize⌉) ∧
    (-⌈radius / cellSize⌉ ≤ (getGridCoords u.position).2 - (getGridCoords pos).2 ∧
      (getGridCoords u.position).2 - (getGridCoords pos).2 ≤ ⌈radius / cellSize⌉) := by
  have hc : (0 : ℝ) < cellSize := by norm_num [cellSize]
  have hx : |(u.position.x + (gridSize : ℝ) * cellSize / 2) -
      (pos.x + (gridSize : ℝ) * cellSize / 2)| ≤ radius := by
    have := (axis_le_dist_x pos u.position).trans hd
    rw [abs_sub_comm] at this
    convert this using 2
    ring
  have hz : |(u.position.z + (gridSize : ℝ) * cellSize / 2) -
      (pos.z + (gridSize : ℝ) * cellSize / 2)| ≤ radius := by
    have := (axis_le_dist_z pos u.position).trans hd
    rw [abs_sub_comm] at this
    convert this using 2
    ring
  exact ⟨floor_cell_bound _ _ _ _ hc hx, floor_cell_bound _ _ _ _ hc hz⟩

theorem getNearbyUnits_mem_iff (units : List Unit) (pos : Pos3)
    (radius : ℝ) (hids : (units.map (fun u => u.id)).Nodup) (u : Unit) :
    u ∈ getNearbyUnits (buildFromUnits units) units pos radius ↔
      u ∈ units.filter
        (fun w => SpatialGrid.distance3D pos w.position ≤ radius) := by
  simp only [getNearbyUnits, List.mem_flatMap, List.mem_filter,
    List.mem_filterMap, List.mem_map, buildFromUnits_apply,
    decide_eq_true_eq, mem_offsetsList]
  constructor
  · rintro ⟨dx, hdx, dz, hdz, ⟨i, ⟨v, ⟨hv, hvc⟩, rfl⟩, hfind⟩, hdist⟩
    have := find?_id_of_mem units hids v hv
    rw [this] at hfind
    cases hfind
    exact ⟨hv, hdist⟩
  · rintro ⟨hu, hd⟩
    have hb := cell_bound_of_dist u pos radius hd
    refine ⟨(getGridCoords u.position).1 - (getGridCoords pos).1,
      ⟨hb.1.1, hb.1.2⟩,
      (getGridCoords u.position).2 - (getGridCoords pos).2,
      ⟨hb.2.1, hb.2.2⟩,
      ⟨u.id, ⟨u, ⟨hu, ?_⟩, rfl⟩, find?_id_of_mem units hids u hu⟩, hd⟩
    have hx : (getGridCoords pos).1 +
        ((getGridCoords u.position).1 - (getGridCoords pos).1) =
        (getGridCoords u.position).1 := by ring
    have hz : (getGridCoords pos).2 +
        ((getGridCoords u.position).2 - (getGridCoords pos).2) =
        (getGridCoords u.position).2 := by ring
    rw [hx, hz]

/-! ## C4: collision separation -/

/-- Ground-plane (x, z) Euclidean distance, the metric the collision
resolver works in. -/
def dist2D (a b : Pos3) : ℝ :=
  Real.sqrt ((a.x - b.x) * (a.x - b.x) + (a.z - b.z) * (a.z - b.z))

theorem pushed_dist (dx dz d p : ℝ) (hd : d = Real.sqrt (dx * dx + dz * dz))
    (hdpos : 0 < d) (hp : 0 ≤ p) :
    Real.sqrt ((dx + dx / d * p) * (dx + dx / d * p) +
      (dz + dz / d * p) * (dz + dz / d * p)) = d + p := by
  have hsq : dx * dx + dz * dz = d * d := by
    rw [hd]
    exact (Real.mul_self_sqrt
      (add_nonneg (mul_self_nonneg dx) (mul_self_nonneg dz))).symm
  have hexp : (dx + dx / d * p) * (dx + dx / d * p) +
      (dz + dz / d * p) * (dz + dz / d * p) = (d + p) * (d + p) := by
    have hdne : d ≠ 0 := ne_of_gt hdpos
    field_simp
    linear_combination (d + p) * (d + p) * hsq
  rw [hexp, Real.sqrt_mul_self (by linarith)]

theorem collisionFinish_pos (env : Env) (wall : ℕ) (cu : Unit)
    (ip : Prop) (orders : ℕ → Option Pos3) (looped : Pos3 × Prop × ℕ) :
    (collisionFinish env wall cu ip orders looped).adjustedPosition = looped.1 := by
  unfold collisionFinish
  dsimp only
  repeat' split
  all_goals rfl

theorem checkCollision_pos (env : Env) (rng wall : ℕ) (newPosition : Pos3)
    (currentUnit : Unit) (allUnits : List Unit) (collisionRadius : ℝ)
    (selectedUnitIds : List ℕ) (localPlayerId : Option ℕ)
    (unitOrders : ℕ → Option Pos3) :
    (checkCollision env rng wall newPosition currentUnit allUnits
        collisionRadius selectedUnitIds localPlayerId unitOrders).adjustedPosition =
      ((if 50 < allUnits.length then
          allUnits.filter (fun other =>
            ¬(other.id = currentUnit.id ∨ other.kind = UnitKind.Base) ∧
              ((other.position.x - newPosition.x) * (other.position.x - newPosition.x) +
                (other.position.z - newPosition.z) * (other.position.z - newPosition.z))
                ≤ collisionRadius * 3 * (collisionRadius * 3))
        else
          allUnits.filter (fun other =>
            other.id ≠ currentUnit.id ∧ other.kind ≠ UnitKind.Base)).foldl
        (collisionStep env currentUnit selectedUnitIds localPlayerId
          (currentUnit.id ∈ selectedUnitIds)
          (localPlayerId = some currentUnit.ownerId))
        (newPosition, False, rng)).1 :=
  collisionFinish_pos env wall currentUnit
    (localPlayerId = some currentUnit.ownerId) unitOrders _

/-- C4 amended: for a tentative position checked against a single non-Base
neighbor with a distinct id (the current unit being unselected), the resolver
guarantees separation only for non-exempt enemy pairs: an enemy neighbor at
squared ground distance in (4, 6.25) ends exactly 2.7 units away (at least
the 2.5 minimum), while a friendly neighbor closer than 2.5 units is pushed
only half of the shortfall, ending at (d + 2.5) / 2 — still strictly closer
than 2.5 units, contrary to the claimed friendly-pair guarantee. -/
theorem checkCollision_separation_amended (env : Env) (rng wall : ℕ)
    (newPos : Pos3) (cur other : Unit) (selected : List ℕ) (lp : Option ℕ)
    (orders : ℕ → Option Pos3)
    (hid : ¬other.id = cur.id) (hkind : ¬other.kind = UnitKind.Base)
    (hsel : ¬cur.id ∈ selected) :
    (¬other.ownerId = cur.ownerId →
      4 < (newPos.x - other.position.x) * (newPos.x - other.position.x) +
          (newPos.z - other.position.z) * (newPos.z - other.position.z) →
      (newPos.x - other.position.x) * (newPos.x - other.position.x) +
          (newPos.z - other.position.z) * (newPos.z - other.position.z) < 6.25 →
      dist2D (checkCollision env rng wall newPos cur [cur, other] 2.5 selected
        lp orders).adjustedPosition other.position = 2.7) ∧
    (other.ownerId = cur.ownerId →
      0.000001 ≤ (newPos.x - other.position.x) * (newPos.x - other.position.x) +
          (newPos.z - other.position.z) * (newPos.z - other.position.z) →
      (newPos.x - other.position.x) * (newPos.x - other.position.x) +
          (newPos.z - other.position.z) * (newPos.z - other.position.z) < 6.25 →
      dist2D (checkCollision env rng wall newPos cur [cur, other] 2.5 selected
          lp orders).adjustedPosition other.position =
        (Real.sqrt ((newPos.x - other.position.x) * (newPos.x - other.position.x) +
          (newPos.z - other.position.z) * (newPos.z - other.position.z)) + 2.5) / 2 ∧
      dist2D (checkCollision env rng wall newPos cur [cur, other] 2.5 selected
        lp orders).adjustedPosition other.position < 2.5) := by
  have hfilter : ([cur, other].filter (fun o =>
      o.id ≠ cur.id ∧ o.kind ≠ UnitKind.Base)) = [other] := by
    simp [List.filter_cons, hid, hkind]
  have hlen : ¬(50 < ([cur, other] : List Unit).length) := by simp
  have hpos := checkCollision_pos env rng wall newPos cur [cur, other] 2.5
    selected lp orders
  rw [if_neg hlen, hfilter, List.foldl_cons, List.foldl_nil] at hpos
  have hdnn : (0 : ℝ) ≤ (newPos.x - other.position.x) * (newPos.x - other.position.x) +
      (newPos.z - other.position.z) * (newPos.z - other.position.z) :=
    add_nonneg (mul_self_nonneg _) (mul_self_nonneg _)
  constructor
  · intro hen h4 h625
    have hskip : ¬(cur.ownerId ≠ other.ownerId ∧
        (newPos.x - other.position.x) * (newPos.x - other.position.x) +
          (newPos.z - other.position.z) * (newPos.z - other.position.z) ≤ 4) := by
      rintro ⟨-, hle⟩
      exact absurd hle (not_le.mpr h4)
    have hd0 : (0.001 : ℝ) ≤ Real.sqrt
        ((newPos.x - other.position.x) * (newPos.x - other.position.x) +
          (newPos.z - other.position.z) * (newPos.z - other.position.z)) := by
      rw [show (0.001 : ℝ) = Real.sqrt 0.000001 by
        rw [show (0.000001 : ℝ) = 0.001 ^ 2 by norm_num, Real.sqrt_sq (by norm_num)]]
      exact Real.sqrt_le_sqrt (by linarith)
    have hdlt : ¬(Real.sqrt
        ((newPos.x - other.position.x) * (newPos.x - other.position.x) +
          (newPos.z - other.position.z) * (newPos.z - other.position.z)) < 0.001) :=
      not_lt.mpr hd0
    have hfr : ¬cur.ownerId = other.ownerId := fun hEq => hen hEq.symm
    have h625b : (newPos.x - other.position.x) * (newPos.x - other.position.x) +
        (newPos.z - other.position.z) * (newPos.z - other.position.z) <
          2.5 * 2.5 :=
      h625.trans_eq (by norm_num)
    rw [hpos]
    simp only [collisionStep]
    rw [if_neg hskip, if_pos h625b, if_neg hdlt, if_neg hfr]
    have hdpos : (0 : ℝ) < Real.sqrt
        ((newPos.x - other.position.x) * (newPos.x - other.position.x) +
          (newPos.z - other.position.z) * (newPos.z - other.position.z)) :=
      Real.sqrt_pos.mpr (by linarith)
    have hdle : Real.sqrt
        ((newPos.x - other.position.x) * (newPos.x - other.position.x) +
          (newPos.z - other.position.z) * (newPos.z - other.position.z)) < 2.5 := by
      rw [show (2.5 : ℝ) = Real.sqrt 6.25 by
        rw [show (6.25 : ℝ) = 2.5 ^ 2 by norm_num, Real.sqrt_sq (by norm_num)]]
      exact Real.sqrt_lt_sqrt hdnn h625
    set dx := newPos.x - other.position.x with hdx
    set dz := newPos.z - other.position.z with hdz
    set d := Real.sqrt (dx * dx + dz * dz) with hd
    have hp : (0 : ℝ) ≤ 2.5 - d + 0.2 := by linarith
    have hpd := pushed_dist dx dz d (2.5 - d + 0.2) hd hdpos hp
    unfold dist2D
    dsimp only
    calc Real.sqrt ((newPos.x + dx * (1 / d) * (2.5 - d + 0.2) - other.position.x) *
          (newPos.x + dx * (1 / d) * (2.5 - d + 0.2) - other.position.x) +
          (newPos.z + dz * (1 / d) * (2.5 - d + 0.2) - other.position.z) *
          (newPos.z + dz * (1 / d) * (2.5 - d + 0.2) - other.position.z))
        = Real.sqrt ((dx + dx / d * (2.5 - d + 0.2)) *
            (dx + dx / d * (2.5 - d + 0.2)) +
          (dz + dz / d * (2.5 - d + 0.2)) * (dz + dz / d * (2.5 - d + 0.2))) := by
          rw [hdx, hdz]
          ring_nf
      _ = d + (2.5 - d + 0.2) := hpd
      _ = 2.7 := by ring
  · intro hfr hns h625
    have hskip : ¬(cur.ownerId ≠ other.ownerId ∧
        (newPos.x - other.position.x) * (newPos.x - other.position.x) +
          (newPos.z - other.position.z) * (newPos.z - other.position.z) ≤ 4) := by
      rintro ⟨hne, -⟩
      exact hne hfr.symm
    have hd0 : (0.001 : ℝ) ≤ Real.sqrt
        ((newPos.x - other.position.x) * (newPos.x - other.position.x) +
          (newPos.z - other.position.z) * (newPos.z - other.position.z)) := by
      rw [show (0.001 : ℝ) = Real.sqrt 0.000001 by
        rw [show (0.000001 : ℝ) = 0.001 ^ 2 by norm_num, Real.sqrt_sq (by norm_num)]]
      exact Real.sqrt_le_sqrt hns
    have hdlt : ¬(Real.sqrt
        ((newPos.x - other.position.x) * (newPos.x - other.position.x) +
          (newPos.z - other.position.z) * (newPos.z - other.position.z)) < 0.001) :=
      not_lt.mpr hd0
    have hdpos : (0 : ℝ) < Real.sqrt
        ((newPos.x - other.position.x) * (newPos.x - other.position.x) +
          (newPos.z - other.position.z) * (newPos.z - other.position.z)) :=
      Real.sqrt_pos.mpr (by linarith)
    have hdle : Real.sqrt
        ((newPos.x - other.position.x) * (newPos.x - other.position.x) +
          (newPos.z - other.position.z) * (newPos.z - other.position.z)) < 2.5 := by
      rw [show (2.5 : ℝ) = Real.sqrt 6.25 by
        rw [show (6.25 : ℝ) = 2.5 ^ 2 by norm_num, Real.sqrt_sq (by norm_num)]]
      exact Real.sqrt_lt_sqrt hdnn h625
    have hred : ¬((cur.id ∈ selected) ∧ (lp = some cur.ownerId) ∧
        (lp = some other.ownerId) ∧ ¬other.id ∈ selected) :=
      fun h => hsel h.1
    have hmain : dist2D (checkCollision env rng wall newPos cur [cur, other] 2.5
        selected lp orders).adjustedPosition other.position =
        (Real.sqrt ((newPos.x - other.position.x) * (newPos.x - other.position.x) +
          (newPos.z - other.position.z) * (newPos.z - other.position.z)) + 2.5) / 2 := by
      have h625b : (newPos.x - other.position.x) * (newPos.x - other.position.x) +
          (newPos.z - other.position.z) * (newPos.z - other.position.z) <
            2.5 * 2.5 :=
        h625.trans_eq (by norm_num)
      rw [hpos]
      simp only [collisionStep]
      rw [if_neg hskip, if_pos h625b, if_neg hdlt, if_pos hfr.symm, if_neg hred]
      set dx := newPos.x - other.position.x with hdx
      set dz := newPos.z - other.position.z with hdz
      set d := Real.sqrt (dx * dx + dz * dz) with hd
      have hp : (0 : ℝ) ≤ (2.5 - d) * 0.5 := by linarith
      have hpd := pushed_dist dx dz d ((2.5 - d) * 0.5) hd hdpos hp
      unfold dist2D
      dsimp only
      calc Real.sqrt ((newPos.x + dx * (1 / d) * ((2.5 - d) * 0.5) - other.position.x) *
            (newPos.x + dx * (1 / d) * ((2.5 - d) * 0.5) - other.position.x) +
            (newPos.z + dz * (1 / d) * ((2.5 - d) * 0.5) - other.position.z) *
            (newPos.z + dz * (1 / d) * ((2.5 - d) * 0.5) - other.position.z))
          = Real.sqrt ((dx + dx / d * ((2.5 - d) * 0.5)) *
              (dx + dx / d * ((2.5 - d) * 0.5)) +
            (dz + dz / d * ((2.5 - d) * 0.5)) * (dz + dz / d * ((2.5 - d) * 0.5))) := by
            rw [hdx, hdz]
            ring_nf
        _ = d + (2.5 - d) * 0.5 := hpd
        _ = (d + 2.5) / 2 := by ring
    refine ⟨hmain, ?_⟩
    rw [hmain]
    linarith

/-- Fixture: an unselected player unit being moved. -/
def curC4 : Unit where
  id := 11
  ownerId := 7
  animal := AnimalId.Cat
  kind := UnitKind.Unit
  position := ⟨5, 0, 5⟩
  hp := 90
  maxHp := 90
  attackDamage := 12
  moveSpeed := 16
  attackCooldownMs := 1500
  lastAttackAtMs := 0
  rotation := 0

/-- Fixture: a friendly neighbor at the origin. -/
def otherC4 : Unit where
  id := 12
  ownerId := 7
  animal := AnimalId.Cat
  kind := UnitKind.Unit
  position := ⟨0, 0, 0⟩
  hp := 90
  maxHp := 90
  attackDamage := 12
  moveSpeed := 16
  attackCooldownMs := 1500
  lastAttackAtMs := 0
  rotation := 0

/-- Fixture: an enemy neighbor at the origin. -/
def otherC4e : Unit where
  id := 13
  ownerId := 8
  animal := AnimalId.Owl
  kind := UnitKind.Unit
  position := ⟨0, 0, 0⟩
  hp := 100
  maxHp := 100
  attackDamage := 16
  moveSpeed := 14
  attackCooldownMs := 1500
  lastAttackAtMs := 0
  rotation := 0

/-- C4 counterexample: a friendly pair at tentative ground distance 1 is
pushed only to distance 1.75, strictly below the claimed 2.5-unit minimum
separation. -/
theorem checkCollision_friendly_below_min :
    dist2D (checkCollision envZero 0 0 ⟨1, 0, 0⟩ curC4 [curC4, otherC4] 2.5 []
        none (fun _ => none)).adjustedPosition otherC4.position = 1.75 ∧
      (1.75 : ℝ) < 2.5 := by
  refine ⟨?_, by norm_num⟩
  have hpos := checkCollision_pos envZero 0 0 ⟨1, 0, 0⟩ curC4 [curC4, otherC4]
    2.5 [] none (fun _ => none)
  rw [if_neg (by simp)] at hpos
  rw [show ([curC4, otherC4].filter (fun o =>
      o.id ≠ curC4.id ∧ o.kind ≠ UnitKind.Base)) = [otherC4] by
    simp [List.filter_cons, curC4, otherC4]] at hpos
  rw [List.foldl_cons, List.foldl_nil] at hpos
  rw [hpos]
  simp only [collisionStep, curC4, otherC4]
  norm_num
  unfold dist2D
  norm_num
  rw [show (49 : ℝ) = 7 ^ 2 by norm_num, show (16 : ℝ) = 4 ^ 2 by norm_num,
    Real.sqrt_sq (by norm_num : (0 : ℝ) ≤ 7),
    Real.sqrt_sq (by norm_num : (0 : ℝ) ≤ 4)]

/-- C4 witness: the amended separation theorem applied at two concrete
configurations — a friendly pair ending below 2.5, and a non-exempt enemy
pair ending at exactly 2.7. -/
theorem checkCollision_separation_amended_witness :
    (dist2D (checkCollision envZero 0 0 ⟨1, 0, 0⟩ curC4 [curC4, otherC4] 2.5 []
        none (fun _ => none)).adjustedPosition otherC4.position < 2.5) ∧
    (dist2D (checkCollision envZero 0 0 ⟨2.25, 0, 0⟩ curC4 [curC4, otherC4e] 2.5 []
        none (fun _ => none)).adjustedPosition otherC4e.position = 2.7) :=
  ⟨((checkCollision_separation_amended envZero 0 0 ⟨1, 0, 0⟩ curC4 otherC4 []
      none (fun _ => none) (by simp [curC4, otherC4]) (by simp [otherC4])
      (by simp)).2 rfl (by norm_num [curC4, otherC4])
      (by norm_num [curC4, otherC4])).2,
    (checkCollision_separation_amended envZero 0 0 ⟨2.25, 0, 0⟩ curC4 otherC4e []
      none (fun _ => none) (by simp [curC4, otherC4e]) (by simp [otherC4e])
      (by simp)).1 (by simp [curC4, otherC4e]) (by norm_num [curC4, otherC4e])
      (by norm_num [curC4, otherC4e])⟩

/-- Two far-apart units with distinct ids. -/
def cUnitA : Unit where
  id := 5
  ownerId := 7
  animal := AnimalId.Bee
  kind := UnitKind.Unit
  position := ⟨0, 0, 0⟩
  hp := 60
  maxHp := 60
  attackDamage := 10
  moveSpeed := 20
  attackCooldownMs := 1500
  lastAttackAtMs := 0
  rotation := 0

/-- Second fixture unit, far from the first. -/
def cUnitB : Unit where
  id := 9
  ownerId := 8
  animal := AnimalId.Owl
  kind := UnitKind.Unit
  position := ⟨200, 0, 0⟩
  hp := 100
  maxHp := 100
  attackDamage := 16
  moveSpeed := 14
  attackCooldownMs := 1500
  lastAttackAtMs := 0
  rotation := 0

/-- C2: rebuilding the grid from a unit list (with the distinct ids that
nanoid guarantees) and querying it by radius returns exactly the units whose
3D Euclidean distance from the query position is at most the radius, i.e.
the same set as a brute-force linear scan with an exact distance filter —
for every unit list, query position and radius. -/
theorem getNearbyUnits_eq_bruteforce (units : List Unit) (pos : Pos3)
    (radius : ℝ) (hids : (units.map (fun u => u.id)).Nodup) (u : Unit) :
    u ∈ getNearbyUnits (buildFromUnits units) units pos radius ↔
      u ∈ units.filter
        (fun w => SpatialGrid.distance3D pos w.position ≤ radius) :=
  getNearbyUnits_mem_iff units pos radius hids u

/-- C2 witness: the grid equivalence applied to a concrete two-unit list
with distinct ids, at a concrete query and a concrete unit. -/
theorem getNearbyUnits_eq_bruteforce_witness :
    ([cUnitA, cUnitB].map (fun u => u.id)).Nodup ∧
    (cUnitA ∈ getNearbyUnits (buildFromUnits [cUnitA, cUnitB])
        [cUnitA, cUnitB] ⟨1, 0, 0⟩ 10 ↔
      cUnitA ∈ [cUnitA, cUnitB].filter
        (fun w => SpatialGrid.distance3D ⟨1, 0, 0⟩ w.position ≤ 10)) :=
  ⟨by simp [cUnitA, cUnitB],
    getNearbyUnits_eq_bruteforce [cUnitA, cUnitB] ⟨1, 0, 0⟩ 10
      (by simp [cUnitA, cUnitB]) cUnitA⟩

/-! ## Shared structural lemmas about unit updates -/

/-- The identity-and-stats projection of a unit: the fields no step of the
behavior pass may change. -/
def proj (w : Unit) : ℕ × ℕ × AnimalId × UnitKind × ℝ × ℝ × ℝ :=
  (w.id, w.ownerId, w.animal, w.kind, w.hp, w.maxHp, w.attackDamage)

theorem updU_map_proj (units : List Unit) (uid : ℕ) (f : Unit → Unit)
    (hf : ∀ w, proj (f w) = proj w) :
    (updU units uid f).map proj = units.map proj := by
  unfold updU
  rw [List.map_map]
  refine List.map_congr_left fun w _ => ?_
  dsimp only [Function.comp]
  split
  · exact hf w
  · rfl

theorem checkCollision_unit_eq (env : Env) (rng wall : ℕ) (newPos : Pos3)
    (cu : Unit) (allUnits : List Unit) (cr : ℝ) (sel : List ℕ)
    (lp : Option ℕ) (orders : ℕ → Option Pos3) :
    ∃ ca mp, (checkCollision env rng wall newPos cu allUnits cr sel lp
        orders).currentUnit =
      { cu with collisionAttempts := ca, movementPausedUntilMs := mp } := by
  unfold checkCollision collisionFinish
  dsimp only
  repeat' split
  all_goals exact ⟨_, _, rfl⟩

theorem find?_updU (units : List Unit) (uid : ℕ) (f : Unit → Unit)
    (hid : ∀ w, w.id = uid → (f w).id = uid) :
    (updU units uid f).find? (fun w => w.id = uid) =
      (units.find? (fun w => w.id = uid)).map f := by
  induction units with
  | nil => rfl
  | cons a t ih =>
      unfold updU at ih ⊢
      rw [List.map_cons]
      by_cases h : a.id = uid
      · rw [if_pos h, List.find?_cons_of_pos _ (by simp [hid a h]),
          List.find?_cons_of_pos _ (by simpa using h)]
        rfl
      · rw [if_neg h, List.find?_cons_of_neg _ (by simpa using h),
          List.find?_cons_of_neg _ (by simpa using h), ih]

theorem find?_updU_rep (units : List Unit) (uid : ℕ) (c : Unit)
    (hc : c.id = uid) (w0 : Unit)
    (hw : units.find? (fun w => w.id = uid) = some w0) :
    (updU units uid (fun _ => c)).find? (fun w => w.id = uid) = some c := by
  rw [find?_updU units uid (fun _ => c) (fun w _ => hc), hw]
  rfl

theorem updU_map_keep {β : Type} (units : List Unit) (uid : ℕ)
    (f : Unit → Unit) (g : Unit → β) (hf : ∀ w, g (f w) = g w) :
    (updU units uid f).map g = units.map g := by
  unfold updU
  rw [List.map_map]
  refine List.map_congr_left fun w _ => ?_
  dsimp only [Function.comp]
  split
  · exact hf w
  · rfl

theorem hopUpdate_eq (dtSec : ℝ) (u : Unit) :
    ∃ ih hp2, hopUpdate dtSec u = { u with isHopping := ih, hopPhase := hp2 } := by
  unfold hopUpdate
  split
  · exact ⟨_, _, rfl⟩
  · exact ⟨_, _, rfl⟩

/-- Fields of the move-and-hop tail of the combat pursuit: only position,
hopping animation and collision bookkeeping change. -/
theorem moveTail_fields (env : Env) (r w : ℕ) (np : Pos3) (u3 : Unit)
    (units : List Unit) (cr : ℝ) (sel : List ℕ) (lp : Option ℕ)
    (orders : ℕ → Option Pos3) (dtSec : ℝ) :
    proj (hopUpdate dtSec
      { (checkCollision env r w np u3 units cr sel lp orders).currentUnit with
        position := (checkCollision env r w np u3 units cr sel lp
          orders).adjustedPosition }) = proj u3 ∧
    (hopUpdate dtSec
      { (checkCollision env r w np u3 units cr sel lp orders).currentUnit with
        position := (checkCollision env r w np u3 units cr sel lp
          orders).adjustedPosition }).lastAttackAtMs = u3.lastAttackAtMs := by
  obtain ⟨ca, mp, hcc⟩ := checkCollision_unit_eq env r w np u3 units cr sel
    lp orders
  obtain ⟨ih, hp2, hh⟩ := hopUpdate_eq dtSec
    { (checkCollision env r w np u3 units cr sel lp orders).currentUnit with
      position := (checkCollision env r w np u3 units cr sel lp
        orders).adjustedPosition }
  rw [hh, hcc]
  exact ⟨rfl, rfl⟩

/-! ## C7: cooldown-gated batched combat with knockback -/

theorem combatExec_spec (env : Env) (dtSec nowMs : ℝ) (d : Draft) (u : Unit)
    (tid : ℕ) (target : Unit)
    (hfind : d.gs.units.find? (fun w => w.id = tid) = some target)
    (hcool : u.attackCooldownMs = 1500) :
    ((distanceSquared3D u.position target.position ≤ 16 ∧
        1500 ≤ nowMs - u.lastAttackAtMs) →
      (combatExec env dtSec nowMs d u tid).1.combatPairs =
        d.combatPairs ++ [⟨u.id, target.id, u.attackDamage⟩] ∧
      (combatExec env dtSec nowMs d u tid).2.lastAttackAtMs = nowMs) ∧
    (¬(distanceSquared3D u.position target.position ≤ 16 ∧
        1500 ≤ nowMs - u.lastAttackAtMs) →
      (combatExec env dtSec nowMs d u tid).1.combatPairs = d.combatPairs ∧
      (combatExec env dtSec nowMs d u tid).2.lastAttackAtMs = u.lastAttackAtMs) ∧
    ((combatExec env dtSec nowMs d u tid).1.gs.units.map proj =
      d.gs.units.map proj) ∧
    proj (combatExec env dtSec nowMs d u tid).2 = proj u := by
  unfold combatExec
  rw [hfind]
  dsimp only
  by_cases h16 : distanceSquared3D u.position target.position ≤ 16
  · rw [if_pos h16, if_neg (not_lt.mpr h16)]
    by_cases hcd : u.attackCooldownMs ≤ nowMs - u.lastAttackAtMs
    · rw [if_pos hcd]
      have hcd15 : 1500 ≤ nowMs - u.lastAttackAtMs := hcool ▸ hcd
      exact ⟨fun _ => ⟨rfl, rfl⟩, fun hn => absurd ⟨h16, hcd15⟩ hn,
        updU_map_proj _ _ _ fun w => rfl, rfl⟩
    · rw [if_neg hcd]
      exact ⟨fun hy => absurd (show u.attackCooldownMs ≤ nowMs - u.lastAttackAtMs
        by rw [hcool]; exact hy.2) hcd, fun _ => ⟨rfl, rfl⟩, rfl, rfl⟩
  · rw [if_neg h16, if_pos (not_le.mp h16)]
    refine ⟨fun hy => absurd hy.1 h16, fun _ => ⟨rfl, ?_⟩, rfl, ?_⟩
    · exact (moveTail_fields _ _ _ _ _ _ _ _ _ _ _).2
    · exact (moveTail_fields _ _ _ _ _ _ _ _ _ _ _).1

theorem applyCombatPair_spec (env : Env) (d : Draft) (pair : CombatPair)
    (target : Unit)
    (hfind : d.gs.units.find? (fun w => w.id = pair.targetId) = some target) :
    (∃ w, (applyCombatPair env d pair).gs.units.find?
        (fun w2 => w2.id = pair.targetId) = some w ∧
      w.hp = target.hp - pair.damage) ∧
    ((applyCombatPair env d pair).gs.deadUnitsToRemove =
      if target.hp - pair.damage ≤ 0 then
        d.gs.deadUnitsToRemove ++ [pair.targetId]
      else d.gs.deadUnitsToRemove) ∧
    (target.hp - pair.damage ≤ 0 →
      (applyCombatPair env d pair).gs.units.map (fun w => (w.id, w.position)) =
        d.gs.units.map (fun w => (w.id, w.position))) := by
  have htid : target.id = pair.targetId := by
    have := List.find?_some hfind
    simpa using this
  have hfu : (updU d.gs.units pair.targetId
      (fun w => { w with hp := w.hp - pair.damage })).find?
        (fun w => w.id = pair.targetId) =
      some { target with hp := target.hp - pair.damage } := by
    rw [find?_updU d.gs.units pair.targetId
      (fun w => { w with hp := w.hp - pair.damage }) (fun w hw => hw), hfind]
    rfl
  have hkeep : (updU d.gs.units pair.targetId
      (fun w => { w with hp := w.hp - pair.damage })).map
        (fun w => (w.id, w.position)) =
      d.gs.units.map (fun w => (w.id, w.position)) :=
    updU_map_keep _ _ _ _ fun w => rfl
  unfold applyCombatPair
  rw [hfind]
  dsimp only
  by_cases hdead : target.hp - pair.damage ≤ 0
  · rw [if_pos hdead, if_pos hdead]
    cases hatt : (updU d.gs.units pair.targetId
        (fun w => { w with hp := w.hp - pair.damage })).find?
          (fun w => w.id = pair.attackerId) with
    | none =>
        simp only [hatt]
        exact ⟨⟨_, hfu, rfl⟩, by trivial, fun _ => hkeep⟩
    | some att =>
        simp only [hatt]
        rw [if_neg (fun hy => absurd hy.1 (not_lt.mpr hdead))]
        exact ⟨⟨_, hfu, rfl⟩, by trivial, fun _ => hkeep⟩
  · rw [if_neg hdead, if_neg hdead]
    cases hatt : (updU d.gs.units pair.targetId
        (fun w => { w with hp := w.hp - pair.damage })).find?
          (fun w => w.id = pair.attackerId) with
    | none =>
        simp only [hatt]
        exact ⟨⟨_, hfu, rfl⟩, by trivial, fun hdead2 => absurd hdead2 hdead⟩
    | some att =>
        simp only [hatt]
        split
        · refine ⟨?_, by trivial, fun hdead2 => absurd hdead2 hdead⟩
          obtain ⟨ca, mp, hcc⟩ := checkCollision_unit_eq env d.rng d.wall
            ⟨({ target with hp := target.hp - pair.damage } : Unit).position.x +
                (normalize3D (subtract3D ({ target with hp := target.hp - pair.damage } :
                  Unit).position att.position)).x * 0.8,
              ({ target with hp := target.hp - pair.damage } : Unit).position.y,
              ({ target with hp := target.hp - pair.damage } : Unit).position.z +
                (normalize3D (subtract3D ({ target with hp := target.hp - pair.damage } :
                  Unit).position att.position)).z * 0.8⟩
            ({ target with hp := target.hp - pair.damage } : Unit)
            (updU d.gs.units pair.targetId
              (fun w => { w with hp := w.hp - pair.damage }))
            2.5 d.gs.selectedUnitIds d.gs.localPlayerId d.gs.unitOrders
          rw [hcc]
          exact ⟨_, find?_updU_rep _ _ _ htid _ hfu, rfl⟩
        · exact ⟨⟨_, hfu, rfl⟩, by trivial, fun hdead2 => absurd hdead2 hdead⟩

/-- C7: an attacker with a resolved target within squared distance 16 queues
the (attacker, target, attackDamage) combat triple exactly when at least
1500 ms (the uniform cooldown) have passed since its last attack, stamping
its attack time; the behavior pass never changes any unit HP (damage is
queued, not applied). When a queued pair is applied after the pass, the
target loses exactly the queued damage, is queued for removal exactly when
its HP drops to 0 or below, and no position changes (knockback) happen for a
target whose HP did not remain above 0. -/
theorem combat_cooldown_batch_knockback_spec :
    (∀ (env : Env) (dtSec nowMs : ℝ) (d : Draft) (u : Unit) (tid : ℕ)
      (target : Unit),
      d.gs.units.find? (fun w => w.id = tid) = some target →
      u.attackCooldownMs = 1500 →
      ((distanceSquared3D u.position target.position ≤ 16 ∧
          1500 ≤ nowMs - u.lastAttackAtMs) →
        (combatExec env dtSec nowMs d u tid).1.combatPairs =
          d.combatPairs ++ [⟨u.id, target.id, u.attackDamage⟩] ∧
        (combatExec env dtSec nowMs d u tid).2.lastAttackAtMs = nowMs) ∧
      (¬(distanceSquared3D u.position target.position ≤ 16 ∧
          1500 ≤ nowMs - u.lastAttackAtMs) →
        (combatExec env dtSec nowMs d u tid).1.combatPairs = d.combatPairs ∧
        (combatExec env dtSec nowMs d u tid).2.lastAttackAtMs =
          u.lastAttackAtMs) ∧
      ((combatExec env dtSec nowMs d u tid).1.gs.units.map proj =
        d.gs.units.map proj) ∧
      proj (combatExec env dtSec nowMs d u tid).2 = proj u) ∧
    (∀ (env : Env) (d : Draft) (pair : CombatPair) (target : Unit),
      d.gs.units.find? (fun w => w.id = pair.targetId) = some target →
      (∃ w, (applyCombatPair env d pair).gs.units.find?
          (fun w2 => w2.id = pair.targetId) = some w ∧
        w.hp = target.hp - pair.damage) ∧
      ((applyCombatPair env d pair).gs.deadUnitsToRemove =
        if target.hp - pair.damage ≤ 0 then
          d.gs.deadUnitsToRemove ++ [pair.targetId]
        else d.gs.deadUnitsToRemove) ∧
      (target.hp - pair.damage ≤ 0 →
        (applyCombatPair env d pair).gs.units.map (fun w => (w.id, w.position)) =
          d.gs.units.map (fun w => (w.id, w.position)))) :=
  ⟨fun env dtSec nowMs d u tid target hfind hcool =>
    combatExec_spec env dtSec nowMs d u tid target hfind hcool,
   fun env d pair target hfind => applyCombatPair_spec env d pair target hfind⟩

/-- Fixture: an enemy target in attack range of cUnitA. -/
def tC7 : Unit where
  id := 21
  ownerId := 8
  animal := AnimalId.Owl
  kind := UnitKind.Unit
  position := ⟨3, 0, 0⟩
  hp := 100
  maxHp := 100
  attackDamage := 16
  moveSpeed := 14
  attackCooldownMs := 1500
  lastAttackAtMs := 0
  rotation := 0

/-- Fixture: a draft with one attacker and one enemy target in range. -/
def dC7 : Draft :=
  ⟨{ baseState with matchStarted := true, units := [cUnitA, tC7] },
    buildFromUnits [cUnitA, tC7], [], 0, 0, 0, []⟩

/-- C7 witness: the combat theorem applied at a concrete in-range, off-
cooldown attacker and at a concrete queued pair. -/
theorem combat_cooldown_batch_knockback_spec_witness :
    ((combatExec envZero 1 2000 dC7 cUnitA 21).1.combatPairs =
      dC7.combatPairs ++ [⟨cUnitA.id, tC7.id, cUnitA.attackDamage⟩]) ∧
    ((applyCombatPair envZero dC7 ⟨5, 21, 10⟩).gs.deadUnitsToRemove =
      if tC7.hp - (10 : ℝ) ≤ 0 then
        dC7.gs.deadUnitsToRemove ++ [21]
      else dC7.gs.deadUnitsToRemove) :=
  ⟨((combat_cooldown_batch_knockback_spec.1 envZero 1 2000 dC7 cUnitA 21 tC7
      (by simp [dC7, baseState, cUnitA, tC7, List.find?]) rfl).1
      ⟨by norm_num [distanceSquared3D, cUnitA, tC7],
        by norm_num [cUnitA]⟩).1,
   (combat_cooldown_batch_knockback_spec.2 envZero dC7 ⟨5, 21, 10⟩ tC7
      (by simp [dC7, baseState, cUnitA, tC7, List.find?])).2.1⟩

/-! ## C8: throttled regeneration near friendly queens -/

theorem find?_map_id (units : List Unit) (g : Unit → Unit)
    (hg : ∀ w, (g w).id = w.id) (j : ℕ) :
    (units.map g).find? (fun w => w.id = j) =
      (units.find? (fun w => w.id = j)).map g := by
  induction units with
  | nil => rfl
  | cons a t ih =>
      rw [List.map_cons]
      by_cases h : a.id = j
      · rw [List.find?_cons_of_pos _ (by simp [hg, h]),
          List.find?_cons_of_pos _ (by simpa using h)]
        rfl
      · rw [List.find?_cons_of_neg _ (by simp [hg, h]),
          List.find?_cons_of_neg _ (by simpa using h), ih]

theorem getNearbyUnits_map (g : Grid) (units : List Unit) (gg : Unit → Unit)
    (hid : ∀ w, (gg w).id = w.id) (hpos : ∀ w, (gg w).position = w.position)
    (pos : Pos3) (r : ℝ) :
    getNearbyUnits g (units.map gg) pos r =
      (getNearbyUnits g units pos r).map gg := by
  unfold getNearbyUnits
  dsimp only
  rw [List.map_flatMap]
  congr 1
  funext dx
  rw [List.map_flatMap]
  congr 1
  funext dz
  have h1 : (g ((getGridCoords pos).1 + dx, (getGridCoords pos).2 + dz)).filterMap
      (fun i => (units.map gg).find? (fun u => u.id = i)) =
      ((g ((getGridCoords pos).1 + dx, (getGridCoords pos).2 + dz)).filterMap
        (fun i => units.find? (fun u => u.id = i))).map gg := by
    rw [List.map_filterMap]
    exact List.filterMap_congr fun i _ => find?_map_id units gg hid i
  rw [h1, List.filter_map]
  refine congrArg _ (List.filter_congr fun w _ => ?_)
  simp [hpos]

theorem findNearbyQueens_map (g : Grid) (units : List Unit) (gg : Unit → Unit)
    (hid : ∀ w, (gg w).id = w.id) (hpos : ∀ w, (gg w).position = w.position)
    (hkind : ∀ w, (gg w).kind = w.kind) (howner : ∀ w, (gg w).ownerId = w.ownerId)
    (u : Unit) (r : ℝ) :
    findNearbyQueens g (units.map gg) u r =
      (findNearbyQueens g units u r).map gg := by
  unfold findNearbyQueens
  rw [getNearbyUnits_map g units gg hid hpos, List.filter_map]
  refine congrArg _ (List.filter_congr fun w _ => ?_)
  simp [hpos, hkind, howner]

/-- The guard of one healStep iteration, evaluated against a draft: the unit
is alive, its own regen stamp is at least 3000 ms old, and the spatial query
finds a friendly queen in regen range. -/
def healCond (nowMs : ℝ) (d : Draft) (u : Unit) : Prop :=
  0 < u.hp ∧
    3000 ≤ nowMs - (d.gs.lastRegenAtMsByUnitId u.id).getD 0 ∧
    0 < (findNearbyQueens d.grid d.gs.units u d.gs.config.regenRadius).length

theorem healStep_eq (nowMs : ℝ) (d : Draft) (u0 : Unit)
    (hfind : d.gs.units.find? (fun w => w.id = u0.id) = some u0) :
    healStep nowMs d u0 =
      if healCond nowMs d u0 then
        { d with gs := { d.gs with
            units := updU d.gs.units u0.id
              (fun w => { w with hp := min w.maxHp (w.hp + 1) }),
            lastRegenAtMsByUnitId :=
              fset d.gs.lastRegenAtMsByUnitId u0.id nowMs } }
      else d := by
  unfold healStep healCond
  rw [hfind]
  dsimp only
  by_cases h1 : u0.hp ≤ 0
  · rw [if_pos h1, if_neg (fun hy => absurd h1 (not_le.mpr hy.1))]
  · rw [if_neg h1]
    by_cases h2 : nowMs - (d.gs.lastRegenAtMsByUnitId u0.id).getD 0 < 3000
    · rw [if_pos h2, if_neg (fun hy => absurd h2 (not_lt.mpr hy.2.1))]
    · rw [if_neg h2]
      by_cases h3 : 0 < (findNearbyQueens d.grid d.gs.units u0
          d.gs.config.regenRadius).length
      · rw [if_pos h3, if_pos ⟨not_le.mp h1, not_lt.mp h2, h3⟩]
      · rw [if_neg h3, if_neg (fun hy => absurd hy.2.2 h3)]

/-- The heal applied to a unit. -/
def healU (w : Unit) : Unit :=
  { w with hp := min w.maxHp (w.hp + 1) }

/-- The unit transformer of the cumulative regeneration state: heal the
members of S that satisfied the heal guard. -/
def healSel (nowMs : ℝ) (d : Draft) (S : List Unit) : Unit → Unit :=
  fun w => if w ∈ S ∧ healCond nowMs d w then healU w else w

theorem healSel_id (nowMs : ℝ) (d : Draft) (S : List Unit) (w : Unit) :
    (healSel nowMs d S w).id = w.id := by
  unfold healSel healU
  split <;> rfl

theorem healSel_position (nowMs : ℝ) (d : Draft) (S : List Unit) (w : Unit) :
    (healSel nowMs d S w).position = w.position := by
  unfold healSel healU
  split <;> rfl

theorem healSel_kind (nowMs : ℝ) (d : Draft) (S : List Unit) (w : Unit) :
    (healSel nowMs d S w).kind = w.kind := by
  unfold healSel healU
  split <;> rfl

theorem healSel_ownerId (nowMs : ℝ) (d : Draft) (S : List Unit) (w : Unit) :
    (healSel nowMs d S w).ownerId = w.ownerId := by
  unfold healSel healU
  split <;> rfl

/-- The cumulative state of the regeneration loop after processing the units
of S, expressed against the initial draft d: each unit of S that satisfied
the heal guard is healed and stamped, everything else is unchanged. -/
def healedState (nowMs : ℝ) (d : Draft) (S : List Unit) : Draft :=
  { d with gs := { d.gs with
      units := d.gs.units.map (healSel nowMs d S),
      lastRegenAtMsByUnitId := fun k =>
        if ∃ u, u ∈ S ∧ healCond nowMs d u ∧ u.id = k then some nowMs
        else d.gs.lastRegenAtMsByUnitId k } }

theorem healedState_nil (nowMs : ℝ) (d : Draft) :
    healedState nowMs d [] = d := by
  unfold healedState
  have h1 : d.gs.units.map (healSel nowMs d []) = d.gs.units := by
    rw [show healSel nowMs d [] = id from funext fun w => by
      unfold healSel
      rw [if_neg (by simp)]
      rfl]
    exact List.map_id _
  have h2 : (fun k =>
      if ∃ u, u ∈ ([] : List Unit) ∧ healCond nowMs d u ∧ u.id = k then
        some nowMs
      else d.gs.lastRegenAtMsByUnitId k) = d.gs.lastRegenAtMsByUnitId :=
    funext fun k => if_neg (by simp)
  rw [h1, h2]

theorem mem_id_eq (units : List Unit)
    (hids : (units.map (fun u => u.id)).Nodup) (u w : Unit)
    (hu : u ∈ units) (hw : w ∈ units) (hEq : w.id = u.id) : w = u := by
  have h1 := find?_id_of_mem units hids u hu
  have h2 := find?_id_of_mem units hids w hw
  rw [hEq] at h2
  rw [h1] at h2
  exact (Option.some_inj.mp h2).symm

theorem healStep_healedState (nowMs : ℝ) (d : Draft) (S : List Unit) (a : Unit)
    (hids : (d.gs.units.map (fun u => u.id)).Nodup)
    (ha : a ∈ d.gs.units)
    (haS : ∀ u ∈ S, ¬u.id = a.id) :
    healStep nowMs (healedState nowMs d S) a = healedState nowMs d (S ++ [a]) := by
  have hanotS : a ∉ S := fun h => haS a h rfl
  have hfind : (healedState nowMs d S).gs.units.find? (fun w => w.id = a.id) =
      some a := by
    show (d.gs.units.map (healSel nowMs d S)).find? (fun w => w.id = a.id) = some a
    rw [find?_map_id _ _ (healSel_id nowMs d S) a.id,
      find?_id_of_mem d.gs.units hids a ha]
    show some (healSel nowMs d S a) = some a
    unfold healSel
    rw [if_neg (fun hy => hanotS hy.1)]
  have hlr : (healedState nowMs d S).gs.lastRegenAtMsByUnitId a.id =
      d.gs.lastRegenAtMsByUnitId a.id := by
    show (if ∃ u, u ∈ S ∧ healCond nowMs d u ∧ u.id = a.id then some nowMs
      else d.gs.lastRegenAtMsByUnitId a.id) = d.gs.lastRegenAtMsByUnitId a.id
    rw [if_neg]
    rintro ⟨u, huS, -, hid⟩
    exact haS u huS hid
  have hq : findNearbyQueens (healedState nowMs d S).grid
      (healedState nowMs d S).gs.units a
      (healedState nowMs d S).gs.config.regenRadius =
      (findNearbyQueens d.grid d.gs.units a d.gs.config.regenRadius).map
        (healSel nowMs d S) := by
    show findNearbyQueens d.grid (d.gs.units.map (healSel nowMs d S)) a
        d.gs.config.regenRadius = _
    exact findNearbyQueens_map d.grid d.gs.units _ (healSel_id nowMs d S)
      (healSel_position nowMs d S) (healSel_kind nowMs d S)
      (healSel_ownerId nowMs d S) a _
  have hcond : healCond nowMs (healedState nowMs d S) a ↔ healCond nowMs d a := by
    unfold healCond
    rw [hlr, hq, List.length_map]
  rw [healStep_eq nowMs (healedState nowMs d S) a hfind]
  by_cases hca : healCond nowMs d a
  · rw [if_pos (hcond.mpr hca)]
    have hunits : updU (healedState nowMs d S).gs.units a.id
        (fun w => { w with hp := min w.maxHp (w.hp + 1) }) =
        d.gs.units.map (healSel nowMs d (S ++ [a])) := by
      show updU (d.gs.units.map (healSel nowMs d S)) a.id
        (fun w => { w with hp := min w.maxHp (w.hp + 1) }) = _
      unfold updU
      rw [List.map_map]
      refine List.map_congr_left fun w hw => ?_
      dsimp only [Function.comp]
      by_cases hwid : (healSel nowMs d S w).id = a.id
      · have hwa : w = a := mem_id_eq d.gs.units hids a w ha hw
          (by rw [← healSel_id nowMs d S w]; exact hwid)
        have hsa : healSel nowMs d S w = w := by
          rw [hwa]
          unfold healSel
          rw [if_neg (fun hy => hanotS hy.1)]
        rw [if_pos hwid, hsa]
        unfold healSel healU
        rw [if_pos ⟨by rw [hwa]; exact
          List.mem_append_right _ (List.mem_singleton_self a),
          hwa.symm ▸ hca⟩]
      · rw [if_neg hwid]
        have hwa : ¬w.id = a.id := by
          rw [← healSel_id nowMs d S w]
          exact hwid
        unfold healSel
        by_cases hmem : w ∈ S ∧ healCond nowMs d w
        · rw [if_pos hmem, if_pos ⟨List.mem_append_left _ hmem.1, hmem.2⟩]
        · have hnot : ¬(w ∈ S ++ [a] ∧ healCond nowMs d w) := by
            rintro ⟨hm, hc⟩
            rcases List.mem_append.mp hm with h | h
            · exact hmem ⟨h, hc⟩
            · rw [List.mem_singleton] at h
              subst h
              exact hwa rfl
          rw [if_neg hmem, if_neg hnot]
    have hlr2 : fset (healedState nowMs d S).gs.lastRegenAtMsByUnitId a.id nowMs =
        (fun k => if ∃ u, u ∈ S ++ [a] ∧ healCond nowMs d u ∧ u.id = k then
            some nowMs
          else d.gs.lastRegenAtMsByUnitId k) := by
      funext k
      show (if k = a.id then some nowMs
        else (healedState nowMs d S).gs.lastRegenAtMsByUnitId k) = _
      by_cases hk : k = a.id
      · rw [if_pos hk, if_pos ⟨a,
          List.mem_append_right _ (List.mem_singleton_self a), hca, hk.symm⟩]
      · rw [if_neg hk]
        show (if ∃ u, u ∈ S ∧ healCond nowMs d u ∧ u.id = k then some nowMs
          else d.gs.lastRegenAtMsByUnitId k) = _
        have hiff : (∃ u, u ∈ S ∧ healCond nowMs d u ∧ u.id = k) ↔
            (∃ u, u ∈ S ++ [a] ∧ healCond nowMs d u ∧ u.id = k) := by
          constructor
          · rintro ⟨u, huS, hc, hid⟩
            exact ⟨u, List.mem_append_left _ huS, hc, hid⟩
          · rintro ⟨u, hm, hc, hid⟩
            rcases List.mem_append.mp hm with h | h
            · exact ⟨u, h, hc, hid⟩
            · rw [List.mem_singleton] at h
              subst h
              exact absurd hid.symm hk
        exact if_congr hiff rfl rfl
    rw [hunits, hlr2]
    rfl
  · rw [if_neg (fun hy => hca (hcond.mp hy))]
    unfold healedState
    have hunits : d.gs.units.map (healSel nowMs d S) =
        d.gs.units.map (healSel nowMs d (S ++ [a])) := by
      refine List.map_congr_left fun w hw => ?_
      unfold healSel
      by_cases hmem : w ∈ S ∧ healCond nowMs d w
      · rw [if_pos hmem, if_pos ⟨List.mem_append_left _ hmem.1, hmem.2⟩]
      · have hnot : ¬(w ∈ S ++ [a] ∧ healCond nowMs d w) := by
          rintro ⟨hm, hc⟩
          rcases List.mem_append.mp hm with h | h
          · exact hmem ⟨h, hc⟩
          · rw [List.mem_singleton] at h
            subst h
            exact hca hc
        rw [if_neg hmem, if_neg hnot]
    have hlr3 : (fun k =>
        if ∃ u, u ∈ S ∧ healCond nowMs d u ∧ u.id = k then some nowMs
        else d.gs.lastRegenAtMsByUnitId k) =
        (fun k =>
        if ∃ u, u ∈ S ++ [a] ∧ healCond nowMs d u ∧ u.id = k then some nowMs
        else d.gs.lastRegenAtMsByUnitId k) := by
      funext k
      refine if_congr ?_ rfl rfl
      constructor
      · rintro ⟨u, huS, hc, hid⟩
        exact ⟨u, List.mem_append_left _ huS, hc, hid⟩
      · rintro ⟨u, hm, hc, hid⟩
        rcases List.mem_append.mp hm with h | h
        · exact ⟨u, h, hc, hid⟩
        · rw [List.mem_singleton] at h
          subst h
          exact absurd hc hca
    rw [hunits, hlr3]

theorem foldl_healStep_general (nowMs : ℝ) (d : Draft)
    (hids : (d.gs.units.map (fun u => u.id)).Nodup) :
    ∀ (L S : List Unit), (∀ u ∈ L, u ∈ d.gs.units) →
      (∀ u ∈ S, ∀ v ∈ L, ¬u.id = v.id) →
      (L.map (fun u => u.id)).Nodup →
      L.foldl (healStep nowMs) (healedState nowMs d S) =
        healedState nowMs d (S ++ L) := by
  intro L
  induction L with
  | nil =>
      intro S _ _ _
      rw [List.foldl_nil, List.append_nil]
  | cons a t ih =>
      intro S hmem hdisj hnd
      rw [List.foldl_cons,
        healStep_healedState nowMs d S a hids (hmem a (List.mem_cons_self a t))
          (fun u hu => hdisj u hu a (List.mem_cons_self a t))]
      have h1 : ∀ u ∈ t, u ∈ d.gs.units :=
        fun u hu => hmem u (List.mem_cons_of_mem a hu)
      have h2 : ∀ u ∈ S ++ [a], ∀ v ∈ t, ¬u.id = v.id := by
        intro u hu v hv
        rcases List.mem_append.mp hu with h | h
        · exact hdisj u h v (List.mem_cons_of_mem a hv)
        · rw [List.mem_singleton] at h
          subst h
          rw [List.map_cons, List.nodup_cons] at hnd
          intro hEq
          refine hnd.1 ?_
          rw [hEq]
          exact List.mem_map_of_mem _ hv
      have h3 : (t.map (fun u => u.id)).Nodup := by
        rw [List.map_cons, List.nodup_cons] at hnd
        exact hnd.2
      rw [ih (S ++ [a]) h1 h2 h3, List.append_assoc]
      rfl

/-- C8: characterization of the regeneration pass on a qualifying tick
(regen throttling off, or a tick counter divisible by 3). The snapshot is
the below-max-HP filter of the unit list, as taken by the tick; for every
live unit u, u ends healed by exactly 1 HP (clamped to maxHp) with its
per-unit regen timestamp stamped to now if and only if u is among the first
30 snapshot entries in unit-array order, u is alive (hp positive), its own
last-regen timestamp is at least 3000 ms old, and the spatial query finds at
least one friendly Queen within the configured regen radius; otherwise u and
its timestamp are unchanged. -/
theorem regen_spec (nowMs : ℝ) (snap : List Unit) (d : Draft)
    (hids : (d.gs.units.map (fun u => u.id)).Nodup)
    (hsnap : snap = d.gs.units.filter (fun u => u.hp < u.maxHp))
    (hqual : ¬d.gs.optimizations.regenThrottling = true ∨
      d.gs.tickCounter % 3 = 0) :
    ∀ u ∈ d.gs.units,
      (u ∈ snap.take 30 ∧ healCond nowMs d u →
        (regenPhase nowMs snap d).gs.units.find? (fun w => w.id = u.id) =
          some { u with hp := min u.maxHp (u.hp + 1) } ∧
        (regenPhase nowMs snap d).gs.lastRegenAtMsByUnitId u.id =
          some nowMs) ∧
      (¬(u ∈ snap.take 30 ∧ healCond nowMs d u) →
        (regenPhase nowMs snap d).gs.units.find? (fun w => w.id = u.id) =
          some u ∧
        (regenPhase nowMs snap d).gs.lastRegenAtMsByUnitId u.id =
          d.gs.lastRegenAtMsByUnitId u.id) := by
  intro u hu
  have hsub : (snap.take 30).Sublist d.gs.units := by
    rw [hsnap]
    exact (List.take_sublist _ _).trans (List.filter_sublist _)
  have hfold : (snap.take 30).foldl (healStep nowMs) d =
      healedState nowMs d (snap.take 30) := by
    have h0 := foldl_healStep_general nowMs d hids (snap.take 30) []
      (fun v hv => hsub.subset hv)
      (fun x hx => (List.not_mem_nil x hx).elim)
      (hids.sublist (hsub.map _))
    rw [healedState_nil, List.nil_append] at h0
    exact h0
  unfold regenPhase
  rw [if_pos hqual, hfold]
  constructor
  · rintro ⟨huL, hcu⟩
    constructor
    · show (d.gs.units.map (healSel nowMs d (snap.take 30))).find?
        (fun w => w.id = u.id) = _
      rw [find?_map_id _ _ (healSel_id nowMs d (snap.take 30)) u.id,
        find?_id_of_mem d.gs.units hids u hu]
      show some (healSel nowMs d (snap.take 30) u) = _
      unfold healSel healU
      rw [if_pos ⟨huL, hcu⟩]
    · show (if ∃ v, v ∈ snap.take 30 ∧ healCond nowMs d v ∧ v.id = u.id then
          some nowMs
        else d.gs.lastRegenAtMsByUnitId u.id) = some nowMs
      rw [if_pos ⟨u, huL, hcu, rfl⟩]
  · intro hneg
    constructor
    · show (d.gs.units.map (healSel nowMs d (snap.take 30))).find?
        (fun w => w.id = u.id) = _
      rw [find?_map_id _ _ (healSel_id nowMs d (snap.take 30)) u.id,
        find?_id_of_mem d.gs.units hids u hu]
      show some (healSel nowMs d (snap.take 30) u) = some u
      unfold healSel
      rw [if_neg hneg]
    · show (if ∃ v, v ∈ snap.take 30 ∧ healCond nowMs d v ∧ v.id = u.id then
          some nowMs
        else d.gs.lastRegenAtMsByUnitId u.id) = d.gs.lastRegenAtMsByUnitId u.id
      rw [if_neg]
      rintro ⟨v, hvL, hcv, hvid⟩
      have hvu : v = u := mem_id_eq d.gs.units hids u v hu (hsub.subset hvL) hvid
      exact hneg ⟨hvu ▸ hvL, hvu ▸ hcv⟩

/-- A hurt queen: below max HP, alive, with herself as the friendly queen in
regen range. -/
def hurtQueen : Unit :=
  { cQueen with hp := 50 }

/-- A concrete draft on which the regeneration characterization applies: a
single hurt queen, stale regen timestamp, tick counter divisible by 3. -/
def dRegen : Draft :=
  ⟨{ baseState with matchStarted := true, units := [hurtQueen] },
    buildFromUnits [hurtQueen], [], 0, 0, 0, []⟩

/-- C8 witness: the regen characterization applied at a concrete one-unit
draft, with every hypothesis discharged concretely. -/
theorem regen_spec_witness :
    (([hurtQueen].map (fun u => u.id)).Nodup ∧
      [hurtQueen] = dRegen.gs.units.filter (fun u => u.hp < u.maxHp) ∧
      dRegen.gs.tickCounter % 3 = 0) ∧
    (∀ u ∈ dRegen.gs.units,
      (u ∈ ([hurtQueen] : List Unit).take 30 ∧ healCond 5000 dRegen u →
        (regenPhase 5000 [hurtQueen] dRegen).gs.units.find?
            (fun w => w.id = u.id) =
          some { u with hp := min u.maxHp (u.hp + 1) } ∧
        (regenPhase 5000 [hurtQueen] dRegen).gs.lastRegenAtMsByUnitId u.id =
          some 5000) ∧
      (¬(u ∈ ([hurtQueen] : List Unit).take 30 ∧ healCond 5000 dRegen u) →
        (regenPhase 5000 [hurtQueen] dRegen).gs.units.find?
            (fun w => w.id = u.id) = some u ∧
        (regenPhase 5000 [hurtQueen] dRegen).gs.lastRegenAtMsByUnitId u.id =
          dRegen.gs.lastRegenAtMsByUnitId u.id)) :=
  ⟨⟨by simp, by norm_num [dRegen, baseState, hurtQueen, cQueen,
      List.filter], rfl⟩,
    regen_spec 5000 [hurtQueen] dRegen (by simp [dRegen])
      (by norm_num [dRegen, baseState, hurtQueen, cQueen, List.filter])
      (Or.inr rfl)⟩

/-! ## C3: HP bounds and same-tick dead removal -/

theorem checkCollision_cu_id (env : Env) (rng wall : ℕ) (np : Pos3) (cu : Unit)
    (allUnits : List Unit) (cr : ℝ) (sel : List ℕ) (lp : Option ℕ)
    (orders : ℕ → Option Pos3) :
    (checkCollision env rng wall np cu allUnits cr sel lp orders).currentUnit.id =
      cu.id := by
  obtain ⟨ca, mp, hcc⟩ := checkCollision_unit_eq env rng wall np cu allUnits cr
    sel lp orders
  rw [hcc]

theorem checkCollision_cu_hp (env : Env) (rng wall : ℕ) (np : Pos3) (cu : Unit)
    (allUnits : List Unit) (cr : ℝ) (sel : List ℕ) (lp : Option ℕ)
    (orders : ℕ → Option Pos3) :
    (checkCollision env rng wall np cu allUnits cr sel lp orders).currentUnit.hp =
      cu.hp := by
  obtain ⟨ca, mp, hcc⟩ := checkCollision_unit_eq env rng wall np cu allUnits cr
    sel lp orders
  rw [hcc]

theorem checkCollision_cu_maxHp (env : Env) (rng wall : ℕ) (np : Pos3)
    (cu : Unit) (allUnits : List Unit) (cr : ℝ) (sel : List ℕ) (lp : Option ℕ)
    (orders : ℕ → Option Pos3) :
    (checkCollision env rng wall np cu allUnits cr sel lp
      orders).currentUnit.maxHp = cu.maxHp := by
  obtain ⟨ca, mp, hcc⟩ := checkCollision_unit_eq env rng wall np cu allUnits cr
    sel lp orders
  rw [hcc]

theorem checkCollision_cu_ad (env : Env) (rng wall : ℕ) (np : Pos3) (cu : Unit)
    (allUnits : List Unit) (cr : ℝ) (sel : List ℕ) (lp : Option ℕ)
    (orders : ℕ → Option Pos3) :
    (checkCollision env rng wall np cu allUnits cr sel lp
      orders).currentUnit.attackDamage = cu.attackDamage := by
  obtain ⟨ca, mp, hcc⟩ := checkCollision_unit_eq env rng wall np cu allUnits cr
    sel lp orders
  rw [hcc]

theorem ccMove_gs (env : Env) (d : Draft) (u : Unit) (np : Pos3) :
    (ccMove env d u np).1.gs = d.gs := rfl

theorem ccMove_idc (env : Env) (d : Draft) (u : Unit) (np : Pos3) :
    (ccMove env d u np).1.idc = d.idc := rfl

theorem ccMove_pairs (env : Env) (d : Draft) (u : Unit) (np : Pos3) :
    (ccMove env d u np).1.combatPairs = d.combatPairs := rfl

theorem ccMove_u_id (env : Env) (d : Draft) (u : Unit) (np : Pos3) :
    (ccMove env d u np).2.id = u.id := by
  unfold ccMove
  exact checkCollision_cu_id env d.rng d.wall np u d.gs.units 2.5
    d.gs.selectedUnitIds d.gs.localPlayerId d.gs.unitOrders

theorem ccMove_u_hp (env : Env) (d : Draft) (u : Unit) (np : Pos3) :
    (ccMove env d u np).2.hp = u.hp := by
  unfold ccMove
  exact checkCollision_cu_hp env d.rng d.wall np u d.gs.units 2.5
    d.gs.selectedUnitIds d.gs.localPlayerId d.gs.unitOrders

theorem ccMove_u_maxHp (env : Env) (d : Draft) (u : Unit) (np : Pos3) :
    (ccMove env d u np).2.maxHp = u.maxHp := by
  unfold ccMove
  exact checkCollision_cu_maxHp env d.rng d.wall np u d.gs.units 2.5
    d.gs.selectedUnitIds d.gs.localPlayerId d.gs.unitOrders

theorem ccMove_u_ad (env : Env) (d : Draft) (u : Unit) (np : Pos3) :
    (ccMove env d u np).2.attackDamage = u.attackDamage := by
  unfold ccMove
  exact checkCollision_cu_ad env d.rng d.wall np u d.gs.units 2.5
    d.gs.selectedUnitIds d.gs.localPlayerId d.gs.unitOrders

theorem hopUpdate_id (dtSec : ℝ) (u : Unit) :
    (hopUpdate dtSec u).id = u.id := by
  unfold hopUpdate
  split <;> rfl

theorem hopUpdate_hp (dtSec : ℝ) (u : Unit) :
    (hopUpdate dtSec u).hp = u.hp := by
  unfold hopUpdate
  split <;> rfl

theorem hopUpdate_maxHp (dtSec : ℝ) (u : Unit) :
    (hopUpdate dtSec u).maxHp = u.maxHp := by
  unfold hopUpdate
  split <;> rfl

theorem hopUpdate_ad (dtSec : ℝ) (u : Unit) :
    (hopUpdate dtSec u).attackDamage = u.attackDamage := by
  unfold hopUpdate
  split <;> rfl

theorem mem_updU (units : List Unit) (uid : ℕ) (f : Unit → Unit) (u : Unit)
    (hu : u ∈ updU units uid f) :
    ∃ w, w ∈ units ∧ (w.id = uid ∧ u = f w ∨ ¬w.id = uid ∧ u = w) := by
  unfold updU at hu
  obtain ⟨w, hw, hwe⟩ := List.mem_map.mp hu
  refine ⟨w, hw, ?_⟩
  by_cases h : w.id = uid
  · rw [if_pos h] at hwe
    exact Or.inl ⟨h, hwe.symm⟩
  · rw [if_neg h] at hwe
    exact Or.inr ⟨h, hwe.symm⟩

theorem updU_map_ids (units : List Unit) (uid : ℕ) (f : Unit → Unit)
    (hid : ∀ w, w.id = uid → (f w).id = uid) :
    (updU units uid f).map (fun u => u.id) = units.map (fun u => u.id) := by
  unfold updU
  rw [List.map_map]
  refine List.map_congr_left fun w _ => ?_
  dsimp only [Function.comp]
  by_cases h : w.id = uid
  · rw [if_pos h]
    exact (hid w h).trans h.symm
  · rw [if_neg h]

theorem proj_fields {x y : Unit} (h : proj x = proj y) :
    x.id = y.id ∧ x.hp = y.hp ∧ x.maxHp = y.maxHp ∧
      x.attackDamage = y.attackDamage := by
  unfold proj at h
  exact ⟨congrArg (fun t => t.1) h, congrArg (fun t => t.2.2.2.2.1) h,
    congrArg (fun t => t.2.2.2.2.2.1) h, congrArg (fun t => t.2.2.2.2.2.2) h⟩

theorem pobBlocked_units (nowMs : ℝ) (d : Draft) (u1 : Unit) (c : Prop) :
    (pobBlocked nowMs d u1 c).1.gs.units = d.gs.units := by
  unfold pobBlocked
  dsimp only
  repeat' split
  all_goals rfl

theorem pobBlocked_dead (nowMs : ℝ) (d : Draft) (u1 : Unit) (c : Prop) :
    (pobBlocked nowMs d u1 c).1.gs.deadUnitsToRemove =
      d.gs.deadUnitsToRemove := by
  unfold pobBlocked
  dsimp only
  repeat' split
  all_goals rfl

theorem pobBlocked_pairs (nowMs : ℝ) (d : Draft) (u1 : Unit) (c : Prop) :
    (pobBlocked nowMs d u1 c).1.combatPairs = d.combatPairs := by
  unfold pobBlocked
  dsimp only
  repeat' split
  all_goals rfl

theorem pobBlocked_idc (nowMs : ℝ) (d : Draft) (u1 : Unit) (c : Prop) :
    (pobBlocked nowMs d u1 c).1.idc = d.idc := by
  unfold pobBlocked
  dsimp only
  repeat' split
  all_goals rfl

theorem pobBlocked_uid (nowMs : ℝ) (d : Draft) (u1 : Unit) (c : Prop) :
    (pobBlocked nowMs d u1 c).2.id = u1.id := by
  unfold pobBlocked
  dsimp only
  repeat' split
  all_goals rfl

theorem pobBlocked_uhp (nowMs : ℝ) (d : Draft) (u1 : Unit) (c : Prop) :
    (pobBlocked nowMs d u1 c).2.hp = u1.hp := by
  unfold pobBlocked
  dsimp only
  repeat' split
  all_goals rfl

theorem pobBlocked_umax (nowMs : ℝ) (d : Draft) (u1 : Unit) (c : Prop) :
    (pobBlocked nowMs d u1 c).2.maxHp = u1.maxHp := by
  unfold pobBlocked
  dsimp only
  repeat' split
  all_goals rfl

theorem pobBlocked_uad (nowMs : ℝ) (d : Draft) (u1 : Unit) (c : Prop) :
    (pobBlocked nowMs d u1 c).2.attackDamage = u1.attackDamage := by
  unfold pobBlocked
  dsimp only
  repeat' split
  all_goals rfl

theorem pobMove_gs (env : Env) (dtSec : ℝ) (d : Draft) (u3 : Unit) (o : Pos3)
    (c : Prop) (ne2 : Option Unit) :
    (pobMove env dtSec d u3 o c ne2).1.gs = d.gs := by
  unfold pobMove
  dsimp only
  repeat' split
  all_goals first
    | simp only [ccMove_gs]
    | rfl

theorem pobMove_pairs (env : Env) (dtSec : ℝ) (d : Draft) (u3 : Unit)
    (o : Pos3) (c : Prop) (ne2 : Option Unit) :
    (pobMove env dtSec d u3 o c ne2).1.combatPairs = d.combatPairs := by
  unfold pobMove
  dsimp only
  repeat' split
  all_goals first
    | simp only [ccMove_pairs]
    | rfl

theorem pobMove_idc (env : Env) (dtSec : ℝ) (d : Draft) (u3 : Unit) (o : Pos3)
    (c : Prop) (ne2 : Option Unit) :
    (pobMove env dtSec d u3 o c ne2).1.idc = d.idc := by
  unfold pobMove
  dsimp only
  repeat' split
  all_goals first
    | simp only [ccMove_idc]
    | rfl

theorem pobMove_uid (env : Env) (dtSec : ℝ) (d : Draft) (u3 : Unit) (o : Pos3)
    (c : Prop) (ne2 : Option Unit) :
    (pobMove env dtSec d u3 o c ne2).2.id = u3.id := by
  unfold pobMove
  dsimp only
  repeat' split
  all_goals first
    | simp only [ccMove_u_id, hopUpdate_id]
    | rfl

theorem pobMove_uhp (env : Env) (dtSec : ℝ) (d : Draft) (u3 : Unit) (o : Pos3)
    (c : Prop) (ne2 : Option Unit) :
    (pobMove env dtSec d u3 o c ne2).2.hp = u3.hp := by
  unfold pobMove
  dsimp only
  repeat' split
  all_goals first
    | simp only [ccMove_u_hp, hopUpdate_hp]
    | rfl

theorem pobMove_umax (env : Env) (dtSec : ℝ) (d : Draft) (u3 : Unit) (o : Pos3)
    (c : Prop) (ne2 : Option Unit) :
    (pobMove env dtSec d u3 o c ne2).2.maxHp = u3.maxHp := by
  unfold pobMove
  dsimp only
  repeat' split
  all_goals first
    | simp only [ccMove_u_maxHp, hopUpdate_maxHp]
    | rfl

theorem pobMove_uad (env : Env) (dtSec : ℝ) (d : Draft) (u3 : Unit) (o : Pos3)
    (c : Prop) (ne2 : Option Unit) :
    (pobMove env dtSec d u3 o c ne2).2.attackDamage = u3.attackDamage := by
  unfold pobMove
  dsimp only
  repeat' split
  all_goals first
    | simp only [ccMove_u_ad, hopUpdate_ad]
    | rfl

theorem pobArrive_units (d : Draft) (u6 : Unit) (dist : ℝ) (t : Option ℕ) :
    (pobArrive d u6 dist t).1.gs.units = d.gs.units := by
  unfold pobArrive
  dsimp only
  repeat' split
  all_goals rfl

theorem pobArrive_dead (d : Draft) (u6 : Unit) (dist : ℝ) (t : Option ℕ) :
    (pobArrive d u6 dist t).1.gs.deadUnitsToRemove =
      d.gs.deadUnitsToRemove := by
  unfold pobArrive
  dsimp only
  repeat' split
  all_goals rfl

theorem pobArrive_pairs (d : Draft) (u6 : Unit) (dist : ℝ) (t : Option ℕ) :
    (pobArrive d u6 dist t).1.combatPairs = d.combatPairs := by
  unfold pobArrive
  dsimp only
  repeat' split
  all_goals rfl

theorem pobArrive_idc (d : Draft) (u6 : Unit) (dist : ℝ) (t : Option ℕ) :
    (pobArrive d u6 dist t).1.idc = d.idc := by
  unfold pobArrive
  dsimp only
  repeat' split
  all_goals rfl

theorem pobArrive_uid (d : Draft) (u6 : Unit) (dist : ℝ) (t : Option ℕ) :
    (pobArrive d u6 dist t).2.1.id = u6.id := by
  unfold pobArrive
  dsimp only
  repeat' split
  all_goals rfl

theorem pobArrive_uhp (d : Draft) (u6 : Unit) (dist : ℝ) (t : Option ℕ) :
    (pobArrive d u6 dist t).2.1.hp = u6.hp := by
  unfold pobArrive
  dsimp only
  repeat' split
  all_goals rfl

theorem pobArrive_umax (d : Draft) (u6 : Unit) (dist : ℝ) (t : Option ℕ) :
    (pobArrive d u6 dist t).2.1.maxHp = u6.maxHp := by
  unfold pobArrive
  dsimp only
  repeat' split
  all_goals rfl

theorem pobArrive_uad (d : Draft) (u6 : Unit) (dist : ℝ) (t : Option ℕ) :
    (pobArrive d u6 dist t).2.1.attackDamage = u6.attackDamage := by
  unfold pobArrive
  dsimp only
  repeat' split
  all_goals rfl

theorem playerOrderBranch_frame (env : Env) (dtSec nowMs : ℝ) (d : Draft)
    (u0 : Unit) (o : Pos3) :
    (playerOrderBranch env dtSec nowMs d u0 o).1.gs.units = d.gs.units ∧
    (playerOrderBranch env dtSec nowMs d u0 o).1.gs.deadUnitsToRemove =
      d.gs.deadUnitsToRemove ∧
    (playerOrderBranch env dtSec nowMs d u0 o).1.combatPairs = d.combatPairs ∧
    (playerOrderBranch env dtSec nowMs d u0 o).1.idc = d.idc ∧
    (playerOrderBranch env dtSec nowMs d u0 o).2.1.id = u0.id ∧
    (playerOrderBranch env dtSec nowMs d u0 o).2.1.hp = u0.hp ∧
    (playerOrderBranch env dtSec nowMs d u0 o).2.1.maxHp = u0.maxHp ∧
    (playerOrderBranch env dtSec nowMs d u0 o).2.1.attackDamage =
      u0.attackDamage := by
  unfold playerOrderBranch
  dsimp only
  refine ⟨?_, ?_, ?_, ?_, ?_, ?_, ?_, ?_⟩ <;>
    simp only [pobArrive_units, pobArrive_dead, pobArrive_pairs, pobArrive_idc,
      pobArrive_uid, pobArrive_uhp, pobArrive_umax, pobArrive_uad,
      pobMove_gs, pobMove_pairs, pobMove_idc, pobMove_uid, pobMove_uhp,
      pobMove_umax, pobMove_uad, pobBlocked_units, pobBlocked_dead,
      pobBlocked_pairs, pobBlocked_idc, pobBlocked_uid, pobBlocked_uhp,
      pobBlocked_umax, pobBlocked_uad]

theorem playerIdleBranch_frame (nowMs : ℝ) (d : Draft) (u0 : Unit) :
    (playerIdleBranch nowMs d u0).1.gs.units = d.gs.units ∧
    (playerIdleBranch nowMs d u0).1.gs.deadUnitsToRemove =
      d.gs.deadUnitsToRemove ∧
    (playerIdleBranch nowMs d u0).1.combatPairs = d.combatPairs ∧
    (playerIdleBranch nowMs d u0).1.idc = d.idc ∧
    (playerIdleBranch nowMs d u0).2.1.id = u0.id ∧
    (playerIdleBranch nowMs d u0).2.1.hp = u0.hp ∧
    (playerIdleBranch nowMs d u0).2.1.maxHp = u0.maxHp ∧
    (playerIdleBranch nowMs d u0).2.1.attackDamage = u0.attackDamage := by
  unfold playerIdleBranch
  dsimp only
  repeat' split
  all_goals exact ⟨rfl, rfl, rfl, rfl, rfl, rfl, rfl, rfl⟩

theorem aiOrderBranch_frame (env : Env) (dtSec nowMs : ℝ) (d : Draft)
    (u0 : Unit) (o : Pos3) :
    (aiOrderBranch env dtSec nowMs d u0 o).1.gs.units = d.gs.units ∧
    (aiOrderBranch env dtSec nowMs d u0 o).1.gs.deadUnitsToRemove =
      d.gs.deadUnitsToRemove ∧
    (aiOrderBranch env dtSec nowMs d u0 o).1.combatPairs = d.combatPairs ∧
    (aiOrderBranch env dtSec nowMs d u0 o).1.idc = d.idc ∧
    (aiOrderBranch env dtSec nowMs d u0 o).2.1.id = u0.id ∧
    (aiOrderBranch env dtSec nowMs d u0 o).2.1.hp = u0.hp ∧
    (aiOrderBranch env dtSec nowMs d u0 o).2.1.maxHp = u0.maxHp ∧
    (aiOrderBranch env dtSec nowMs d u0 o).2.1.attackDamage =
      u0.attackDamage := by
  unfold aiOrderBranch
  dsimp only
  refine ⟨?_, ?_, ?_, ?_, ?_, ?_, ?_, ?_⟩ <;>
    (repeat' split) <;>
    first
      | simp only [ccMove_gs, ccMove_idc, ccMove_pairs, ccMove_u_id,
          ccMove_u_hp, ccMove_u_maxHp, ccMove_u_ad]
      | rfl

theorem patrolBranch_frame (env : Env) (dtSec : ℝ) (d : Draft) (u0 : Unit)
    (pat : PatrolRoute) :
    (patrolBranch env dtSec d u0 pat).1.gs.units = d.gs.units ∧
    (patrolBranch env dtSec d u0 pat).1.gs.deadUnitsToRemove =
      d.gs.deadUnitsToRemove ∧
    (patrolBranch env dtSec d u0 pat).1.combatPairs = d.combatPairs ∧
    (patrolBranch env dtSec d u0 pat).1.idc = d.idc ∧
    (patrolBranch env dtSec d u0 pat).2.1.id = u0.id ∧
    (patrolBranch env dtSec d u0 pat).2.1.hp = u0.hp ∧
    (patrolBranch env dtSec d u0 pat).2.1.maxHp = u0.maxHp ∧
    (patrolBranch env dtSec d u0 pat).2.1.attackDamage = u0.attackDamage := by
  unfold patrolBranch
  dsimp only
  refine ⟨?_, ?_, ?_, ?_, ?_, ?_, ?_, ?_⟩ <;>
    (repeat' split) <;>
    first
      | simp only [ccMove_gs, ccMove_idc, ccMove_pairs, ccMove_u_id,
          ccMove_u_hp, ccMove_u_maxHp, ccMove_u_ad]
      | rfl

theorem noOrderBranch_frame (nowMs : ℝ) (stt ip : Prop) (d : Draft)
    (u0 : Unit) :
    (noOrderBranch nowMs stt ip d u0).1.gs.units = d.gs.units ∧
    (noOrderBranch nowMs stt ip d u0).1.gs.deadUnitsToRemove =
      d.gs.deadUnitsToRemove ∧
    (noOrderBranch nowMs stt ip d u0).1.combatPairs = d.combatPairs ∧
    (noOrderBranch nowMs stt ip d u0).1.idc = d.idc ∧
    (noOrderBranch nowMs stt ip d u0).2.1.id = u0.id ∧
    (noOrderBranch nowMs stt ip d u0).2.1.hp = u0.hp ∧
    (noOrderBranch nowMs stt ip d u0).2.1.maxHp = u0.maxHp ∧
    (noOrderBranch nowMs stt ip d u0).2.1.attackDamage = u0.attackDamage := by
  unfold noOrderBranch
  dsimp only
  repeat' split
  all_goals exact ⟨rfl, rfl, rfl, rfl, rfl, rfl, rfl, rfl⟩

theorem branchDispatch_frame (env : Env) (dtSec nowMs : ℝ) (ip stt : Prop)
    (order : Option Pos3) (patrol : Option PatrolRoute) (d : Draft)
    (u0 : Unit) :
    (branchDispatch env dtSec nowMs ip stt order patrol d u0).1.gs.units =
      d.gs.units ∧
    (branchDispatch env dtSec nowMs ip stt order patrol
      d u0).1.gs.deadUnitsToRemove = d.gs.deadUnitsToRemove ∧
    (branchDispatch env dtSec nowMs ip stt order patrol d u0).1.combatPairs =
      d.combatPairs ∧
    (branchDispatch env dtSec nowMs ip stt order patrol d u0).1.idc = d.idc ∧
    (branchDispatch env dtSec nowMs ip stt order patrol d u0).2.1.id =
      u0.id ∧
    (branchDispatch env dtSec nowMs ip stt order patrol d u0).2.1.hp =
      u0.hp ∧
    (branchDispatch env dtSec nowMs ip stt order patrol d u0).2.1.maxHp =
      u0.maxHp ∧
    (branchDispatch env dtSec nowMs ip stt order patrol
      d u0).2.1.attackDamage = u0.attackDamage := by
  unfold branchDispatch
  dsimp only
  repeat' split
  all_goals
    first
      | exact ⟨rfl, rfl, rfl, rfl, rfl, rfl, rfl, rfl⟩
      | exact playerOrderBranch_frame _ _ _ _ _ _
      | exact playerIdleBranch_frame _ _ _
      | exact aiOrderBranch_frame _ _ _ _ _ _
      | exact patrolBranch_frame _ _ _ _ _
      | exact noOrderBranch_frame _ _ _ _ _

/-- The tick-level well-formedness carried through the phases: every unit has
positive HP bounded by its max and nonnegative attack damage, the dead list
is empty and every queued combat pair carries nonnegative damage. -/
def InvD (d : Draft) : Prop :=
  (∀ u ∈ d.gs.units, 0 < u.hp ∧ u.hp ≤ u.maxHp ∧ 0 ≤ u.attackDamage) ∧
  d.gs.deadUnitsToRemove = [] ∧
  ∀ p ∈ d.combatPairs, 0 ≤ p.damage

theorem foldl_pres {α β : Type} (step : β → α → β) (P : β → Prop)
    (h : ∀ b a, P b → P (step b a)) :
    ∀ (l : List α) (b : β), P b → P (l.foldl step b) := by
  intro l
  induction l with
  | nil => intro b hb; exact hb
  | cons a t ih =>
      intro b hb
      rw [List.foldl_cons]
      exact ih _ (h b a hb)

theorem foldl_draft_inv {α : Type} (step : Draft → α → Draft)
    (P : Draft → Prop)
    (hstep : ∀ d a, P d → P (step d a) ∧
      (step d a).gs.units.map (fun w => w.id) =
        d.gs.units.map (fun w => w.id) ∧
      (step d a).idc = d.idc) :
    ∀ (l : List α) (d : Draft), P d →
      P (l.foldl step d) ∧
      (l.foldl step d).gs.units.map (fun w => w.id) =
        d.gs.units.map (fun w => w.id) ∧
      (l.foldl step d).idc = d.idc := by
  intro l
  induction l with
  | nil =>
      intro d h
      exact ⟨h, rfl, rfl⟩
  | cons a t ih =>
      intro d h
      rw [List.foldl_cons]
      obtain ⟨h1, h2, h3⟩ := hstep d a h
      obtain ⟨g1, g2, g3⟩ := ih (step d a) h1
      exact ⟨g1, g2.trans h2, g3.trans h3⟩

theorem combatExec_inv (env : Env) (dtSec nowMs : ℝ) (d : Draft) (u : Unit)
    (tid : ℕ) (hinv : InvD d)
    (hP : 0 < u.hp ∧ u.hp ≤ u.maxHp ∧ 0 ≤ u.attackDamage) :
    InvD (combatExec env dtSec nowMs d u tid).1 ∧
    (combatExec env dtSec nowMs d u tid).1.gs.units.map (fun w => w.id) =
      d.gs.units.map (fun w => w.id) ∧
    (combatExec env dtSec nowMs d u tid).1.idc = d.idc ∧
    (combatExec env dtSec nowMs d u tid).2.id = u.id ∧
    (combatExec env dtSec nowMs d u tid).2.hp = u.hp ∧
    (combatExec env dtSec nowMs d u tid).2.maxHp = u.maxHp ∧
    (combatExec env dtSec nowMs d u tid).2.attackDamage = u.attackDamage := by
  unfold combatExec
  cases hfind : d.gs.units.find? (fun w => w.id = tid) with
  | none => exact ⟨hinv, rfl, rfl, rfl, rfl, rfl, rfl⟩
  | some target =>
      dsimp only
      by_cases h16 : distanceSquared3D u.position target.position ≤ 16
      · rw [if_pos h16, if_neg (not_lt.mpr h16)]
        by_cases hcd : u.attackCooldownMs ≤ nowMs - u.lastAttackAtMs
        · rw [if_pos hcd]
          refine ⟨⟨?_, hinv.2.1, ?_⟩, ?_, rfl, rfl, rfl, rfl, rfl⟩
          · intro v hv
            obtain ⟨w, hw, hc⟩ := mem_updU _ _ _ v hv
            rcases hc with ⟨hwid, hvw⟩ | ⟨hwid, hvw⟩ <;> rw [hvw] <;>
              exact hinv.1 w hw
          · intro p hp
            rcases List.mem_append.mp hp with h | h
            · exact hinv.2.2 p h
            · rw [List.mem_singleton] at h
              subst h
              exact hP.2.2
          · exact updU_map_ids _ _ _ (fun w hw => hw)
        · rw [if_neg hcd]
          exact ⟨hinv, rfl, rfl, rfl, rfl, rfl, rfl⟩
      · rw [if_neg h16, if_pos (not_le.mp h16)]
        refine ⟨hinv, rfl, rfl, ?_, ?_, ?_, ?_⟩
        · exact (proj_fields (moveTail_fields _ _ _ _ _ _ _ _ _ _ _).1).1
        · exact (proj_fields (moveTail_fields _ _ _ _ _ _ _ _ _ _ _).1).2.1
        · exact (proj_fields (moveTail_fields _ _ _ _ _ _ _ _ _ _ _).1).2.2.1
        · exact (proj_fields (moveTail_fields _ _ _ _ _ _ _ _ _ _ _).1).2.2.2

theorem unitWriteback_inv (env : Env) (dtSec nowMs : ℝ) (uid : ℕ)
    (br : Draft × Unit × Option ℕ) (hinv : InvD br.1)
    (hP : 0 < br.2.1.hp ∧ br.2.1.hp ≤ br.2.1.maxHp ∧
      0 ≤ br.2.1.attackDamage)
    (hid : br.2.1.id = uid) :
    InvD (unitWriteback env dtSec nowMs uid br) ∧
    (unitWriteback env dtSec nowMs uid br).gs.units.map (fun w => w.id) =
      br.1.gs.units.map (fun w => w.id) ∧
    (unitWriteback env dtSec nowMs uid br).idc = br.1.idc := by
  unfold unitWriteback
  dsimp only
  cases htid : br.2.2 with
  | none =>
      refine ⟨⟨?_, hinv.2.1, hinv.2.2⟩,
        updU_map_ids _ _ _ (fun w _ => hid), rfl⟩
      intro v hv
      obtain ⟨w, hw, hc⟩ := mem_updU _ _ _ v hv
      rcases hc with ⟨hwid, hvw⟩ | ⟨hwid, hvw⟩ <;> rw [hvw]
      · exact hP
      · exact hinv.1 w hw
  | some tid =>
      obtain ⟨hceInv, hceIds, hceIdc, hceId, hceHp, hceMax, hceAd⟩ :=
        combatExec_inv env dtSec nowMs br.1 br.2.1 tid hinv hP
      refine ⟨⟨?_, hceInv.2.1, hceInv.2.2⟩, ?_, hceIdc⟩
      · intro v hv
        obtain ⟨w, hw, hc⟩ := mem_updU _ _ _ v hv
        rcases hc with ⟨hwid, hvw⟩ | ⟨hwid, hvw⟩ <;> rw [hvw]
        · rw [hceHp, hceMax, hceAd]
          exact hP
        · exact hceInv.1 w hw
      · rw [updU_map_ids _ _ _ (fun w _ => hceId.trans hid)]
        exact hceIds

set_option maxHeartbeats 1600000 in
theorem processUnit_inv (env : Env) (dtSec nowMs : ℝ) (d : Draft) (uid : ℕ)
    (hinv : InvD d) :
    InvD (processUnit env dtSec nowMs d uid) ∧
    (processUnit env dtSec nowMs d uid).gs.units.map (fun w => w.id) =
      d.gs.units.map (fun w => w.id) ∧
    (processUnit env dtSec nowMs d uid).idc = d.idc := by
  unfold processUnit
  cases hfind : d.gs.units.find? (fun w => w.id = uid) with
  | none => exact ⟨hinv, rfl, rfl⟩
  | some u0 =>
      dsimp only
      have hu0 : u0 ∈ d.gs.units := List.mem_of_find?_eq_some hfind
      have hu0id : u0.id = uid := by simpa using List.find?_some hfind
      have main : ∀ (d1 : Draft), d1.gs.units = d.gs.units →
          d1.gs.deadUnitsToRemove = d.gs.deadUnitsToRemove →
          d1.combatPairs = d.combatPairs → d1.idc = d.idc →
          ∀ (ip stt : Prop) (od : Option Pos3) (pt : Option PatrolRoute),
          InvD (unitWriteback env dtSec nowMs uid
            (branchDispatch env dtSec nowMs ip stt od pt d1 u0)) ∧
          (unitWriteback env dtSec nowMs uid
            (branchDispatch env dtSec nowMs ip stt od pt d1 u0)).gs.units.map
              (fun w => w.id) = d.gs.units.map (fun w => w.id) ∧
          (unitWriteback env dtSec nowMs uid
            (branchDispatch env dtSec nowMs ip stt od pt d1 u0)).idc =
            d.idc := by
        intro d1 hu hd hp2 hic ip stt od pt
        obtain ⟨hb1, hb2, hb3, hb4, hb5, hb6, hb7, hb8⟩ :=
          branchDispatch_frame env dtSec nowMs ip stt od pt d1 u0
        set br := branchDispatch env dtSec nowMs ip stt od pt d1 u0 with hbr
        have hbrInv : InvD br.1 := by
          refine ⟨?_, ?_, ?_⟩
          · rw [hb1, hu]
            exact hinv.1
          · rw [hb2, hd]
            exact hinv.2.1
          · rw [hb3, hp2]
            exact hinv.2.2
        have hbrP : 0 < br.2.1.hp ∧ br.2.1.hp ≤ br.2.1.maxHp ∧
            0 ≤ br.2.1.attackDamage := by
          rw [hb6, hb7, hb8]
          exact hinv.1 u0 hu0
        have hbrId : br.2.1.id = uid := hb5.trans hu0id
        obtain ⟨hw1, hw2, hw3⟩ :=
          unitWriteback_inv env dtSec nowMs uid br hbrInv hbrP hbrId
        refine ⟨hw1, ?_, ?_⟩
        · rw [hw2, hb1, hu]
        · rw [hw3, hb4, hic]
      repeat' split
      all_goals (apply main <;> rfl)

theorem healStep_inv (nowMs : ℝ) (d : Draft) (u0 : Unit) (hinv : InvD d) :
    InvD (healStep nowMs d u0) ∧
    (healStep nowMs d u0).gs.units.map (fun w => w.id) =
      d.gs.units.map (fun w => w.id) ∧
    (healStep nowMs d u0).idc = d.idc := by
  unfold healStep
  cases hfind : d.gs.units.find? (fun w => w.id = u0.id) with
  | none => exact ⟨hinv, rfl, rfl⟩
  | some unit =>
      dsimp only
      split
      · exact ⟨hinv, rfl, rfl⟩
      · split
        · exact ⟨hinv, rfl, rfl⟩
        · split
          · refine ⟨⟨?_, hinv.2.1, hinv.2.2⟩,
              updU_map_ids _ _ _ (fun w hw => hw), rfl⟩
            intro v hv
            obtain ⟨w, hw, hc⟩ := mem_updU _ _ _ v hv
            rcases hc with ⟨hwid, hvw⟩ | ⟨hwid, hvw⟩ <;> rw [hvw]
            · obtain ⟨hq1, hq2, hq3⟩ := hinv.1 w hw
              refine ⟨lt_min (lt_of_lt_of_le hq1 hq2) (by linarith), ?_, hq3⟩
              exact min_le_left _ _
            · exact hinv.1 w hw
          · exact ⟨hinv, rfl, rfl⟩

theorem regenPhase_inv (nowMs : ℝ) (snap : List Unit) (d : Draft)
    (hinv : InvD d) :
    InvD (regenPhase nowMs snap d) ∧
    (regenPhase nowMs snap d).gs.units.map (fun w => w.id) =
      d.gs.units.map (fun w => w.id) ∧
    (regenPhase nowMs snap d).idc = d.idc := by
  unfold regenPhase
  split
  · exact foldl_draft_inv (healStep nowMs) InvD
      (fun d2 a h => healStep_inv nowMs d2 a h) (snap.take 30) d hinv
  · exact ⟨hinv, rfl, rfl⟩

theorem behaviorPhase_inv (env : Env) (dtSec nowMs : ℝ) (ids : List ℕ)
    (d : Draft) (hinv : InvD d) :
    InvD (behaviorPhase env dtSec nowMs ids d) ∧
    (behaviorPhase env dtSec nowMs ids d).gs.units.map (fun w => w.id) =
      d.gs.units.map (fun w => w.id) ∧
    (behaviorPhase env dtSec nowMs ids d).idc = d.idc := by
  unfold behaviorPhase
  exact foldl_draft_inv (processUnit env dtSec nowMs) InvD
    (fun d2 a h => processUnit_inv env dtSec nowMs d2 a h) ids d hinv

theorem ANIMALS_ok (a : AnimalId) :
    0 < (ANIMALS a).baseHp ∧ 0 ≤ (ANIMALS a).dmg := by
  cases a <;> exact ⟨by norm_num [ANIMALS], by norm_num [ANIMALS]⟩

theorem createUnit_id (i o : ℕ) (a : AnimalId) (pos : Pos3) (r : ℝ) :
    (createUnit i o a pos r).id = i := rfl

theorem createUnit_hp (i o : ℕ) (a : AnimalId) (pos : Pos3) (r : ℝ) :
    (createUnit i o a pos r).hp = (ANIMALS a).baseHp := rfl

theorem createUnit_maxHp (i o : ℕ) (a : AnimalId) (pos : Pos3) (r : ℝ) :
    (createUnit i o a pos r).maxHp = (ANIMALS a).baseHp := rfl

theorem createUnit_ad (i o : ℕ) (a : AnimalId) (pos : Pos3) (r : ℝ) :
    (createUnit i o a pos r).attackDamage = (ANIMALS a).dmg := rfl

theorem spawnStep_inv (env : Env) (nowMs : ℝ) (d : Draft) (q : Unit)
    (hinj : Function.Injective env.freshId) (hinv : InvD d)
    (hids : (d.gs.units.map (fun w => w.id)).Nodup)
    (hfresh : ∀ n, d.idc ≤ n →
      env.freshId n ∉ d.gs.units.map (fun w => w.id)) :
    InvD (spawnStep env nowMs d q) ∧
    ((spawnStep env nowMs d q).gs.units.map (fun w => w.id)).Nodup ∧
    (∀ n, (spawnStep env nowMs d q).idc ≤ n →
      env.freshId n ∉ (spawnStep env nowMs d q).gs.units.map
        (fun w => w.id)) := by
  unfold spawnStep
  dsimp only
  split
  · split
    · -- a unit is created and appended
      refine ⟨⟨?_, hinv.2.1, hinv.2.2⟩, ?_, ?_⟩
      · intro v hv
        rcases List.mem_append.mp hv with h | h
        · exact hinv.1 v h
        · rw [List.mem_singleton] at h
          rw [h]
          have h5 := ANIMALS_ok q.animal
          refine ⟨?_, ?_, ?_⟩ <;>
            simp only [checkCollision_cu_hp, checkCollision_cu_maxHp,
              checkCollision_cu_ad, createUnit_hp, createUnit_maxHp,
              createUnit_ad]
          · exact h5.1
          · exact le_refl _
          · exact h5.2
      · rw [List.map_append]
        refine hids.append ?_ ?_
        · exact List.nodup_singleton _
        · intro a ha hb
          simp only [List.map_cons, List.map_nil, List.mem_singleton,
            checkCollision_cu_id, createUnit_id] at hb
          rw [hb] at ha
          exact hfresh d.idc le_rfl ha
      · intro n hn hmem
        have hn2 : d.idc + 1 ≤ n := hn
        simp only [List.map_append, List.mem_append] at hmem
        rcases hmem with h | h
        · exact hfresh n (le_trans (Nat.le_succ _) hn2) h
        · simp only [List.map_cons, List.map_nil, List.mem_singleton,
            checkCollision_cu_id, createUnit_id] at h
          have := hinj h
          omega
    · exact ⟨hinv, hids, hfresh⟩
  · exact ⟨hinv, hids, hfresh⟩

theorem spawnPhase_inv (env : Env) (nowMs : ℝ) (queens : List Unit)
    (hinj : Function.Injective env.freshId) :
    ∀ (d : Draft), InvD d →
      (d.gs.units.map (fun w => w.id)).Nodup →
      (∀ n, d.idc ≤ n → env.freshId n ∉ d.gs.units.map (fun w => w.id)) →
      InvD (spawnPhase env nowMs queens d) ∧
      ((spawnPhase env nowMs queens d).gs.units.map (fun w => w.id)).Nodup := by
  induction queens with
  | nil =>
      intro d h1 h2 _
      exact ⟨h1, h2⟩
  | cons q t ih =>
      intro d h1 h2 h3
      obtain ⟨g1, g2, g3⟩ := spawnStep_inv env nowMs d q hinj h1 h2 h3
      exact ih (spawnStep env nowMs d q) g1 g2 g3

theorem applyCombatPair_inv (env : Env) (d : Draft) (pair : CombatPair)
    (hids : (d.gs.units.map (fun w => w.id)).Nodup)
    (hdmg : 0 ≤ pair.damage)
    (hA : ∀ u ∈ d.gs.units, u.hp ≤ u.maxHp ∧
      (u.hp ≤ 0 → u.id ∈ d.gs.deadUnitsToRemove)) :
    ((applyCombatPair env d pair).gs.units.map (fun w => w.id) =
      d.gs.units.map (fun w => w.id)) ∧
    (∀ u ∈ (applyCombatPair env d pair).gs.units, u.hp ≤ u.maxHp ∧
      (u.hp ≤ 0 → u.id ∈ (applyCombatPair env d pair).gs.deadUnitsToRemove)) := by
  unfold applyCombatPair
  cases hfind : d.gs.units.find? (fun w => w.id = pair.targetId) with
  | none => exact ⟨rfl, hA⟩
  | some target0 =>
      dsimp only
      have htid : target0.id = pair.targetId := by
        simpa using List.find?_some hfind
      have ht0 : target0 ∈ d.gs.units := List.mem_of_find?_eq_some hfind
      have hids1 : (updU d.gs.units pair.targetId
          (fun w => { w with hp := w.hp - pair.damage })).map (fun w => w.id) =
          d.gs.units.map (fun w => w.id) :=
        updU_map_ids _ _ _ (fun w hw => hw)
      have hmem1 : ∀ v ∈ updU d.gs.units pair.targetId
          (fun w => { w with hp := w.hp - pair.damage }),
          v = { target0 with hp := target0.hp - pair.damage } ∨
            (v ∈ d.gs.units ∧ ¬v.id = pair.targetId) := by
        intro v hv
        obtain ⟨w, hw, hc⟩ := mem_updU _ _ _ v hv
        rcases hc with ⟨hwid, hvw⟩ | ⟨hwid, hvw⟩
        · left
          have hw0 : w = target0 := mem_id_eq d.gs.units hids target0 w ht0 hw
            (hwid.trans htid.symm)
          rw [hvw, hw0]
        · right
          rw [hvw]
          exact ⟨hw, hwid⟩
      by_cases htgt : target0.hp - pair.damage ≤ 0
      · rw [if_pos htgt]
        have hA2 : ∀ v ∈ updU d.gs.units pair.targetId
            (fun w => { w with hp := w.hp - pair.damage }),
            v.hp ≤ v.maxHp ∧ (v.hp ≤ 0 →
              v.id ∈ d.gs.deadUnitsToRemove ++ [pair.targetId]) := by
          intro v hv
          rcases hmem1 v hv with rfl | ⟨hvmem, hvid⟩
          · refine ⟨?_, fun _ => ?_⟩
            · show target0.hp - pair.damage ≤ target0.maxHp
              have := (hA target0 ht0).1
              linarith
            · show target0.id ∈ _
              rw [htid]
              exact List.mem_append_right _ (List.mem_singleton_self _)
          · obtain ⟨hq1, hq2⟩ := hA v hvmem
            exact ⟨hq1, fun h0 => List.mem_append_left _ (hq2 h0)⟩
        split
        · exact ⟨hids1, hA2⟩
        · split
          · constructor
            · rw [updU_map_ids _ _ _ (fun w _ => by
                simp only [checkCollision_cu_id]
                exact htid)]
              exact hids1
            · intro v hv
              obtain ⟨w, hw, hc⟩ := mem_updU _ _ _ v hv
              rcases hc with ⟨hwid, hvw⟩ | ⟨hwid, hvw⟩
              · rw [hvw]
                refine ⟨?_, fun _ => ?_⟩
                · simp only [checkCollision_cu_hp, checkCollision_cu_maxHp]
                  show target0.hp - pair.damage ≤ target0.maxHp
                  have := (hA target0 ht0).1
                  linarith
                · simp only [checkCollision_cu_id]
                  show target0.id ∈ _
                  rw [htid]
                  exact List.mem_append_right _ (List.mem_singleton_self _)
              · rw [hvw]
                exact hA2 w hw
          · exact ⟨hids1, hA2⟩
      · rw [if_neg htgt]
        have hA2 : ∀ v ∈ updU d.gs.units pair.targetId
            (fun w => { w with hp := w.hp - pair.damage }),
            v.hp ≤ v.maxHp ∧ (v.hp ≤ 0 →
              v.id ∈ d.gs.deadUnitsToRemove) := by
          intro v hv
          rcases hmem1 v hv with rfl | ⟨hvmem, hvid⟩
          · refine ⟨?_, fun h0 => absurd h0 htgt⟩
            show target0.hp - pair.damage ≤ target0.maxHp
            have := (hA target0 ht0).1
            linarith
          · exact hA v hvmem
        split
        · exact ⟨hids1, hA2⟩
        · split
          · rename_i att hkb
            constructor
            · rw [updU_map_ids _ _ _ (fun w _ => by
                simp only [checkCollision_cu_id]
                exact htid)]
              exact hids1
            · intro v hv
              obtain ⟨w, hw, hc⟩ := mem_updU _ _ _ v hv
              rcases hc with ⟨hwid, hvw⟩ | ⟨hwid, hvw⟩
              · rw [hvw]
                refine ⟨?_, fun h0 => ?_⟩
                · simp only [checkCollision_cu_hp, checkCollision_cu_maxHp]
                  show target0.hp - pair.damage ≤ target0.maxHp
                  have := (hA target0 ht0).1
                  linarith
                · exfalso
                  simp only [checkCollision_cu_hp] at h0
                  exact absurd h0 htgt
              · rw [hvw]
                exact hA2 w hw
          · exact ⟨hids1, hA2⟩

theorem combatApplyPhase_inv (env : Env) (d : Draft) (hinv : InvD d)
    (hids : (d.gs.units.map (fun w => w.id)).Nodup) :
    ∀ u ∈ (combatApplyPhase env d).gs.units, u.hp ≤ u.maxHp ∧
      (u.hp ≤ 0 → u.id ∈ (combatApplyPhase env d).gs.deadUnitsToRemove) := by
  unfold combatApplyPhase
  have gen : ∀ (l : List CombatPair) (d2 : Draft), (∀ p ∈ l, 0 ≤ p.damage) →
      (d2.gs.units.map (fun w => w.id)).Nodup →
      (∀ u ∈ d2.gs.units, u.hp ≤ u.maxHp ∧
        (u.hp ≤ 0 → u.id ∈ d2.gs.deadUnitsToRemove)) →
      ∀ u ∈ (l.foldl (applyCombatPair env) d2).gs.units, u.hp ≤ u.maxHp ∧
        (u.hp ≤ 0 →
          u.id ∈ (l.foldl (applyCombatPair env) d2).gs.deadUnitsToRemove) := by
    intro l
    induction l with
    | nil =>
        intro d2 _ _ hA
        exact hA
    | cons p t ih =>
        intro d2 hdmg hnd hA
        rw [List.foldl_cons]
        obtain ⟨hIds2, hA2⟩ := applyCombatPair_inv env d2 p hnd
          (hdmg p (List.mem_cons_self p t)) hA
        refine ih _ (fun p2 hp2 => hdmg p2 (List.mem_cons_of_mem p hp2)) ?_ hA2
        rw [hIds2]
        exact hnd
  have hstart : ∀ u ∈ d.gs.units, u.hp ≤ u.maxHp ∧
      (u.hp ≤ 0 → u.id ∈ d.gs.deadUnitsToRemove) := by
    intro u hu
    obtain ⟨h1, h2, _⟩ := hinv.1 u hu
    exact ⟨h2, fun h0 => absurd h0 (not_le.mpr h1)⟩
  exact gen d.combatPairs d hinv.2.2 hids hstart

theorem cleanupUnit_hp (did : ℕ) (u : Unit) : (cleanupUnit did u).hp = u.hp := by
  unfold cleanupUnit
  dsimp only
  repeat' split
  all_goals rfl

theorem cleanupUnit_maxHp (did : ℕ) (u : Unit) :
    (cleanupUnit did u).maxHp = u.maxHp := by
  unfold cleanupUnit
  dsimp only
  repeat' split
  all_goals rfl

theorem deadRemovalPhase_hp (d : Draft)
    (hA : ∀ u ∈ d.gs.units, u.hp ≤ u.maxHp ∧
      (u.hp ≤ 0 → u.id ∈ d.gs.deadUnitsToRemove)) :
    ∀ u ∈ (deadRemovalPhase d).gs.units, 0 < u.hp ∧ u.hp ≤ u.maxHp := by
  unfold deadRemovalPhase
  split
  · rename_i hempty
    intro u hu
    obtain ⟨h1, h2⟩ := hA u hu
    refine ⟨?_, h1⟩
    by_contra h0
    have h3 := h2 (not_lt.mp h0)
    rw [hempty] at h3
    exact List.not_mem_nil _ h3
  · have hfold : ∀ u ∈ (d.gs.deadUnitsToRemove.foldl deadCleanupStep d).gs.units,
        u.hp ≤ u.maxHp := by
      refine foldl_pres deadCleanupStep
        (fun d2 => ∀ u ∈ d2.gs.units, u.hp ≤ u.maxHp) ?_ _ d
        (fun u hu => (hA u hu).1)
      intro d2 did h u hu
      obtain ⟨w, hw, hwe⟩ := List.mem_map.mp hu
      rw [← hwe, cleanupUnit_hp, cleanupUnit_maxHp]
      exact h w hw
    intro u hu
    have hmem := List.mem_of_mem_filter hu
    have hp := List.of_mem_filter hu
    refine ⟨(of_decide_eq_true hp).1, hfold u hmem⟩

theorem attackerCleanupStep_hp (d : Draft) (uid : ℕ)
    (h : ∀ u ∈ d.gs.units, 0 < u.hp ∧ u.hp ≤ u.maxHp) :
    ∀ u ∈ (attackerCleanupStep d uid).gs.units, 0 < u.hp ∧ u.hp ≤ u.maxHp := by
  unfold attackerCleanupStep
  cases hfind : d.gs.units.find? (fun w => w.id = uid) with
  | none => exact h
  | some unit =>
      dsimp only
      cases hca : unit.currentAttackers with
      | none => exact h
      | some l =>
          dsimp only
          split
          · intro v hv
            obtain ⟨w, hw, hc⟩ := mem_updU _ _ _ v hv
            rcases hc with ⟨hwid, hvw⟩ | ⟨hwid, hvw⟩ <;> rw [hvw] <;>
              exact h w hw
          · exact h

theorem attackerCleanupPhase_hp (d : Draft)
    (h : ∀ u ∈ d.gs.units, 0 < u.hp ∧ u.hp ≤ u.maxHp) :
    ∀ u ∈ (attackerCleanupPhase d).gs.units, 0 < u.hp ∧ u.hp ≤ u.maxHp := by
  unfold attackerCleanupPhase
  exact foldl_pres attackerCleanupStep
    (fun d2 => ∀ u ∈ d2.gs.units, 0 < u.hp ∧ u.hp ≤ u.maxHp)
    (fun d2 uid h2 => attackerCleanupStep_hp d2 uid h2) _ d h

theorem checkWinLoop_units : ∀ (pids allIds : List ℕ) (s : GameState),
    (checkWinLoop pids allIds s).units = s.units := by
  intro pids
  induction pids with
  | nil =>
      intro allIds s
      rfl
  | cons p t ih =>
      intro allIds s
      unfold checkWinLoop
      dsimp only
      split
      · rfl
      · exact ih allIds s

theorem checkWinConditions_units (s : GameState) :
    (checkWinConditions s).units = s.units :=
  checkWinLoop_units _ _ s

theorem winPhase_units (nowMs : ℝ) (d : Draft) :
    (winPhase nowMs d).gs.units = d.gs.units := by
  unfold winPhase
  dsimp only
  split
  · split
    · exact checkWinConditions_units d.gs
    · exact checkWinConditions_units d.gs
  · rfl

/-- C3: on a tick started from a state whose units all have positive HP
bounded by their max and nonnegative attack damage, with an empty dead list,
distinct unit ids and fresh spawn ids (the nanoid model), every unit present
when the tick completes has 0 < hp and hp ≤ maxHp — regeneration never
overshoots the max, and every unit driven to 0 or below by the batched
combat application is removed before the tick ends. -/
theorem tick_hp_invariant (env : Env) (cache0 : DistCache) (s : GameState)
    (dtSec nowMs : ℝ)
    (hinj : Function.Injective env.freshId)
    (hwf : ∀ u ∈ s.units, 0 < u.hp ∧ u.hp ≤ u.maxHp ∧ 0 ≤ u.attackDamage)
    (hdead : s.deadUnitsToRemove = [])
    (hids : (s.units.map (fun u => u.id)).Nodup)
    (hfresh : ∀ n, env.freshId n ∉ s.units.map (fun u => u.id)) :
    ∀ u ∈ (tick env cache0 s dtSec nowMs).units,
      0 < u.hp ∧ u.hp ≤ u.maxHp := by
  have main : ∀ (d0 : Draft) (snap queens : List Unit) (mids : List ℕ),
      InvD d0 → (d0.gs.units.map (fun w => w.id)).Nodup →
      (∀ n, d0.idc ≤ n → env.freshId n ∉ d0.gs.units.map (fun w => w.id)) →
      ∀ u ∈ (winPhase nowMs
        { attackerCleanupPhase (deadRemovalPhase (combatApplyPhase env
            (behaviorPhase env dtSec nowMs mids
              (spawnPhase env nowMs queens
                (regenPhase nowMs snap d0))))) with
          gs := updateBridgeAnimations (attackerCleanupPhase
            (deadRemovalPhase (combatApplyPhase env (behaviorPhase env dtSec
              nowMs mids (spawnPhase env nowMs queens (regenPhase nowMs snap
                d0)))))).gs nowMs }).gs.units,
        0 < u.hp ∧ u.hp ≤ u.maxHp := by
    intro d0 snap queens mids h0 hN0 hF0
    obtain ⟨hI1, hE1, hC1⟩ := regenPhase_inv nowMs snap d0 h0
    have hN1 : ((regenPhase nowMs snap d0).gs.units.map
        (fun w => w.id)).Nodup := by
      rw [hE1]
      exact hN0
    have hF1 : ∀ n, (regenPhase nowMs snap d0).idc ≤ n →
        env.freshId n ∉ (regenPhase nowMs snap d0).gs.units.map
          (fun w => w.id) := by
      intro n hn
      rw [hE1]
      rw [hC1] at hn
      exact hF0 n hn
    obtain ⟨hI2, hN2⟩ := spawnPhase_inv env nowMs queens hinj _ hI1 hN1 hF1
    obtain ⟨hI3, hE3, _⟩ := behaviorPhase_inv env dtSec nowMs mids _ hI2
    have hN3 : ((behaviorPhase env dtSec nowMs mids (spawnPhase env nowMs
        queens (regenPhase nowMs snap d0))).gs.units.map
          (fun w => w.id)).Nodup := by
      rw [hE3]
      exact hN2
    have hA4 := combatApplyPhase_inv env _ hI3 hN3
    have hHP5 := deadRemovalPhase_hp _ hA4
    have hHP6 := attackerCleanupPhase_hp _ hHP5
    intro u hu
    rw [winPhase_units] at hu
    exact hHP6 u hu
  unfold tick
  split
  · intro u hu
    obtain ⟨h1, h2, _⟩ := hwf u hu
    exact ⟨h1, h2⟩
  · dsimp only
    refine main _ _ _ _ ⟨?_, ?_, ?_⟩ ?_ ?_
    · exact hwf
    · exact hdead
    · intro p hp
      cases hp
    · exact hids
    · intro n _
      exact hfresh n

/-- A concrete started one-unit state for the C3 witness. -/
def sC3 : GameState :=
  { baseState with matchStarted := true, units := [cUnitA] }

/-! ## C9: determinism of the tick -/

theorem processUnit_nofind (env : Env) (dtSec nowMs : ℝ) (d : Draft)
    (uid : ℕ)
    (hfind : d.gs.units.find? (fun w => w.id = uid) = none) :
    processUnit env dtSec nowMs d uid = d := by
  unfold processUnit
  rw [hfind]

theorem updU_self (units : List Unit) (uid : ℕ) (u0 : Unit)
    (hids : (units.map (fun u => u.id)).Nodup)
    (hfind : units.find? (fun w => w.id = uid) = some u0) :
    updU units uid (fun _ => u0) = units := by
  have hu0 : u0 ∈ units := List.mem_of_find?_eq_some hfind
  have hu0id : u0.id = uid := by simpa using List.find?_some hfind
  unfold updU
  have hpt : ∀ w ∈ units,
      (fun u => if u.id = uid then (fun _ : Unit => u0) u else u) w =
        (fun u => u) w := by
    intro w hw
    dsimp only
    by_cases h : w.id = uid
    · rw [if_pos h]
      exact (mem_id_eq units hids u0 w hu0 hw (h.trans hu0id.symm)).symm
    · rw [if_neg h]
  calc units.map (fun u => if u.id = uid then (fun _ : Unit => u0) u else u)
      = units.map (fun u => u) := List.map_congr_left hpt
    _ = units := List.map_id units

theorem regenPhase_nil (nowMs : ℝ) (d : Draft) :
    regenPhase nowMs [] d = d := by
  unfold regenPhase
  split <;> rfl

theorem combatApplyPhase_nil (env : Env) (d : Draft)
    (h : d.combatPairs = []) :
    combatApplyPhase env d = d := by
  unfold combatApplyPhase
  rw [h]
  rfl

theorem deadRemovalPhase_nil (d : Draft) (h : d.gs.deadUnitsToRemove = []) :
    deadRemovalPhase d = d := by
  unfold deadRemovalPhase
  rw [if_pos h]

theorem attackerCleanupStep_noatt (d : Draft) (uid : ℕ)
    (h : ∀ w ∈ d.gs.units, w.currentAttackers = none) :
    attackerCleanupStep d uid = d := by
  unfold attackerCleanupStep
  cases hfind : d.gs.units.find? (fun w => w.id = uid) with
  | none => rfl
  | some unit =>
      dsimp only
      rw [h unit (List.mem_of_find?_eq_some hfind)]

theorem attackerCleanupPhase_noatt (d : Draft)
    (h : ∀ w ∈ d.gs.units, w.currentAttackers = none) :
    attackerCleanupPhase d = d := by
  unfold attackerCleanupPhase
  have gen : ∀ (l : List ℕ), l.foldl attackerCleanupStep d = d := by
    intro l
    induction l with
    | nil => rfl
    | cons a t ih =>
        rw [List.foldl_cons, attackerCleanupStep_noatt d a h, ih]
  exact gen _

theorem checkWinLoop_aio : ∀ (pids allIds : List ℕ) (s : GameState),
    (checkWinLoop pids allIds s).aiThinkingOffset = s.aiThinkingOffset := by
  intro pids
  induction pids with
  | nil =>
      intro allIds s
      rfl
  | cons p t ih =>
      intro allIds s
      unfold checkWinLoop
      dsimp only
      split
      · rfl
      · exact ih allIds s

theorem winPhase_aio (nowMs : ℝ) (d : Draft) :
    (winPhase nowMs d).gs.aiThinkingOffset = d.gs.aiThinkingOffset := by
  unfold winPhase
  dsimp only
  split
  · split
    · exact checkWinLoop_aio _ _ d.gs
    · exact checkWinLoop_aio _ _ d.gs
  · rfl

/-- A lone full-health king. -/
def cKing : Unit where
  id := 5
  ownerId := 7
  animal := AnimalId.Bear
  kind := UnitKind.King
  position := ⟨0, 0, 0⟩
  hp := 220
  maxHp := 220
  attackDamage := 40
  moveSpeed := 8.16
  attackCooldownMs := 1500
  lastAttackAtMs := 0
  rotation := 0

/-- A started state holding only the king. -/
def sC9 : GameState :=
  { baseState with matchStarted := true, units := [cKing] }

/-- An oracle environment whose Math.random stream returns one half. -/
def envHalf : Env :=
  ⟨fun _ => 1 / 2, fun _ => 0, fun n => 1000 + n⟩

theorem processUnit_quiet (env : Env) (dtSec nowMs : ℝ) (d : Draft)
    (uid : ℕ) (u0 : Unit)
    (hfind : d.gs.units.find? (fun w => w.id = uid) = some u0)
    (hids : (d.gs.units.map (fun w => w.id)).Nodup)
    (hplayers : d.gs.players = [])
    (horder : d.gs.unitOrders u0.id = none)
    (hpatrol : d.gs.queenPatrols u0.id = none)
    (hlct : u0.lastCombatTargetId = none)
    (htc : d.gs.targetCache (u0.id, false) = none)
    (hgd : (d.gs.aiThinkingOffset u0.id).getD 0 = 0)
    (hthrottle : d.gs.optimizations.aiThrottling = true)
    (hodd : d.gs.tickCounter % 2 = 1) :
    processUnit env dtSec nowMs d uid =
      { d with
        gs := { d.gs with
          aiThinkingOffset := fset d.gs.aiThinkingOffset u0.id
            (⌊env.rand d.rng * 2⌋.toNat) },
        rng := d.rng + 1 } := by
  have hstt : ¬(False ∨ ¬d.gs.optimizations.aiThrottling = true ∨
      (d.gs.tickCounter + (d.gs.aiThinkingOffset u0.id).getD 0) % 2 = 0) := by
    rintro (h | h | h)
    · exact h
    · exact h hthrottle
    · rw [hgd, Nat.add_zero, hodd] at h
      omega
  unfold processUnit
  rw [hfind]
  dsimp only
  rw [hplayers, List.find?_nil]
  dsimp only
  rw [if_pos (show ¬jsTruthyNat (d.gs.aiThinkingOffset u0.id) from
    fun h => h hgd)]
  dsimp only
  rw [horder, hpatrol]
  unfold branchDispatch
  rw [if_neg (show ¬False from fun h => h)]
  dsimp only
  unfold noOrderBranch
  rw [if_neg (show ¬False from fun h => h), if_neg hstt]
  dsimp only
  rw [hlct]
  dsimp only
  rw [if_neg (show ¬((none : Option ℕ).isSome = true ∧
      jsTruthyNum u0.lastCombatEngagementMs ∧
      nowMs - u0.lastCombatEngagementMs.getD 0 < 3000) from
    fun h => by simpa using h.1)]
  dsimp only
  rw [htc]
  dsimp only
  unfold unitWriteback
  dsimp only
  rw [updU_self d.gs.units uid u0 hids hfind]

/-- The offset cell the tick writes for the lone king is the floor of twice
the first Math.random draw — evaluated for an arbitrary oracle. -/
theorem tick_offset_eval (env : Env) :
    (tick env [] sC9 1 6000).aiThinkingOffset 5 =
      some (⌊env.rand 0 * 2⌋.toNat) := by
  have hsnap : [cKing].filter (fun u => u.hp < u.maxHp) = [] := by
    simp only [List.filter_cons, List.filter_nil, cKing]
    norm_num
  have hqueens : [cKing].filter (fun u => u.kind = UnitKind.Queen) = [] := by
    simp [cKing]
  have hmovable : ([cKing].filter (fun u => ¬u.kind = UnitKind.Base)).map
      (fun u => u.id) = [5] := by
    simp [cKing]
  have main : ∀ (d0 : Draft),
      d0.gs.units = [cKing] →
      d0.gs.players = [] →
      (∀ k, d0.gs.unitOrders k = none) →
      (∀ k, d0.gs.queenPatrols k = none) →
      (∀ k, d0.gs.targetCache k = none) →
      (∀ k, d0.gs.aiThinkingOffset k = none) →
      d0.gs.optimizations.aiThrottling = true →
      d0.gs.tickCounter = 1 →
      d0.combatPairs = [] →
      d0.gs.deadUnitsToRemove = [] →
      d0.rng = 0 →
      (winPhase 6000
        { attackerCleanupPhase (deadRemovalPhase (combatApplyPhase env
            (behaviorPhase env 1 6000 [5]
              (spawnPhase env 6000 []
                (regenPhase 6000 [] d0))))) with
          gs := updateBridgeAnimations (attackerCleanupPhase
            (deadRemovalPhase (combatApplyPhase env (behaviorPhase env 1 6000
              [5] (spawnPhase env 6000 [] (regenPhase 6000 []
                d0)))))).gs 6000 }).gs.aiThinkingOffset 5 =
        some (⌊env.rand 0 * 2⌋.toNat) := by
    intro d0 hu hpl hord hpat htc hoff hthr htck hcp hdead hrng
    rw [regenPhase_nil]
    rw [show spawnPhase env 6000 [] d0 = d0 from rfl]
    have hfind : d0.gs.units.find? (fun w => w.id = 5) = some cKing := by
      rw [hu]
      simp [cKing, List.find?]
    have hproc := processUnit_quiet env 1 6000 d0 5 cKing hfind
      (by rw [hu]; simp [cKing]) hpl (hord _) (hpat _) (by simp [cKing])
      (htc _) (by rw [hoff]; rfl) hthr (by rw [htck])
    have hbeh : behaviorPhase env 1 6000 [5] d0 =
        processUnit env 1 6000 d0 5 := rfl
    rw [hbeh, hproc]
    set d1 : Draft := { d0 with
      gs := { d0.gs with
        aiThinkingOffset := fset d0.gs.aiThinkingOffset cKing.id
          (⌊env.rand d0.rng * 2⌋.toNat) },
      rng := d0.rng + 1 } with hd1
    rw [combatApplyPhase_nil env d1 (show d1.combatPairs = [] from hcp)]
    rw [deadRemovalPhase_nil d1 (show d1.gs.deadUnitsToRemove = [] from hdead)]
    rw [attackerCleanupPhase_noatt d1 ?hatt]
    case hatt =>
      intro w hw
      have hw2 : w ∈ d0.gs.units := hw
      rw [hu, List.mem_singleton] at hw2
      rw [hw2]
      rfl
    rw [winPhase_aio]
    show fset d0.gs.aiThinkingOffset cKing.id (⌊env.rand d0.rng * 2⌋.toNat) 5 =
      some (⌊env.rand 0 * 2⌋.toNat)
    rw [hrng]
    unfold fset
    rw [if_pos (show (5 : ℕ) = cKing.id from rfl)]
  unfold tick
  rw [if_neg (show ¬(¬sC9.matchStarted = true ∨ sC9.isPaused = true) by
    simp [sC9, baseState])]
  dsimp only
  rw [show sC9.units = [cKing] from rfl, hsnap, hqueens, hmovable]
  exact main _ rfl rfl (fun k => rfl) (fun k => rfl) (fun k => rfl)
    (fun k => rfl) rfl rfl rfl rfl rfl

/-- C9 counterexample: two runs of the tick from the same state with the
same (dtSec, nowMs) arguments end in different states, because the per-unit
AI thinking offset is seeded from Math.random inside the tick — the tick is
not a function of the state and its arguments alone. -/
theorem tick_depends_on_hidden_randomness :
    tick envZero [] sC9 1 6000 ≠ tick envHalf [] sC9 1 6000 := by
  intro hEq
  have h1 := tick_offset_eval envZero
  have h2 := tick_offset_eval envHalf
  rw [hEq, h2] at h1
  have h3 : (⌊(envHalf.rand 0 : ℝ) * 2⌋.toNat) =
      (⌊(envZero.rand 0 : ℝ) * 2⌋.toNat) := Option.some_inj.mp h1
  rw [show (envHalf.rand 0 : ℝ) = 1 / 2 from rfl,
    show (envZero.rand 0 : ℝ) = 0 from rfl] at h3
  norm_num at h3

/-- C9 amended: the tick is deterministic relative to its hidden inputs:
two runs from the same state with the same (dtSec, nowMs) and the same
Math.random, Date.now and id-generation streams produce identical states. -/
theorem tick_deterministic_amended (env1 env2 : Env) (cache0 : DistCache)
    (s : GameState) (dtSec nowMs : ℝ)
    (hr : env1.rand = env2.rand) (hw : env1.wallNow = env2.wallNow)
    (hf : env1.freshId = env2.freshId) :
    tick env1 cache0 s dtSec nowMs = tick env2 cache0 s dtSec nowMs := by
  cases env1 with
  | mk r1 w1 f1 =>
      cases env2 with
      | mk r2 w2 f2 =>
          dsimp only at hr hw hf
          rw [hr, hw, hf]

/-- C9 amended witness: the determinism theorem applied at concrete equal
oracle streams. -/
theorem tick_deterministic_amended_witness :
    tick envZero [] sC9 1 6000 = tick envZero [] sC9 1 6000 :=
  tick_deterministic_amended envZero envZero [] sC9 1 6000 rfl rfl rfl

/-! ## C6: queen production against the cached unit count -/

theorem checkCollision_cu_kind (env : Env) (rng wall : ℕ) (np : Pos3)
    (cu : Unit) (allUnits : List Unit) (cr : ℝ) (sel : List ℕ)
    (lp : Option ℕ) (orders : ℕ → Option Pos3) :
    (checkCollision env rng wall np cu allUnits cr sel lp
      orders).currentUnit.kind = cu.kind := by
  obtain ⟨ca, mp, hcc⟩ := checkCollision_unit_eq env rng wall np cu allUnits
    cr sel lp orders
  rw [hcc]

theorem checkCollision_cu_owner (env : Env) (rng wall : ℕ) (np : Pos3)
    (cu : Unit) (allUnits : List Unit) (cr : ℝ) (sel : List ℕ)
    (lp : Option ℕ) (orders : ℕ → Option Pos3) :
    (checkCollision env rng wall np cu allUnits cr sel lp
      orders).currentUnit.ownerId = cu.ownerId := by
  obtain ⟨ca, mp, hcc⟩ := checkCollision_unit_eq env rng wall np cu allUnits
    cr sel lp orders
  rw [hcc]

theorem checkCollision_cu_animal (env : Env) (rng wall : ℕ) (np : Pos3)
    (cu : Unit) (allUnits : List Unit) (cr : ℝ) (sel : List ℕ)
    (lp : Option ℕ) (orders : ℕ → Option Pos3) :
    (checkCollision env rng wall np cu allUnits cr sel lp
      orders).currentUnit.animal = cu.animal := by
  obtain ⟨ca, mp, hcc⟩ := checkCollision_unit_eq env rng wall np cu allUnits
    cr sel lp orders
  rw [hcc]

theorem checkCollision_cu_lct (env : Env) (rng wall : ℕ) (np : Pos3)
    (cu : Unit) (allUnits : List Unit) (cr : ℝ) (sel : List ℕ)
    (lp : Option ℕ) (orders : ℕ → Option Pos3) :
    (checkCollision env rng wall np cu allUnits cr sel lp
      orders).currentUnit.lastCombatTargetId = cu.lastCombatTargetId := by
  obtain ⟨ca, mp, hcc⟩ := checkCollision_unit_eq env rng wall np cu allUnits
    cr sel lp orders
  rw [hcc]

theorem checkCollision_cu_catt (env : Env) (rng wall : ℕ) (np : Pos3)
    (cu : Unit) (allUnits : List Unit) (cr : ℝ) (sel : List ℕ)
    (lp : Option ℕ) (orders : ℕ → Option Pos3) :
    (checkCollision env rng wall np cu allUnits cr sel lp
      orders).currentUnit.currentAttackers = cu.currentAttackers := by
  obtain ⟨ca, mp, hcc⟩ := checkCollision_unit_eq env rng wall np cu allUnits
    cr sel lp orders
  rw [hcc]

theorem createUnit_kind (i o : ℕ) (a : AnimalId) (pos : Pos3) (r : ℝ) :
    (createUnit i o a pos r).kind = UnitKind.Unit := rfl

theorem createUnit_owner (i o : ℕ) (a : AnimalId) (pos : Pos3) (r : ℝ) :
    (createUnit i o a pos r).ownerId = o := rfl

theorem createUnit_animal (i o : ℕ) (a : AnimalId) (pos : Pos3) (r : ℝ) :
    (createUnit i o a pos r).animal = a := rfl

theorem createUnit_lct (i o : ℕ) (a : AnimalId) (pos : Pos3) (r : ℝ) :
    (createUnit i o a pos r).lastCombatTargetId = none := rfl

theorem createUnit_catt (i o : ℕ) (a : AnimalId) (pos : Pos3) (r : ℝ) :
    (createUnit i o a pos r).currentAttackers = none := rfl

theorem spawnStep_frame (env : Env) (nowMs : ℝ) (d : Draft) (q : Unit) :
    (spawnStep env nowMs d q).gs.players = d.gs.players ∧
    (spawnStep env nowMs d q).gs.unitOrders = d.gs.unitOrders ∧
    (spawnStep env nowMs d q).gs.queenPatrols = d.gs.queenPatrols ∧
    (spawnStep env nowMs d q).gs.targetCache = d.gs.targetCache ∧
    (spawnStep env nowMs d q).gs.aiThinkingOffset = d.gs.aiThinkingOffset ∧
    (spawnStep env nowMs d q).gs.optimizations = d.gs.optimizations ∧
    (spawnStep env nowMs d q).gs.tickCounter = d.gs.tickCounter ∧
    (spawnStep env nowMs d q).combatPairs = d.combatPairs ∧
    (spawnStep env nowMs d q).gs.deadUnitsToRemove = d.gs.deadUnitsToRemove ∧
    (spawnStep env nowMs d q).gs.unitCountCache = d.gs.unitCountCache ∧
    (spawnStep env nowMs d q).gs.config = d.gs.config := by
  unfold spawnStep
  dsimp only
  repeat' split
  all_goals exact ⟨rfl, rfl, rfl, rfl, rfl, rfl, rfl, rfl, rfl, rfl, rfl⟩

/-- C6 amended: the spawn guard compares a cached per-species count taken at
tick categorization time, not the live count: on a spawn-due check, a new
Unit-archetype entity of the queen species is created (appended to the unit
list) if and only if the CACHED count of that species for the owner is below
20, and the spawn timestamp is reset to now in either case; other queens
timestamps are untouched. Because the cache is not updated when a unit
spawns, two same-species queens of one owner can each pass the guard against
the same stale count in one tick, so the live count can exceed the cap. -/
theorem spawn_cached_cap_amended (env : Env) (nowMs : ℝ) (d : Draft)
    (q : Unit) :
    (d.gs.config.spawnIntervalMs ≤ nowMs -
        (d.gs.lastSpawnAtMsByQueenId q.id).getD 0 →
      ((d.gs.unitCountCache q.ownerId q.animal < 20 →
        ∃ nu : Unit,
          (spawnStep env nowMs d q).gs.units = d.gs.units ++ [nu] ∧
          nu.kind = UnitKind.Unit ∧ nu.ownerId = q.ownerId ∧
          nu.animal = q.animal ∧ nu.id = env.freshId d.idc ∧
          nu.hp = (ANIMALS q.animal).baseHp ∧
          nu.maxHp = (ANIMALS q.animal).baseHp ∧
          nu.lastCombatTargetId = none ∧ nu.currentAttackers = none) ∧
       (¬d.gs.unitCountCache q.ownerId q.animal < 20 →
        (spawnStep env nowMs d q).gs.units = d.gs.units)) ∧
      (spawnStep env nowMs d q).gs.lastSpawnAtMsByQueenId q.id =
        some nowMs ∧
      (∀ k, ¬k = q.id →
        (spawnStep env nowMs d q).gs.lastSpawnAtMsByQueenId k =
          d.gs.lastSpawnAtMsByQueenId k)) ∧
    (¬d.gs.config.spawnIntervalMs ≤ nowMs -
        (d.gs.lastSpawnAtMsByQueenId q.id).getD 0 →
      spawnStep env nowMs d q = d) := by
  unfold spawnStep
  dsimp only
  constructor
  · intro hdue
    rw [if_pos hdue]
    refine ⟨⟨?_, ?_⟩, ?_, ?_⟩
    · intro h20
      rw [if_pos h20]
      refine ⟨_, rfl, ?_, ?_, ?_, ?_, ?_, ?_, ?_, ?_⟩ <;>
        simp only [checkCollision_cu_kind, checkCollision_cu_owner,
          checkCollision_cu_animal, checkCollision_cu_id,
          checkCollision_cu_hp, checkCollision_cu_maxHp,
          checkCollision_cu_lct, checkCollision_cu_catt, createUnit_kind,
          createUnit_owner, createUnit_animal, createUnit_id, createUnit_hp,
          createUnit_maxHp, createUnit_lct, createUnit_catt]
    · intro h20
      rw [if_neg h20]
    · show fset _ q.id nowMs q.id = some nowMs
      unfold fset
      rw [if_pos rfl]
    · intro k hk
      show fset _ q.id nowMs k = _
      unfold fset
      rw [if_neg hk]
      split <;> rfl
  · intro hdue
    rw [if_neg hdue]

/-- The live count of Unit-archetype entities of one owner and species. -/
def unitCount (units : List Unit) (o : ℕ) (a : AnimalId) : ℕ :=
  (units.filter (fun u => u.kind = UnitKind.Unit ∧ u.ownerId = o ∧
    u.animal = a)).length

theorem buildUnitCountCache_eq (units : List Unit) (o : ℕ) (a : AnimalId) :
    buildUnitCountCache units o a = unitCount units o a := by
  unfold buildUnitCountCache unitCount
  suffices h : ∀ (m : ℕ → AnimalId → ℕ),
      (units.foldl (fun m u => if u.kind = UnitKind.Unit then
        bumpCache m u.ownerId u.animal else m) m) o a =
      m o a + (units.filter (fun u => u.kind = UnitKind.Unit ∧
        u.ownerId = o ∧ u.animal = a)).length by
    have h2 := h (fun _ _ => 0)
    simpa using h2
  induction units with
  | nil =>
      intro m
      simp
  | cons u t ih =>
      intro m
      rw [List.foldl_cons, List.filter_cons]
      by_cases hk : u.kind = UnitKind.Unit
      · rw [if_pos hk]
        by_cases hoa : u.ownerId = o ∧ u.animal = a
        · rw [if_pos (decide_eq_true ⟨hk, hoa⟩), List.length_cons,
            ih (bumpCache m u.ownerId u.animal)]
          have hb : bumpCache m u.ownerId u.animal o a =
              m u.ownerId u.animal + 1 := by
            unfold bumpCache
            rw [if_pos ⟨hoa.1.symm, hoa.2.symm⟩]
          rw [hb, hoa.1, hoa.2]
          omega
        · rw [if_neg (by
            simp only [decide_eq_true_eq]
            exact fun hc => hoa hc.2), ih (bumpCache m u.ownerId u.animal)]
          have hb : bumpCache m u.ownerId u.animal o a = m o a := by
            unfold bumpCache
            rw [if_neg (fun hc => hoa ⟨hc.1.symm, hc.2.symm⟩)]
          rw [hb]
      · rw [if_neg hk, if_neg (by
          simp only [decide_eq_true_eq]
          exact fun hc => hk hc.1)]
        exact ih m

theorem unitCount_append (l1 l2 : List Unit) (o : ℕ) (a : AnimalId) :
    unitCount (l1 ++ l2) o a = unitCount l1 o a + unitCount l2 o a := by
  unfold unitCount
  rw [List.filter_append, List.length_append]

theorem unitCount_singleton_pos (nu : Unit) (o : ℕ) (a : AnimalId)
    (h : nu.kind = UnitKind.Unit ∧ nu.ownerId = o ∧ nu.animal = a) :
    unitCount [nu] o a = 1 := by
  unfold unitCount
  rw [List.filter_cons_of_pos (by simpa using h)]
  rfl

theorem behaviorPhase_quiet (env : Env) (dtSec nowMs : ℝ)
    (hrand : ∀ n, env.rand n = (0 : ℝ)) :
    ∀ (mids : List ℕ) (d : Draft),
      (d.gs.units.map (fun w => w.id)).Nodup →
      d.gs.players = [] →
      (∀ k, d.gs.unitOrders k = none) →
      (∀ k, d.gs.queenPatrols k = none) →
      (∀ k, d.gs.targetCache k = none) →
      (∀ w ∈ d.gs.units, w.lastCombatTargetId = none) →
      (∀ k, (d.gs.aiThinkingOffset k).getD 0 = 0) →
      d.gs.optimizations.aiThrottling = true →
      d.gs.tickCounter % 2 = 1 →
      ∃ off rng2, behaviorPhase env dtSec nowMs mids d =
        { d with
          gs := { d.gs with aiThinkingOffset := off },
          rng := rng2 } := by
  intro mids
  induction mids with
  | nil =>
      intro d _ _ _ _ _ _ _ _ _
      exact ⟨d.gs.aiThinkingOffset, d.rng, rfl⟩
  | cons a t ih =>
      intro d hnd hpl hord hpat htc hlct hoff hthr htck
      rw [show behaviorPhase env dtSec nowMs (a :: t) d =
        behaviorPhase env dtSec nowMs t (processUnit env dtSec nowMs d a)
        from rfl]
      cases hfind : d.gs.units.find? (fun w => w.id = a) with
      | none =>
          rw [processUnit_nofind env dtSec nowMs d a hfind]
          exact ih d hnd hpl hord hpat htc hlct hoff hthr htck
      | some u0 =>
          have hu0mem : u0 ∈ d.gs.units := List.mem_of_find?_eq_some hfind
          rw [processUnit_quiet env dtSec nowMs d a u0 hfind hnd hpl (hord _)
            (hpat _) (hlct u0 hu0mem) (htc _) (hoff _) hthr htck]
          have hoff2 : ∀ k, ((fset d.gs.aiThinkingOffset u0.id
              (⌊env.rand d.rng * 2⌋.toNat) k).getD 0 : ℕ) = 0 := by
            intro k
            unfold fset
            by_cases hk : k = u0.id
            · rw [if_pos hk, hrand d.rng]
              simp
            · rw [if_neg hk]
              exact hoff k
          obtain ⟨off2, rng2, hih⟩ := ih
            { d with
              gs := { d.gs with
                aiThinkingOffset := fset d.gs.aiThinkingOffset u0.id
                  (⌊env.rand d.rng * 2⌋.toNat) },
              rng := d.rng + 1 }
            hnd hpl hord hpat htc hlct hoff2 hthr htck
          exact ⟨off2, rng2, hih⟩

/-- A full-health worker bee. -/
def mkBee (i : ℕ) : Unit where
  id := i
  ownerId := 7
  animal := AnimalId.Bee
  kind := UnitKind.Unit
  position := ⟨(1000 : ℝ) + 10 * i, 0, 0⟩
  hp := 60
  maxHp := 60
  attackDamage := 10
  moveSpeed := 20.4
  attackCooldownMs := 1500
  lastAttackAtMs := 0
  rotation := 0

/-- First bee queen of the owner. -/
def qA : Unit :=
  { cQueen with id := 100 }

/-- Second bee queen of the same owner and species. -/
def qB : Unit :=
  { cQueen with id := 101, position := ⟨50, 0, 0⟩ }

/-- 19 worker bees plus two bee queens of one owner. -/
def uC6 : List Unit :=
  (List.range 19).map mkBee ++ [qA, qB]

/-- The started two-queen state of the C6 counterexample. -/
def sC6 : GameState :=
  { baseState with matchStarted := true, units := uC6 }

theorem updateBridgeAnimations_units (s : GameState) (nowMs : ℝ) :
    (updateBridgeAnimations s nowMs).units = s.units := rfl

theorem uC6_ids : uC6.map (fun u => u.id) = List.range 19 ++ [100, 101] := by
  unfold uC6
  rw [List.map_append, List.map_map]
  have h1 : List.map ((fun u => u.id) ∘ mkBee) (List.range 19) =
      List.map id (List.range 19) :=
    List.map_congr_left fun i _ => rfl
  rw [h1, List.map_id]
  rfl

theorem uC6_ids_nodup : (uC6.map (fun u => u.id)).Nodup := by
  rw [uC6_ids]
  refine (List.nodup_range 19).append (by norm_num) ?_
  intro x hx hy
  rw [List.mem_range] at hx
  have : x = 100 ∨ x = 101 := by simpa using hy
  omega

theorem uC6_cases (u : Unit) (hu : u ∈ uC6) :
    (∃ i, i < 19 ∧ u = mkBee i) ∨ u = qA ∨ u = qB := by
  unfold uC6 at hu
  rcases List.mem_append.mp hu with h | h
  · obtain ⟨i, hi, rfl⟩ := List.mem_map.mp h
    rw [List.mem_range] at hi
    exact Or.inl ⟨i, hi, rfl⟩
  · have h2 : u = qA ∨ u = qB := by simpa using h
    exact Or.inr h2

theorem uC6_lct : ∀ w ∈ uC6, w.lastCombatTargetId = none := by
  intro w hw
  rcases uC6_cases w hw with ⟨i, -, hEq⟩ | hEq | hEq <;> rw [hEq] <;> rfl

theorem uC6_catt : ∀ w ∈ uC6, w.currentAttackers = none := by
  intro w hw
  rcases uC6_cases w hw with ⟨i, -, hEq⟩ | hEq | hEq <;> rw [hEq] <;> rfl

theorem uC6_wf : ∀ u ∈ uC6, 0 < u.hp ∧ u.hp ≤ u.maxHp ∧
    0 ≤ u.attackDamage := by
  intro u hu
  rcases uC6_cases u hu with ⟨i, -, hEq⟩ | hEq | hEq <;> rw [hEq] <;>
    norm_num [mkBee, qA, qB, cQueen]

theorem uC6_snap : uC6.filter (fun u => u.hp < u.maxHp) = [] := by
  rw [List.filter_eq_nil_iff]
  intro u hu
  rcases uC6_cases u hu with ⟨i, -, hEq⟩ | hEq | hEq <;> rw [hEq] <;>
    norm_num [mkBee, qA, qB, cQueen]

theorem uC6_queens : uC6.filter (fun u => u.kind = UnitKind.Queen) =
    [qA, qB] := by
  unfold uC6
  rw [List.filter_append]
  have h1 : ((List.range 19).map mkBee).filter
      (fun u => u.kind = UnitKind.Queen) = [] := by
    rw [List.filter_eq_nil_iff]
    intro u hu
    obtain ⟨i, -, rfl⟩ := List.mem_map.mp hu
    simp [mkBee]
  have h2 : ([qA, qB] : List Unit).filter
      (fun u => u.kind = UnitKind.Queen) = [qA, qB] := by
    rw [List.filter_eq_self]
    intro u hu
    have h2 : u = qA ∨ u = qB := by simpa using hu
    rcases h2 with h | h
    · rw [h]
      simp [qA, cQueen]
    · rw [h]
      simp [qB, cQueen]
  rw [h1, h2, List.nil_append]

theorem uC6_count : unitCount uC6 7 AnimalId.Bee = 19 := by
  unfold uC6
  rw [unitCount_append]
  have h1 : unitCount ((List.range 19).map mkBee) 7 AnimalId.Bee = 19 := by
    unfold unitCount
    rw [List.filter_eq_self.mpr ?_, List.length_map, List.length_range]
    intro u hu
    obtain ⟨i, -, rfl⟩ := List.mem_map.mp hu
    simp [mkBee]
  have h2 : unitCount [qA, qB] 7 AnimalId.Bee = 0 := by
    unfold unitCount
    have hq : ∀ u ∈ ([qA, qB] : List Unit),
        ¬(u.kind = UnitKind.Unit ∧ u.ownerId = 7 ∧
          u.animal = AnimalId.Bee) := by
      intro u hu
      have h2 : u = qA ∨ u = qB := by simpa using hu
      rcases h2 with h | h
      · rw [h]
        simp [qA, cQueen]
      · rw [h]
        simp [qB, cQueen]
    rw [List.filter_eq_nil_iff.mpr (by
      intro u hu
      simpa using hq u hu)]
    rfl
  rw [h1, h2]

/-- C6 counterexample: on a single tick of a started state holding 19 Bee
Unit entities and two Bee Queens of the same owner, both queens pass the
spawn guard against the same tick-start cached count of 19, so after the
tick the owner holds 21 Bee Unit entities — above the claimed cap of 20. -/
theorem tick_spawn_cap_exceeded :
    20 < unitCount (tick envZero [] sC6 1 20000).units 7 AnimalId.Bee := by
  have hinjZ : Function.Injective envZero.freshId := fun a b h => by
    simpa [envZero] using h
  have main : ∀ (d0 : Draft) (mids : List ℕ),
      d0.gs.units = uC6 →
      d0.gs.players = [] →
      (∀ k, d0.gs.unitOrders k = none) →
      (∀ k, d0.gs.queenPatrols k = none) →
      (∀ k, d0.gs.targetCache k = none) →
      (∀ k, d0.gs.aiThinkingOffset k = none) →
      d0.gs.optimizations.aiThrottling = true →
      d0.gs.tickCounter = 1 →
      d0.combatPairs = [] →
      d0.gs.deadUnitsToRemove = [] →
      d0.idc = 0 →
      (∀ k, d0.gs.lastSpawnAtMsByQueenId k = none) →
      d0.gs.config.spawnIntervalMs = 10000 →
      d0.gs.unitCountCache = buildUnitCountCache uC6 →
      20 < unitCount (winPhase 20000
        { attackerCleanupPhase (deadRemovalPhase (combatApplyPhase envZero
            (behaviorPhase envZero 1 20000 mids
              (spawnPhase envZero 20000 [qA, qB]
                (regenPhase 20000 [] d0))))) with
          gs := updateBridgeAnimations (attackerCleanupPhase
            (deadRemovalPhase (combatApplyPhase envZero (behaviorPhase envZero
              1 20000 mids (spawnPhase envZero 20000 [qA, qB] (regenPhase
                20000 [] d0)))))).gs 20000 }).gs.units 7 AnimalId.Bee := by
    intro d0 mids hunits hpl hord hpat htcc hoffs hthr htck hcp hdead hidc
      hls hcfg hcache
    rw [regenPhase_nil]
    rw [show spawnPhase envZero 20000 [qA, qB] d0 =
      spawnStep envZero 20000 (spawnStep envZero 20000 d0 qA) qB from rfl]
    have hdue1 : d0.gs.config.spawnIntervalMs ≤ 20000 -
        (d0.gs.lastSpawnAtMsByQueenId qA.id).getD 0 := by
      rw [hcfg, hls qA.id]
      norm_num
    obtain ⟨⟨hc1, -⟩, hls1, hlso1⟩ :=
      (spawn_cached_cap_amended envZero 20000 d0 qA).1 hdue1
    obtain ⟨nu1, hu1, hk1, ho1, ha1, hid1, hhp1, hmx1, hlct1, hca1⟩ :=
      hc1 (by
        rw [hcache]
        show buildUnitCountCache uC6 7 AnimalId.Bee < 20
        rw [buildUnitCountCache_eq, uC6_count]
        norm_num)
    obtain ⟨g1pl, g1or, g1pa, g1tc, g1off, g1opt, g1tck, g1cp, g1dead,
      g1cache, g1cfg⟩ := spawnStep_frame envZero 20000 d0 qA
    have hdue2 : (spawnStep envZero 20000 d0 qA).gs.config.spawnIntervalMs ≤
        20000 - ((spawnStep envZero 20000 d0
          qA).gs.lastSpawnAtMsByQueenId qB.id).getD 0 := by
      rw [g1cfg, hcfg, hlso1 qB.id (by decide), hls qB.id]
      norm_num
    obtain ⟨⟨hc2, -⟩, hls2, hlso2⟩ :=
      (spawn_cached_cap_amended envZero 20000
        (spawnStep envZero 20000 d0 qA) qB).1 hdue2
    obtain ⟨nu2, hu2, hk2, ho2, ha2, hid2, hhp2, hmx2, hlct2, hca2⟩ :=
      hc2 (by
        rw [g1cache, hcache]
        show buildUnitCountCache uC6 7 AnimalId.Bee < 20
        rw [buildUnitCountCache_eq, uC6_count]
        norm_num)
    obtain ⟨g2pl, g2or, g2pa, g2tc, g2off, g2opt, g2tck, g2cp, g2dead,
      g2cache, g2cfg⟩ := spawnStep_frame envZero 20000
        (spawnStep envZero 20000 d0 qA) qB
    have hu2' : (spawnStep envZero 20000 (spawnStep envZero 20000 d0 qA)
        qB).gs.units = uC6 ++ [nu1] ++ [nu2] := by
      rw [hu2, hu1, hunits]
    -- id-distinctness of the grown list, via the spawn bookkeeping
    have hInvD0 : InvD d0 := by
      refine ⟨by rw [hunits]; exact uC6_wf, hdead, ?_⟩
      intro p hp
      rw [hcp] at hp
      cases hp
    have hN0 : (d0.gs.units.map (fun w => w.id)).Nodup := by
      rw [hunits]
      exact uC6_ids_nodup
    have hF0 : ∀ n, d0.idc ≤ n →
        envZero.freshId n ∉ d0.gs.units.map (fun w => w.id) := by
      intro n _ hmem
      rw [hunits, uC6_ids] at hmem
      have hmem2 : (1000 + n) ∈ List.range 19 ++ [100, 101] := hmem
      rcases List.mem_append.mp hmem2 with h | h
      · rw [List.mem_range] at h
        omega
      · have : 1000 + n = 100 ∨ 1000 + n = 101 := by simpa using h
        omega
    obtain ⟨hI1, hN1, hF1⟩ := spawnStep_inv envZero 20000 d0 qA hinjZ hInvD0
      hN0 hF0
    obtain ⟨hI2, hN2, hF2⟩ := spawnStep_inv envZero 20000
      (spawnStep envZero 20000 d0 qA) qB hinjZ hI1 hN1 hF1
    -- behavior is inert on this quiescent state
    obtain ⟨off3, rng3, hbeh⟩ := behaviorPhase_quiet envZero 1 20000
      (fun n => rfl) mids (spawnStep envZero 20000
        (spawnStep envZero 20000 d0 qA) qB)
      hN2
      (by rw [g2pl, g1pl]; exact hpl)
      (fun k => by rw [g2or, g1or]; exact hord k)
      (fun k => by rw [g2pa, g1pa]; exact hpat k)
      (fun k => by rw [g2tc, g1tc]; exact htcc k)
      (by
        intro w hw
        rw [hu2'] at hw
        rcases List.mem_append.mp hw with hw2 | hw2
        · rcases List.mem_append.mp hw2 with hw3 | hw3
          · exact uC6_lct w hw3
          · rw [List.mem_singleton] at hw3
            rw [hw3]
            exact hlct1
        · rw [List.mem_singleton] at hw2
          rw [hw2]
          exact hlct2)
      (fun k => by rw [g2off, g1off, hoffs k]; rfl)
      (by rw [g2opt, g1opt]; exact hthr)
      (by rw [g2tck, g1tck, htck])
    have hd3p : (behaviorPhase envZero 1 20000 mids (spawnStep envZero 20000
        (spawnStep envZero 20000 d0 qA) qB)).combatPairs = [] := by
      rw [hbeh]
      show (spawnStep envZero 20000 (spawnStep envZero 20000 d0 qA)
        qB).combatPairs = []
      rw [g2cp, g1cp]
      exact hcp
    have hd3dead : (behaviorPhase envZero 1 20000 mids (spawnStep envZero
        20000 (spawnStep envZero 20000 d0 qA)
          qB)).gs.deadUnitsToRemove = [] := by
      rw [hbeh]
      show (spawnStep envZero 20000 (spawnStep envZero 20000 d0 qA)
        qB).gs.deadUnitsToRemove = []
      rw [g2dead, g1dead]
      exact hdead
    have hd3u : (behaviorPhase envZero 1 20000 mids (spawnStep envZero 20000
        (spawnStep envZero 20000 d0 qA) qB)).gs.units =
        uC6 ++ [nu1] ++ [nu2] := by
      rw [hbeh]
      exact hu2'
    have hd3catt : ∀ w ∈ (behaviorPhase envZero 1 20000 mids (spawnStep
        envZero 20000 (spawnStep envZero 20000 d0 qA) qB)).gs.units,
        w.currentAttackers = none := by
      intro w hw
      rw [hd3u] at hw
      rcases List.mem_append.mp hw with hw2 | hw2
      · rcases List.mem_append.mp hw2 with hw3 | hw3
        · exact uC6_catt w hw3
        · rw [List.mem_singleton] at hw3
          rw [hw3]
          exact hca1
      · rw [List.mem_singleton] at hw2
        rw [hw2]
        exact hca2
    rw [combatApplyPhase_nil envZero _ hd3p]
    rw [deadRemovalPhase_nil _ hd3dead]
    rw [attackerCleanupPhase_noatt _ hd3catt]
    rw [winPhase_units]
    dsimp only
    rw [updateBridgeAnimations_units, hd3u, unitCount_append,
      unitCount_append, uC6_count,
      unitCount_singleton_pos nu1 7 AnimalId.Bee ⟨hk1, ho1, ha1⟩,
      unitCount_singleton_pos nu2 7 AnimalId.Bee ⟨hk2, ho2, ha2⟩]
    norm_num
  unfold tick
  rw [if_neg (show ¬(¬sC6.matchStarted = true ∨ sC6.isPaused = true) by
    simp [sC6, baseState])]
  dsimp only
  rw [show sC6.units = uC6 from rfl, uC6_snap, uC6_queens]
  exact main _ _ rfl rfl (fun k => rfl) (fun k => rfl) (fun k => rfl)
    (fun k => rfl) rfl rfl rfl rfl rfl (fun k => rfl) rfl rfl

/-- A one-queen draft on which the amended spawn characterization applies. -/
def dC6w : Draft :=
  ⟨{ baseState with matchStarted := true, units := [cQueen] },
    buildFromUnits [cQueen], [], 0, 0, 0, []⟩

/-- C6 amended witness: the spawn characterization applied at a concrete
due, below-cap queen. -/
theorem spawn_cached_cap_amended_witness :
    (∃ nu : Unit,
      (spawnStep envZero 20000 dC6w cQueen).gs.units =
        dC6w.gs.units ++ [nu] ∧
      nu.kind = UnitKind.Unit ∧ nu.ownerId = cQueen.ownerId ∧
      nu.animal = cQueen.animal ∧ nu.id = envZero.freshId dC6w.idc ∧
      nu.hp = (ANIMALS cQueen.animal).baseHp ∧
      nu.maxHp = (ANIMALS cQueen.animal).baseHp ∧
      nu.lastCombatTargetId = none ∧ nu.currentAttackers = none) ∧
    (spawnStep envZero 20000 dC6w cQueen).gs.lastSpawnAtMsByQueenId
      cQueen.id = some 20000 :=
  ⟨((spawn_cached_cap_amended envZero 20000 dC6w cQueen).1
      (by norm_num [dC6w, baseState, defaultConfig, cQueen])).1.1
      (by norm_num [dC6w, baseState, cQueen]),
   ((spawn_cached_cap_amended envZero 20000 dC6w cQueen).1
      (by norm_num [dC6w, baseState, defaultConfig, cQueen])).2.1⟩

/-- C3 witness: the invariant applied to a concrete one-unit state. -/
theorem tick_hp_invariant_witness :
    (∀ u ∈ sC3.units, 0 < u.hp ∧ u.hp ≤ u.maxHp ∧ 0 ≤ u.attackDamage) ∧
    (∀ u ∈ (tick envZero [] sC3 1 1000).units,
      0 < u.hp ∧ u.hp ≤ u.maxHp) :=
  ⟨by
    intro u hu
    rw [show sC3.units = [cUnitA] from rfl, List.mem_singleton] at hu
    rw [hu]
    norm_num [cUnitA],
   tick_hp_invariant envZero [] sC3 1 1000
    (fun a b h => by simpa [envZero] using h)
    (by
      intro u hu
      rw [show sC3.units = [cUnitA] from rfl, List.mem_singleton] at hu
      rw [hu]
      norm_num [cUnitA])
    rfl
    (by simp [sC3, baseState])
    (by
      intro n
      simp only [sC3, baseState, cUnitA, envZero, List.map_cons, List.map_nil,
        List.mem_singleton]
      omega)⟩

end

end RTS
